import Mathlib

/-! # Smartlet backend: upload coordinator, MQTT connection retry, telemetry ingestion

A shallow embedding of the Go sources

* `internal/handlers/upload.go`  (`UploadUserProfile`, `UploadArticleCover`)
* `internal/services/mqtt.go`    (`Connect`, `ConnectWithRetry`, `handleSensorData`,
  `PublishControlCommand`, `subscribe`)
* `internal/services/s3.go`      (`UploadFile`, `generateUniqueFilename`, the validators)

Third-party collaborators (the S3 client, `database/sql`, the paho MQTT client,
`encoding/json`, `time`) are not part of the repository.  Their answers are inputs of the
model (`Outcomes`, `IngestEnv`, the token function of `ConnectWithRetry`); their effect on
the stores is written out on an explicit `World`, and every call a function of the
repository makes to them is appended to `World.calls`.  A call that reports an error leaves
its store as it was; a successful upload stores the object under the reported key, replacing
an object already stored under that key.  Log output is not modelled.
-/

namespace Smartlet

/-! ## Go values -/

/-- Go `error` values: either a plain message, or the result of `fmt.Errorf` with a
trailing `%w` verb, which keeps the wrapped error reachable through `Unwrap`. -/
inductive GoError where
  | base (msg : String)
  | wrap (msg : String) (inner : GoError)
  deriving DecidableEq, Repr

/-- The `Error()` method: for `fmt.Errorf(msg + "%w", inner)` the text of `inner` is
appended to `msg`. -/
def GoError.Error : GoError → String
  | .base msg => msg
  | .wrap msg inner => msg ++ inner.Error

/-- The `Unwrap()` method of the value built by `fmt.Errorf(... %w ...)`. -/
def GoError.Unwrap : GoError → Option GoError
  | .base _ => none
  | .wrap _ inner => some inner

/-- A `float64`, kept as its IEEE-754 bit pattern; the code under study only moves such
values from the payload to the store. -/
structure Float64 where
  bits : Nat
  deriving DecidableEq, Repr

/-- A `time.Time`: instant in nanoseconds since the Unix epoch and zone offset in seconds. -/
structure Time where
  unixNano : Int
  zoneOffset : Int
  deriving DecidableEq, Repr

/-- The `strconv.Atoi` function on a 64-bit platform: an optional sign followed by at
least one decimal digit, the value within the range of `int`. -/
def Atoi (s : String) : Option Int :=
  let digits : List Char :=
    match s.toList with
    | '+' :: rest => rest
    | '-' :: rest => rest
    | cs => cs
  if digits.isEmpty || !digits.all Char.isDigit then none
  else
    let n : Nat := digits.foldl (fun acc c => 10 * acc + (c.toNat - 48)) 0
    let v : Int := if s.toList.head? = some '-' then -(n : Int) else (n : Int)
    if v < -(2 : Int) ^ 63 ∨ (2 : Int) ^ 63 - 1 < v then none else some v

/-! ## Data model (`internal/services/s3.go`, `internal/services/mqtt.go`) -/

/-- The `multipart.FileHeader` fields the code reads. -/
structure FileHeader where
  Filename : String
  Size : Int
  deriving DecidableEq, Repr

/-- The `UploadResult` struct of `s3.go`. -/
structure UploadResult where
  URL : String
  Key : String
  Bucket : String
  Size : Int
  MimeType : String
  deriving DecidableEq, Repr

/-- The `SensorData` struct of `mqtt.go`. -/
structure SensorData where
  InstallCode : String
  Suhu : Float64
  Kelembaban : Float64
  Timestamp : String
  deriving DecidableEq, Repr

/-- One row of the `sensors` table of the time-series store, as written by the `INSERT`
of `handleSensorData`. -/
structure SensorRow where
  install_code : String
  suhu : Float64
  kelembaban : Float64
  timestamp : Time
  deriving DecidableEq, Repr

/-- The calls the modelled functions make to their collaborators. -/
inductive Call where
  /-- Call `h.s3Service.UploadUserProfileImage(file, header, userID)`. -/
  | uploadUserProfileImage (header : FileHeader) (userID : Int)
  /-- Call `h.s3Service.UploadArticleCover(file, header, articleID)`. -/
  | uploadArticleCover (header : FileHeader) (articleID : Int)
  /-- Call `h.s3Service.DeleteFile(key)`. -/
  | deleteFile (key : String)
  /-- Statement `UPDATE users SET img_profile = $1 WHERE id = $2`. -/
  | updateUserImage (url : String) (userID : Int)
  /-- Statement `UPDATE articles SET cover_image = $1 WHERE id = $2`. -/
  | updateArticleCover (url : String) (articleID : Int)
  /-- Query `SELECT COUNT(*) FROM articles WHERE id = $1`. -/
  | countArticles (articleID : Int)
  /-- Query `SELECT COUNT(*) FROM iot_devices WHERE install_code = $1`. -/
  | countDevices (installCode : String)
  /-- Statement `INSERT INTO sensors (install_code, suhu, kelembaban, timestamp) VALUES ($1, $2, $3, $4)`. -/
  | insertSensor (row : SensorRow)
  deriving DecidableEq, Repr

/-- The stores the code talks to, and the log of calls made so far.

* `objects`: the bucket, one `(key, location)` pair per stored object;
* `users`, `articles`: the relational rows `(id, img_profile)` and `(id, cover_image)`,
  the image column being nullable;
* `iot_devices`: the `install_code` column of the device registrations;
* `sensors`: the time-series table. -/
structure World where
  objects : List (String × String)
  users : List (Int × Option String)
  articles : List (Int × Option String)
  iot_devices : List String
  sensors : List SensorRow
  calls : List Call
  deriving DecidableEq, Repr

/-- Append a call to the log. -/
def World.record (w : World) (c : Call) : World :=
  { w with calls := w.calls ++ [c] }

/-- Effect of a successful S3 upload that reported `r`: the object `r.Key` now exists at
`r.URL`, replacing any object stored under the same key. -/
def World.putObject (w : World) (r : UploadResult) : World :=
  { w with objects := (r.Key, r.URL) :: w.objects.filter (fun o => o.1 ≠ r.Key) }

/-- Effect of a successful S3 `DeleteObject`: no object is stored under `key` any more. -/
def World.removeObject (w : World) (key : String) : World :=
  { w with objects := w.objects.filter (fun o => o.1 ≠ key) }

/-- Effect of a successful `UPDATE users SET img_profile = $1 WHERE id = $2`. -/
def World.setUserImage (w : World) (url : String) (userID : Int) : World :=
  { w with users := w.users.map (fun row => if row.1 = userID then (row.1, some url) else row) }

/-- Effect of a successful `UPDATE articles SET cover_image = $1 WHERE id = $2`. -/
def World.setArticleCover (w : World) (url : String) (articleID : Int) : World :=
  { w with
    articles := w.articles.map (fun row => if row.1 = articleID then (row.1, some url) else row) }

/-! ## Upload handlers (`internal/handlers/upload.go`) -/

/-- What the handler reads from the `gin.Context`: the `user_id` set by the
authentication middleware, the `article_id` path parameter, and the multipart form
(`c.Request.FormFile(field)`, `none` when it returns an error). -/
structure Request where
  userID : Option Int
  articleParam : String
  formFile : String → Option FileHeader

/-- Answers of the collaborators during one handler run: the result of the gateway upload
(`UploadUserProfileImage` / `UploadArticleCover`), and the errors (if any) of the
`SELECT COUNT(*)`, of the `UPDATE` and of `DeleteFile`. -/
structure Outcomes where
  upload : Except GoError UploadResult
  queryErr : Option GoError
  execErr : Option GoError
  deleteErr : Option GoError

/-- JSON body written by `c.JSON`: a `models.ErrorResponse`, or the success object
(`article_id` is present for the cover upload only). -/
inductive Body where
  | error (msg : String)
  | ok (message : String) (url : String) (articleID : Option Int) (size : Int)
  deriving DecidableEq, Repr

/-- HTTP status and body written by `c.JSON`. -/
structure Response where
  status : Nat
  body : Body
  deriving DecidableEq, Repr

/-- The call `s.s3Client.DeleteObject` behind `DeleteFile(key)`: logged, and the object is
removed when the call succeeds.  The returned error is what `DeleteFile` returns. -/
def DeleteFile (out : Outcomes) (key : String) (w : World) : Option GoError × World :=
  let w1 := w.record (.deleteFile key)
  match out.deleteErr with
  | some e => (some (.wrap "failed to delete file: " e), w1)
  | none => (none, w1.removeObject key)

/-- Handler `UploadUserProfile` of `upload.go`. -/
def UploadUserProfile (req : Request) (out : Outcomes) (w : World) : Response × World :=
  match req.userID with
  | none => (⟨401, .error "User not authenticated"⟩, w)
  | some userID =>
    match req.formFile "image" with
    | none => (⟨400, .error "No file uploaded"⟩, w)
    | some header =>
      -- Upload to S3
      let w1 := w.record (.uploadUserProfileImage header userID)
      match out.upload with
      | .error err => (⟨500, .error ("Failed to upload file: " ++ err.Error)⟩, w1)
      | .ok result =>
        let w2 := w1.putObject result
        -- Update user profile image in database
        let w3 := w2.record (.updateUserImage result.URL userID)
        match out.execErr with
        | some _ =>
          -- If database update fails, try to delete the uploaded file
          let (_, w4) := DeleteFile out result.Key w3
          (⟨500, .error "Failed to update user profile"⟩, w4)
        | none =>
          (⟨200, .ok "Profile image uploaded successfully" result.URL none result.Size⟩,
            w3.setUserImage result.URL userID)

/-- Handler `UploadArticleCover` of `upload.go`. -/
def UploadArticleCover (req : Request) (out : Outcomes) (w : World) : Response × World :=
  match Atoi req.articleParam with
  | none => (⟨400, .error "Invalid article ID"⟩, w)
  | some articleID =>
    -- Check if article exists
    let w0 := w.record (.countArticles articleID)
    match out.queryErr with
    | some _ => (⟨500, .error "Database error"⟩, w0)
    | none =>
      let count : Int := ((w0.articles.filter (fun row => row.1 = articleID)).length : Int)
      if count = 0 then (⟨404, .error "Article not found"⟩, w0)
      else
        match req.formFile "cover" with
        | none => (⟨400, .error "No file uploaded"⟩, w0)
        | some header =>
          -- Upload to S3
          let w1 := w0.record (.uploadArticleCover header articleID)
          match out.upload with
          | .error err => (⟨500, .error ("Failed to upload file: " ++ err.Error)⟩, w1)
          | .ok result =>
            let w2 := w1.putObject result
            -- Update article cover image in database
            let w3 := w2.record (.updateArticleCover result.URL articleID)
            match out.execErr with
            | some _ =>
              -- If database update fails, try to delete the uploaded file
              let (_, w4) := DeleteFile out result.Key w3
              (⟨500, .error "Failed to update article cover"⟩, w4)
            | none =>
              (⟨200, .ok "Article cover uploaded successfully" result.URL (some articleID)
                  result.Size⟩,
                w3.setArticleCover result.URL articleID)

/-- Keys passed to `DeleteFile`, in call order. -/
def deleteCalls : List Call → List String
  | [] => []
  | .deleteFile key :: rest => key :: deleteCalls rest
  | _ :: rest => deleteCalls rest

/-- Number of relational `UPDATE` statements in a log. -/
def updateCalls : List Call → Nat
  | [] => 0
  | .updateUserImage _ _ :: rest => updateCalls rest + 1
  | .updateArticleCover _ _ :: rest => updateCalls rest + 1
  | _ :: rest => updateCalls rest

/-! ## Connection retry (`internal/services/mqtt.go`) -/

/-- What `ConnectWithRetry` does that can be observed from outside: a call of `Connect`,
or a `time.Sleep` of the given `time.Duration` (nanoseconds). -/
inductive Event where
  | connect
  | sleep (d : Int)
  deriving DecidableEq, Repr

/-- The constant `time.Second`, in nanoseconds. -/
def Second : Int := 1000000000

/-- Two's-complement wrap-around of `int64` arithmetic (`time.Duration` is an `int64`). -/
def wrapInt64 (x : Int) : Int :=
  (x + 2 ^ 63) % 2 ^ 64 - 2 ^ 63

/-- Method `Connect` of `mqtt.go`; `tokenErr` is `token.Error()` of the token returned by
`s.client.Connect()` once `token.Wait()` has returned. -/
def Connect (tokenErr : Option GoError) : Option GoError :=
  match tokenErr with
  | some e => some (.wrap "failed to connect to MQTT broker: " e)
  | none => none

/-- How the `for` loop of `ConnectWithRetry` is left: through the `return nil` in its body,
or because `i < maxRetries` no longer holds, with the value `lastErr` then has. -/
inductive LoopExit where
  | returned (err : Option GoError)
  | finished (lastErr : Option GoError)
  deriving DecidableEq, Repr

/-- The loop `for i := 0; i < maxRetries; i++` of `ConnectWithRetry`, started at loop
counter `i` with `n` iterations left (`n = maxRetries - i`), local variables `lastErr` and
`backoff`.  `token k` is the token error of the `k`-th call of `s.client.Connect()`,
counted from `0`.  The second component lists the events of the loop in order. -/
def retryLoop (token : Nat → Option GoError) (maxRetries : Int) :
    Nat → Nat → Option GoError → Int → LoopExit × List Event
  | 0, _, lastErr, _ => (.finished lastErr, [])
  | n + 1, i, _, backoff =>
    match Connect (token i) with
    | some err =>
      if (i : Int) < maxRetries - 1 then
        let doubled := wrapInt64 (backoff * 2)
        let next := if doubled > 30 * Second then 30 * Second else doubled
        let rest := retryLoop token maxRetries n (i + 1) (some err) next
        (rest.1, .connect :: .sleep backoff :: rest.2)
      else
        let rest := retryLoop token maxRetries n (i + 1) (some err) backoff
        (rest.1, .connect :: rest.2)
    | none => (.returned none, [.connect])

/-- The value of `fmt.Errorf("failed to connect to MQTT after %d attempts: %w", maxRetries,
lastErr)`: it wraps `lastErr`; with a nil operand the verb prints `%!w(<nil>)` and
nothing is wrapped. -/
def retryError (maxRetries : Int) (lastErr : Option GoError) : GoError :=
  match lastErr with
  | some e => .wrap ("failed to connect to MQTT after " ++ toString maxRetries ++ " attempts: ") e
  | none =>
    .base ("failed to connect to MQTT after " ++ toString maxRetries ++ " attempts: %!w(<nil>)")

/-- Method `ConnectWithRetry` of `mqtt.go`: the returned error (`none` for `nil`) and the
events in order. -/
def ConnectWithRetry (token : Nat → Option GoError) (maxRetries : Int) :
    Option GoError × List Event :=
  match retryLoop token maxRetries maxRetries.toNat 0 none (1 * Second) with
  | (.returned err, events) => (err, events)
  | (.finished lastErr, events) => (some (retryError maxRetries lastErr), events)

/-- Number of `Connect` calls in an event list. -/
def connectCount : List Event → Nat
  | [] => 0
  | .connect :: rest => connectCount rest + 1
  | .sleep _ :: rest => connectCount rest

/-- Durations of the sleeps of an event list, in order. -/
def sleeps : List Event → List Int
  | [] => []
  | .connect :: rest => sleeps rest
  | .sleep d :: rest => d :: sleeps rest

/-- The claimed delay after attempt `k` (counted from `0`): `min (2 ^ k) 30` seconds, that
is 1, 2, 4, 8, 16, 30, 30, ... seconds. -/
def delayAfter (k : Nat) : Int :=
  ((min (2 ^ k) 30 : Nat) : Int) * Second

/-- The claimed events of attempts `i, ..., i + n - 1` when all of them fail and `total`
attempts are allowed: each attempt is followed by its delay, except attempt `total - 1`,
which is followed by nothing. -/
def failedEventsFrom (total i n : Nat) : List Event :=
  (List.range' i n).flatMap fun k =>
    if k + 1 < total then [Event.connect, Event.sleep (delayAfter k)] else [Event.connect]

/-- The claimed shape of a run of `n` failed attempts out of `n`. -/
def failedRunEvents (n : Nat) : List Event :=
  failedEventsFrom n 0 n

/-- The claimed shape of a run whose `j`-th attempt is the first to succeed: `j - 1`
failed attempts, each followed by its delay, then the successful attempt and nothing
more. -/
def successRunEvents (j : Nat) : List Event :=
  ((List.range (j - 1)).flatMap fun k => [Event.connect, Event.sleep (delayAfter k)])
    ++ [Event.connect]

/-! ## Telemetry ingestion (`internal/services/mqtt.go`) -/

/-- Inputs of one `handleSensorData` run that come from outside the repository:
`json.Unmarshal` into a `SensorData`, `time.Now()`, `time.Parse(time.RFC3339, ·)`, and the
errors (if any) of the device lookup and of the `INSERT`. -/
structure IngestEnv where
  unmarshal : List UInt8 → Except GoError SensorData
  now : Time
  parseRFC3339 : String → Except GoError Time
  lookupErr : Option GoError
  insertErr : Option GoError

/-- Callback `handleSensorData` of `mqtt.go`, run on the payload of one message.  The Go
function has no result; the model returns the world after the run. -/
def handleSensorData (env : IngestEnv) (payload : List UInt8) (w : World) : World :=
  match env.unmarshal payload with
  | .error _ => w
  | .ok data =>
    -- Parse timestamp or use current time
    let timestamp : Time :=
      if data.Timestamp ≠ "" then
        match env.parseRFC3339 data.Timestamp with
        | .ok parsedTime => parsedTime
        | .error _ => env.now
      else env.now
    -- Validate install_code exists in iot_devices table
    let w1 := w.record (.countDevices data.InstallCode)
    match env.lookupErr with
    | some _ => w1
    | none =>
      let count : Int := ((w1.iot_devices.filter (fun c => c = data.InstallCode)).length : Int)
      if count = 0 then w1
      else
        -- Insert sensor data into TimescaleDB
        let row : SensorRow := ⟨data.InstallCode, data.Suhu, data.Kelembaban, timestamp⟩
        let w2 := w1.record (.insertSensor row)
        match env.insertErr with
        | some _ => w2
        | none => { w2 with sensors := w2.sensors ++ [row] }

/-- Rows carried by the `INSERT` statements of a call log, in order. -/
def insertCalls : List Call → List SensorRow
  | [] => []
  | .insertSensor row :: rest => row :: insertCalls rest
  | _ :: rest => insertCalls rest

/-- Install codes looked up in the device registrations, in order. -/
def lookupCalls : List Call → List String
  | [] => []
  | .countDevices code :: rest => code :: lookupCalls rest
  | _ :: rest => lookupCalls rest

/-! ## Command publishing and subscription (`internal/services/mqtt.go`) -/

/-- The struct `MQTTConfig` of `internal/config/config.go`. -/
structure MQTTConfig where
  Broker : String
  ClientID : String
  Username : String
  Password : String
  TopicSensor : String
  TopicControl : String
  deriving DecidableEq, Repr

/-- The part of the struct `MQTTService` that is data of the repository: its configuration
(`s.config.MQTT`).  The client and the database handles are collaborators. -/
structure MQTTService where
  config : MQTTConfig
  deriving DecidableEq, Repr

/-- The calls made on the MQTT client: `Publish(topic, qos, retained, payload)` and
`Subscribe(topic, qos, callback)`, the callback being a message handler of the service. -/
inductive ClientCall where
  | publish (topic : String) (qos : Nat) (retained : Bool) (payload : List UInt8)
  | subscribe (topic : String) (qos : Nat)
      (callback : IngestEnv → List UInt8 → World → World)

/-- Method `PublishControlCommand` of `mqtt.go`.  `jsonMarshal` is `json.Marshal` on the
type of the command, `tokenErr` is `token.Error()` of the token returned by `Publish` once
`token.Wait()` has returned.  The result is the returned error (`none` for `nil`) and the
calls made on the client. -/
def PublishControlCommand {Command : Type} (_s : MQTTService)
    (jsonMarshal : Command → Except GoError (List UInt8)) (tokenErr : Option GoError)
    (installCode : String) (command : Command) : Option GoError × List ClientCall :=
  let topic := "control/" ++ installCode ++ "/command"
  match jsonMarshal command with
  | .error err => (some (.wrap "failed to marshal command: " err), [])
  | .ok payload =>
    match tokenErr with
    | some e => (some (.wrap "failed to publish command: " e), [.publish topic 1 false payload])
    | none => (none, [.publish topic 1 false payload])

/-- Method `subscribe` of `mqtt.go`.  `tokenErr` is `token.Error()` of the token returned
by `Subscribe`.  The Go method has no result; the model returns whether the branch
`Subscribed to topic` was taken, and the calls made on the client. -/
def subscribe (s : MQTTService) (tokenErr : Option GoError) : Bool × List ClientCall :=
  let topic := s.config.TopicSensor
  let calls := [ClientCall.subscribe topic 1 handleSensorData]
  match tokenErr with
  | some _ => (false, calls)
  | none => (true, calls)

/-- The handler registered by `NewMQTTService` with `opts.SetOnConnectHandler`: it logs and
calls `service.subscribe()`. -/
def onConnectHandler (s : MQTTService) (tokenErr : Option GoError) : Bool × List ClientCall :=
  subscribe s tokenErr

/-- The calls made on the client while the on-connect handler fires once per element of
`answers`, the element being the answer of the broker to the `Subscribe` of that firing. -/
def onConnectCalls (s : MQTTService) (answers : List (Option GoError)) : List ClientCall :=
  answers.flatMap fun tokenErr => (onConnectHandler s tokenErr).2

/-! ## Go strings (`strings`, `path/filepath`, `unicode`, `time`, `github.com/google/uuid`)

Go strings are modelled by Lean strings, that is by valid UTF-8 texts.  The separator of
`path/filepath` is the one of the deployment platform, `/`. -/

/-- The function `unicode.ToLower`: a rune up to `unicode.MaxASCII` is lowered by
arithmetic on `A`..`Z`; every other rune is looked up in the case tables of the `unicode`
package, which are not part of the repository and are the parameter `table`. -/
def unicodeToLower (table : Char → Char) (r : Char) : Char :=
  if r.toNat ≤ 127 then r.toLower else table r

/-- The function `strings.ToLower`: every rune is mapped by `unicode.ToLower`. -/
def ToLower (table : Char → Char) (s : String) : String :=
  ⟨s.toList.map (unicodeToLower table)⟩

/-- The loop of `filepath.Ext`, walking from the end of the path towards its start: `acc`
holds the characters already passed.  It stops with the empty extension at a separator and
with the suffix that starts at the dot when it meets a dot. -/
def extScan : List Char → List Char → List Char
  | [], _ => []
  | c :: before, acc =>
    if c = '/' then [] else if c = '.' then '.' :: acc else extScan before (c :: acc)

/-- The function `filepath.Ext`: the suffix beginning at the final dot in the final element
of the path, empty if there is no dot. -/
def Ext (path : String) : String :=
  ⟨extScan path.toList.reverse []⟩

/-- The function `filepath.Base`: the last element of the path, trailing separators
removed; `.` for the empty path and `/` for a path of separators only. -/
def Base (path : String) : String :=
  if path = "" then "."
  else
    let stripped := path.toList.reverse.dropWhile (fun c => c = '/')
    let last := (stripped.takeWhile (fun c => c ≠ '/')).reverse
    if last = [] then "/" else ⟨last⟩

/-- The function `strings.TrimSuffix`. -/
def TrimSuffix (s suffix : String) : String :=
  if suffix.toList <:+ s.toList then ⟨s.toList.take (s.toList.length - suffix.toList.length)⟩
  else s

/-- The function `strings.ReplaceAll` for one-character `old` and `new`, its only use in the
repository. -/
def ReplaceAll (s : String) (old new : Char) : String :=
  ⟨s.toList.map (fun c => if c = old then new else c)⟩

/-- The 16 bytes of a `uuid.UUID`. -/
structure UUID where
  bytes : List UInt8
  size : bytes.length = 16

/-- One entry of the table `0123456789abcdef` of `encoding/hex`. -/
def hexDigit (n : Nat) : Char :=
  "0123456789abcdef".toList.getD n '0'

/-- The function `hex.Encode`: two lower-case hexadecimal digits per byte. -/
def hexEncode (bs : List UInt8) : List Char :=
  bs.flatMap fun b => [hexDigit (b.toNat / 16), hexDigit (b.toNat % 16)]

/-- The method `UUID.String`: the form `xxxxxxxx-xxxx-xxxx-xxxx-xxxxxxxxxxxx`. -/
def UUID.String (u : UUID) : String :=
  ⟨hexEncode (u.bytes.take 4) ++ '-' :: (hexEncode ((u.bytes.drop 4).take 2)
    ++ '-' :: (hexEncode ((u.bytes.drop 6).take 2) ++ '-' :: (hexEncode ((u.bytes.drop 8).take 2)
    ++ '-' :: hexEncode (u.bytes.drop 10))))⟩

/-- The civil date and time read from a `time.Time`. -/
structure Clock where
  year : Nat
  month : Nat
  day : Nat
  hour : Nat
  minute : Nat
  second : Nat
  deriving DecidableEq, Repr

/-- The helper `appendInt` of package `time`: the decimal digits of `x`, padded with
zeros on the left up to `width` characters (longer numbers are not cut). -/
def appendInt (x width : Nat) : List Char :=
  List.replicate (width - (Nat.repr x).toList.length) '0' ++ (Nat.repr x).toList

/-- The call `Format("20060102_150405")`: year, month, day, an underscore, hour, minute and
second. -/
def Clock.Format (c : Clock) : String :=
  ⟨appendInt c.year 4 ++ (appendInt c.month 2 ++ (appendInt c.day 2 ++ '_' ::
    (appendInt c.hour 2 ++ (appendInt c.minute 2 ++ appendInt c.second 2))))⟩

/-! ## Object storage gateway (`internal/services/s3.go`) -/

/-- The calls of the S3 service to its collaborators. -/
inductive S3Call where
  /-- Call `uuid.New()`. -/
  | uuidNew
  /-- Call `time.Now()`. -/
  | timeNow
  /-- Call `s.uploader.Upload` with the `Bucket`, `Key` and `ContentType` of its input. -/
  | upload (bucket : String) (key : String) (contentType : String)
  deriving DecidableEq, Repr

/-- What one `UploadFile` run takes from outside the repository: the case tables of
package `unicode`, the configured bucket `s.config.S3.Bucket`, the value of `uuid.New()`,
the reading of `time.Now()`, and the answer of `s.uploader.Upload` (the `Location` of the
stored object, or an error). -/
structure S3Env where
  table : Char → Char
  bucket : String
  uuid : UUID
  clock : Clock
  uploaded : Except GoError String

/-- The variable `ImageTypes` of `s3.go`. -/
def ImageTypes : List String := [".jpg", ".jpeg", ".png", ".gif", ".webp"]

/-- The variable `DocTypes` of `s3.go`. -/
def DocTypes : List String := [".pdf", ".epub", ".mobi", ".doc", ".docx"]

/-- The variable `VideoTypes` of `s3.go`. -/
def VideoTypes : List String := [".mp4", ".avi", ".mov", ".wmv", ".flv"]

namespace S3Service

/-- Helper `isAllowedFileType` of `s3.go`. -/
def isAllowedFileType (ext : String) : Bool :=
  ((ImageTypes ++ DocTypes) ++ VideoTypes).any fun allowedExt => ext = allowedExt

/-- Helper `isDocumentType` of `s3.go`. -/
def isDocumentType (ext : String) : Bool :=
  DocTypes.any fun docExt => ext = docExt

/-- The map literal of `getMimeType`. -/
def mimeTypes : List (String × String) :=
  [(".jpg", "image/jpeg"), (".jpeg", "image/jpeg"), (".png", "image/png"),
    (".gif", "image/gif"), (".webp", "image/webp"), (".pdf", "application/pdf"),
    (".epub", "application/epub+zip"), (".mobi", "application/x-mobipocket-ebook"),
    (".doc", "application/msword"),
    (".docx", "application/vnd.openxmlformats-officedocument.wordprocessingml.document"),
    (".mp4", "video/mp4"), (".avi", "video/x-msvideo"), (".mov", "video/quicktime")]

/-- Helper `getMimeType` of `s3.go`. -/
def getMimeType (ext : String) : String :=
  match mimeTypes.lookup ext with
  | some mimeType => mimeType
  | none => "application/octet-stream"

/-- Helper `generateUniqueFilename` of `s3.go`: the key, and the calls made to draw the
UUID and to read the clock. -/
def generateUniqueFilename (env : S3Env) (originalFilename folder : String) :
    String × List S3Call :=
  let ext := Ext originalFilename
  let name := TrimSuffix (Base originalFilename) ext
  -- Sanitize filename
  let name := ReplaceAll name ' ' '_'
  let name := ToLower env.table name
  -- Add UUID for uniqueness
  let uniqueID : String := ⟨env.uuid.String.toList.take 8⟩
  let timestamp := env.clock.Format
  if folder ≠ "" then
    (folder ++ "/" ++ name ++ "_" ++ timestamp ++ "_" ++ uniqueID ++ ext, [.uuidNew, .timeNow])
  else
    (name ++ "_" ++ timestamp ++ "_" ++ uniqueID ++ ext, [.uuidNew, .timeNow])

/-- Method `UploadFile` of `s3.go`: its two results (`*UploadResult`, `error`) as an
`Except`, and the calls made in order. -/
def UploadFile (env : S3Env) (header : FileHeader) (folder : String) :
    Except GoError UploadResult × List S3Call :=
  -- Validate file type
  let ext := ToLower env.table (Ext header.Filename)
  if !isAllowedFileType ext then
    (.error (.base ("file type " ++ ext ++ " is not allowed")), [])
  else
    -- Validate file size (10MB limit for images, 50MB for docs)
    let maxSize : Int := if isDocumentType ext then 50 * 1024 * 1024 else 10 * 1024 * 1024
    if header.Size > maxSize then
      (.error (.base ("file size " ++ toString header.Size
        ++ " exceeds maximum allowed size " ++ toString maxSize)), [])
    else
      -- Generate unique filename
      let generated := generateUniqueFilename env header.Filename folder
      let filename := generated.1
      -- Upload to S3
      let calls := generated.2 ++ [.upload env.bucket filename (getMimeType ext)]
      match env.uploaded with
      | .error err => (.error (.wrap "failed to upload file: " err), calls)
      | .ok location =>
        (.ok { URL := location, Key := filename, Bucket := env.bucket, Size := header.Size,
               MimeType := getMimeType ext }, calls)

/-- Method `UploadUserProfileImage` of `s3.go`. -/
def UploadUserProfileImage (env : S3Env) (header : FileHeader) (userID : Int) :
    Except GoError UploadResult × List S3Call :=
  UploadFile env header ("users/" ++ toString userID ++ "/profile")

/-- Method `UploadArticleCover` of `s3.go`. -/
def UploadArticleCover (env : S3Env) (header : FileHeader) (articleID : Int) :
    Except GoError UploadResult × List S3Call :=
  UploadFile env header ("articles/" ++ toString articleID ++ "/cover")

/-- Method `UploadEBook` of `s3.go`. -/
def UploadEBook (env : S3Env) (header : FileHeader) :
    Except GoError UploadResult × List S3Call :=
  UploadFile env header "ebooks"

end S3Service

/-! ## Presigned URLs (`internal/services/s3.go`, `scripts/`) -/

/-- The constant `time.Minute`, in nanoseconds. -/
def Minute : Int := 60 * Second

/-- The constant `time.Hour`, in nanoseconds. -/
def Hour : Int := 60 * Minute

/-- The calls of `GeneratePresignedURL` on the S3 client: `GetObjectRequest` with the
bucket and key of its input, and `Presign` with a `time.Duration` (nanoseconds). -/
inductive PresignCall where
  | getObjectRequest (bucket : String) (key : String)
  | presign (expire : Int)
  deriving DecidableEq, Repr

/-- Method `GeneratePresignedURL` of `s3.go`; `presigned` is the answer of
`req.Presign(expiration)`. -/
def S3Service.GeneratePresignedURL (bucket : String) (presigned : Except GoError String)
    (key : String) (expiration : Int) : Except GoError String × List PresignCall :=
  let calls := [PresignCall.getObjectRequest bucket key, PresignCall.presign expiration]
  match presigned with
  | .error err => (.error (.wrap "failed to generate presigned URL: " err), calls)
  | .ok url => (.ok url, calls)

/-- The call `s3Service.GeneratePresignedURL(testKey, 3600)` of `scripts/test_minio.go`,
commented `// 1 hour` there: the untyped constant `3600` becomes the `time.Duration`
3600. -/
def testMinioPresign (bucket : String) (presigned : Except GoError String) :
    Except GoError String × List PresignCall :=
  S3Service.GeneratePresignedURL bucket presigned "test/connection-test.txt" 3600

/-- The call `s3Service.GeneratePresignedURL(result.Key, 3600)` of
`scripts/test_traefik_upload.go`. -/
def testTraefikPresign (bucket : String) (presigned : Except GoError String)
    (result : UploadResult) : Except GoError String × List PresignCall :=
  S3Service.GeneratePresignedURL bucket presigned result.Key 3600

/-! ## Decoding the payload (`encoding/json`, `internal/services/mqtt.go`)

The call `json.Unmarshal(msg.Payload(), &data)` of `handleSensorData`, for the struct
`SensorData` and its tags. -/

/-- A JSON text as the scanner of `encoding/json` reads it; a number keeps its literal. -/
inductive JsonValue where
  | null
  | bool (b : Bool)
  | number (literal : String)
  | string (s : String)
  | array (items : List JsonValue)
  | object (members : List (String × JsonValue))

/-- The word an `UnmarshalTypeError` uses for a value. -/
def JsonValue.kind : JsonValue → String
  | .null => "null"
  | .bool _ => "bool"
  | .number _ => "number"
  | .string _ => "string"
  | .array _ => "array"
  | .object _ => "object"

/-- The fields of the struct `SensorData`, in the order of their declaration. -/
inductive SensorField where
  | InstallCode
  | Suhu
  | Kelembaban
  | Timestamp
  deriving DecidableEq, Repr

/-- The JSON name of a field, from its struct tag. -/
def SensorField.tag : SensorField → String
  | .InstallCode => "install_code"
  | .Suhu => "suhu"
  | .Kelembaban => "kelembaban"
  | .Timestamp => "timestamp"

/-- The Go type of a field. -/
def SensorField.goType : SensorField → String
  | .InstallCode => "string"
  | .Suhu => "float64"
  | .Kelembaban => "float64"
  | .Timestamp => "string"

/-- The fields of `SensorData` in the order of the struct. -/
def sensorFields : List SensorField := [.InstallCode, .Suhu, .Kelembaban, .Timestamp]

/-- What `json.Unmarshal` takes from outside the repository: the scanner (the syntax check
and the reading of the text), `strconv.ParseFloat` at 64 bits (`none` when it fails), and
the case folding under which a member key matches a field name. -/
structure JsonEnv where
  scan : List UInt8 → Except GoError JsonValue
  parseFloat : String → Option Float64
  equalFold : String → String → Bool

/-- The field in which the member with key `key` is stored: the field whose name is the
key, else the first field whose name matches the key under case folding; a key that
matches no field is skipped. -/
def fieldOf (equalFold : String → String → Bool) (key : String) : Option SensorField :=
  match sensorFields.find? (fun f => f.tag = key) with
  | some f => some f
  | none => sensorFields.find? (fun f => equalFold f.tag key)

/-- The `UnmarshalTypeError` for a value that does not fit the field it is stored in. -/
def typeError (value : String) (f : SensorField) : GoError :=
  .base ("json: cannot unmarshal " ++ value ++ " into Go struct field SensorData." ++ f.tag
    ++ " of type " ++ f.goType)

/-- The decoder keeps the first error it meets and goes on. -/
def saveError (saved : Option GoError) (e : GoError) : Option GoError :=
  match saved with
  | some first => some first
  | none => some e

/-- One member of the object is stored in the struct: `null` leaves the field as it is, a
string goes to a string field, a number that `strconv.ParseFloat` reads goes to a
`float64` field, and every other combination is a saved `UnmarshalTypeError`. -/
def storeMember (env : JsonEnv) (st : SensorData × Option GoError)
    (member : String × JsonValue) : SensorData × Option GoError :=
  match fieldOf env.equalFold member.1 with
  | none => st
  | some f =>
    match member.2 with
    | .null => st
    | .string text =>
      match f with
      | .InstallCode => ({ st.1 with InstallCode := text }, st.2)
      | .Timestamp => ({ st.1 with Timestamp := text }, st.2)
      | _ => (st.1, saveError st.2 (typeError "string" f))
    | .number literal =>
      match f with
      | .Suhu =>
        match env.parseFloat literal with
        | some x => ({ st.1 with Suhu := x }, st.2)
        | none => (st.1, saveError st.2 (typeError ("number " ++ literal) f))
      | .Kelembaban =>
        match env.parseFloat literal with
        | some x => ({ st.1 with Kelembaban := x }, st.2)
        | none => (st.1, saveError st.2 (typeError ("number " ++ literal) f))
      | _ => (st.1, saveError st.2 (typeError "number" f))
    | v => (st.1, saveError st.2 (typeError v.kind f))

/-- The value of `var data SensorData` before decoding. -/
def zeroSensorData : SensorData := ⟨"", ⟨0⟩, ⟨0⟩, ""⟩

/-- The call `json.Unmarshal(payload, &data)` on a zero `SensorData`: a text that is not
JSON is a syntax error, the members of an object are stored one after the other (a later
member with the same field overwrites), `null` leaves the struct as it is, and any other
value is an `UnmarshalTypeError`. -/
def jsonUnmarshal (env : JsonEnv) (payload : List UInt8) : Except GoError SensorData :=
  match env.scan payload with
  | .error e => .error e
  | .ok (.object members) =>
    match members.foldl (storeMember env) (zeroSensorData, none) with
    | (data, none) => .ok data
    | (_, some e) => .error e
  | .ok .null => .ok zeroSensorData
  | .ok v =>
    .error (.base ("json: cannot unmarshal " ++ v.kind
      ++ " into Go value of type services.SensorData"))

/-- The environment of `handleSensorData` with `json.Unmarshal` spelled out. -/
def decodingEnv (json : JsonEnv) (env : IngestEnv) : IngestEnv :=
  { env with unmarshal := jsonUnmarshal json }

/-! ## Notions used by the statements -/

/-- The facts about the case tables of package `unicode` on which case-insensitive
matching rests: a rune beyond ASCII is never lowered to `.` or `/`, and the lower-case form
of such a rune is its own lower-case form. -/
def SoundTable (table : Char → Char) : Prop :=
  ∀ r : Char, 127 < r.toNat →
    table r ≠ '.' ∧ table r ≠ '/' ∧ unicodeToLower table (table r) = table r

/-- The filename with its extension lowercased. -/
def lowerExtension (table : Char → Char) (filename : String) : String :=
  TrimSuffix filename (Ext filename) ++ ToLower table (Ext filename)

/-- A reading of the clock in the range the layout `20060102_150405` is made for: years
of at most four digits, and month, day, hour, minute and second in their calendar ranges. -/
def Clock.Valid (c : Clock) : Prop :=
  c.year ≤ 9999 ∧ 1 ≤ c.month ∧ c.month ≤ 12 ∧ 1 ≤ c.day ∧ c.day ≤ 31 ∧ c.hour ≤ 23
    ∧ c.minute ≤ 59 ∧ c.second ≤ 59

/-- The claimed sanitized name: the base name of the file with the extension stripped,
every space replaced by `_` and every other character lowercased. -/
def sanitizedName (table : Char → Char) (filename : String) : String :=
  ⟨(TrimSuffix (Base filename) (Ext filename)).toList.map fun c =>
    if c = ' ' then '_' else unicodeToLower table c⟩

/-- The validation outcome of `UploadFile`: the error it returns before it generates a key
and calls the uploader, `none` when the file passes validation. -/
def S3Service.validationError (env : S3Env) (header : FileHeader) (folder : String) :
    Option GoError :=
  match S3Service.UploadFile env header folder with
  | (.error e, []) => some e
  | _ => none


/-- The response is an error response whose message contains the text of `e`. -/
def Response.carries (resp : Response) (e : GoError) : Prop :=
  match resp.body with
  | .error msg => e.Error.toList <:+: msg.toList
  | .ok _ _ _ _ => False

/-- Image locations referenced by the relational records (`img_profile` of `users`,
`cover_image` of `articles`), nulls left out. -/
def World.referenced (w : World) : List String :=
  w.users.filterMap (fun row => row.2) ++ w.articles.filterMap (fun row => row.2)

/-- Keys of the stored objects. -/
def World.keys (w : World) : List String :=
  w.objects.map (fun o => o.1)

/-- Every image referenced by a relational record is the location of a stored object. -/
def World.Consistent (w : World) : Prop :=
  ∀ url ∈ w.referenced, url ∈ w.objects.map (fun o => o.2)

/-- The object omits field `f`: none of its members is stored in `f`. -/
def Omits (equalFold : String → String → Bool) (members : List (String × JsonValue))
    (f : SensorField) : Prop :=
  ∀ m ∈ members, fieldOf equalFold m.1 ≠ some f

/-! ## Sample inputs -/

/-- A small image file. -/
def sampleHeader : FileHeader := ⟨"avatar.png", 2048⟩

/-- A request of user `1` for article `7`, with the sample file in both form fields. -/
def sampleRequest : Request :=
  ⟨some 1, "7", fun field => if field = "image" ∨ field = "cover" then some sampleHeader else none⟩

/-- What the gateway reports for the sample file uploaded as profile image of user `1`. -/
def profileResult : UploadResult :=
  ⟨"https://s3.example/swiflet/users/1/profile/avatar_20240101_120000_1a2b3c4d.png",
    "users/1/profile/avatar_20240101_120000_1a2b3c4d.png", "swiflet", 2048, "image/png"⟩

/-- What the gateway reports for the sample file uploaded as cover of article `7`. -/
def coverResult : UploadResult :=
  ⟨"https://s3.example/swiflet/articles/7/cover/avatar_20240101_120000_5e6f7a8b.png",
    "articles/7/cover/avatar_20240101_120000_5e6f7a8b.png", "swiflet", 2048, "image/png"⟩

/-- A relational failure. -/
def pqError : GoError := .base "pq: connection refused"

/-- An object-store failure. -/
def s3Error : GoError := .base "RequestError: send request failed"

/-- One user, one article, one registered device, an empty bucket. -/
def sampleWorld : World :=
  { objects := [], users := [(1, none)], articles := [(7, none)], iot_devices := ["SWF-001"],
    sensors := [], calls := [] }

/-- The bucket holds the cover of article `7`, which references it. -/
def coverWorld : World :=
  { objects := [(coverResult.Key, coverResult.URL)],
    users := [(1, none)], articles := [(7, some coverResult.URL)], iot_devices := ["SWF-001"],
    sensors := [], calls := [] }

/-- The bucket holds the profile image of user `1`, who references it. -/
def profileWorld : World :=
  { objects := [(profileResult.Key, profileResult.URL)],
    users := [(1, some profileResult.URL)], articles := [(7, none)], iot_devices := ["SWF-001"],
    sensors := [], calls := [] }

/-- A broker that refuses every connection. -/
def refuseAll : Nat → Option GoError :=
  fun k => some (.base ("connection refused #" ++ toString k))

/-- A broker that refuses the first two connections and accepts the third. -/
def acceptThird : Nat → Option GoError :=
  fun k => if k < 2 then some (.base "connection refused") else none

/-- The bytes of an ASCII text. -/
def asciiBytes (s : String) : List UInt8 :=
  s.toList.map fun c => UInt8.ofNat c.toNat

/-- A telemetry message of the registered device `SWF-001`, without timestamp. -/
def registeredPayload : List UInt8 :=
  asciiBytes "\x7b\"install_code\":\"SWF-001\",\"suhu\":29.5,\"kelembaban\":81\x7d"

/-- A telemetry message of a device that is not registered, with a timestamp. -/
def unknownPayload : List UInt8 :=
  asciiBytes ("\x7b\"install_code\":\"SWF-999\",\"suhu\":29.5,\"kelembaban\":81,"
    ++ "\"timestamp\":\"2024-01-01T12:00:00Z\"\x7d")

/-- A message that is not JSON. -/
def brokenPayload : List UInt8 :=
  asciiBytes "suhu=29.5"

/-- The reading 29.5 / 81.0 sent by `code`. -/
def sampleReading (code : String) (timestamp : String) : SensorData :=
  ⟨code, ⟨4628996729495093248⟩, ⟨4635400285215260672⟩, timestamp⟩

/-- An environment in which both stores answer: it decodes the two sample messages and
rejects every other payload, the clock reads 2024-01-01T12:00:05Z, and the one
timestamp of the samples parses. -/
def sampleEnv : IngestEnv :=
  { unmarshal := fun payload =>
      if payload = registeredPayload then .ok (sampleReading "SWF-001" "")
      else if payload = unknownPayload then .ok (sampleReading "SWF-999" "2024-01-01T12:00:00Z")
      else .error (.base "invalid character 's' looking for beginning of value")
    now := ⟨1704110405000000000, 0⟩
    parseRFC3339 := fun text =>
      if text = "2024-01-01T12:00:00Z" then .ok ⟨1704110400000000000, 0⟩
      else .error (.base "parsing time: cannot parse")
    lookupErr := none
    insertErr := none }

/-- A telemetry message of the registered device `SWF-001` with an RFC3339 timestamp. -/
def stampedPayload : List UInt8 :=
  asciiBytes ("\x7b\"install_code\":\"SWF-001\",\"suhu\":29.5,\"kelembaban\":81,"
    ++ "\"timestamp\":\"2024-01-01T12:00:00Z\"\x7d")

/-- A telemetry message of the registered device `SWF-001` whose timestamp is not RFC3339. -/
def garbledPayload : List UInt8 :=
  asciiBytes ("\x7b\"install_code\":\"SWF-001\",\"suhu\":29.5,\"kelembaban\":81,"
    ++ "\"timestamp\":\"yesterday\"\x7d")

/-- An environment like `sampleEnv` that decodes the two timestamped messages of `SWF-001`. -/
def stampedEnv : IngestEnv :=
  { sampleEnv with
    unmarshal := fun payload =>
      if payload = stampedPayload then .ok (sampleReading "SWF-001" "2024-01-01T12:00:00Z")
      else if payload = garbledPayload then .ok (sampleReading "SWF-001" "yesterday")
      else .error (.base "unexpected end of JSON input") }

/-- A UUID whose text starts with `1a2b3c4d`. -/
def sampleUUID : UUID :=
  ⟨[0x1a, 0x2b, 0x3c, 0x4d, 0x00, 0x11, 0x42, 0x22, 0x83, 0x33, 0x44, 0x55, 0x66, 0x77, 0x88,
    0x99], rfl⟩

/-- Another UUID whose text starts with `1a2b3c4d`. -/
def otherUUID : UUID :=
  ⟨[0x1a, 0x2b, 0x3c, 0x4d, 0xff, 0xee, 0x4d, 0xdd, 0xbc, 0xcc, 0xbb, 0xaa, 0x99, 0x88, 0x77,
    0x66], rfl⟩

/-- The reading 2024-01-01 12:00:00 of the clock. -/
def sampleClock : Clock := ⟨2024, 1, 1, 12, 0, 0⟩

/-- An S3 environment with case tables that leave the runes beyond ASCII alone, and an
uploader that stores the object. -/
def sampleS3 : S3Env :=
  { table := fun r => r, bucket := "swiflet", uuid := sampleUUID, clock := sampleClock,
    uploaded := .ok "https://s3.example/swiflet/object" }

/-- The configuration read with the defaults of `config.go`. -/
def sampleService : MQTTService :=
  ⟨⟨"tcp://localhost:1883", "swiflet-backend", "", "", "sensors/+/data", "control/+/command"⟩⟩

/-- A command to a device. -/
inductive SampleCommand where
  | fanOn
  | unserializable
  deriving DecidableEq, Repr

/-- A serializer that fails on one command. -/
def sampleMarshal : SampleCommand → Except GoError (List UInt8)
  | .fanOn => .ok (asciiBytes "\x7b\"fan\":\"on\"\x7d")
  | .unserializable => .error (.base "json: unsupported type: chan int")

/-- An environment whose device lookup fails. -/
def lookupDownEnv : IngestEnv := { sampleEnv with lookupErr := some pqError }

/-- An environment whose time-series store rejects the write. -/
def insertDownEnv : IngestEnv := { sampleEnv with insertErr := some pqError }

/-- An S3 environment whose uploader fails. -/
def failingS3 : S3Env := { sampleS3 with uploaded := .error s3Error }

/-- A service configured with another publish-topic template. -/
def otherService : MQTTService :=
  ⟨{ sampleService.config with TopicControl := "devices/+/cmd" }⟩

/-- A UUID whose text starts with `deadbeef`. -/
def freshUUID : UUID :=
  ⟨[0xde, 0xad, 0xbe, 0xef, 0x00, 0x11, 0x42, 0x22, 0x83, 0x33, 0x44, 0x55, 0x66, 0x77, 0x88,
    0x99], rfl⟩

/-- A telemetry message of the registered device `SWF-001` without measurements. -/
def barePayload : List UInt8 :=
  asciiBytes "\x7b\"install_code\":\"SWF-001\"\x7d"

/-- A telemetry message with a humidity and no install code. -/
def anonymousPayload : List UInt8 :=
  asciiBytes "\x7b\"kelembaban\":81\x7d"

/-- A decoder that reads the two messages above and the number `81`, and folds the case
of ASCII letters. -/
def sampleJson : JsonEnv :=
  { scan := fun payload =>
      if payload = barePayload then .ok (.object [("install_code", .string "SWF-001")])
      else if payload = anonymousPayload then .ok (.object [("kelembaban", .number "81")])
      else .error (.base "invalid character 's' looking for beginning of value")
    parseFloat := fun literal => if literal = "81" then some ⟨4635400285215260672⟩ else none
    equalFold := fun a b => a.toList.map Char.toLower = b.toList.map Char.toLower }

end Smartlet

/-! # Theorems -/

namespace Smartlet

/-! ## Call logs -/

theorem deleteCalls_append (xs ys : List Call) :
    deleteCalls (xs ++ ys) = deleteCalls xs ++ deleteCalls ys := by
  induction xs with
  | nil => rfl
  | cons c rest ih => cases c <;> simp [deleteCalls, ih]

theorem updateCalls_append (xs ys : List Call) :
    updateCalls (xs ++ ys) = updateCalls xs + updateCalls ys := by
  induction xs with
  | nil => simp [updateCalls]
  | cons c rest ih => cases c <;> simp [updateCalls, ih] <;> omega

theorem insertCalls_append (xs ys : List Call) :
    insertCalls (xs ++ ys) = insertCalls xs ++ insertCalls ys := by
  induction xs with
  | nil => rfl
  | cons c rest ih => cases c <;> simp [insertCalls, ih]

theorem lookupCalls_append (xs ys : List Call) :
    lookupCalls (xs ++ ys) = lookupCalls xs ++ lookupCalls ys := by
  induction xs with
  | nil => rfl
  | cons c rest ih => cases c <;> simp [lookupCalls, ih]

/-- The article-existence check passes exactly when a row with that id exists. -/
theorem count_ne_zero_of_mem {rows : List (Int × Option String)} {articleID : Int}
    {cover : Option String} (h : (articleID, cover) ∈ rows) :
    ((rows.filter (fun row => row.1 = articleID)).length : Int) ≠ 0 := by
  have hmem : (articleID, cover) ∈ rows.filter (fun row => row.1 = articleID) := by
    simp [List.mem_filter, h]
  have hpos := List.length_pos_of_mem hmem
  omega

/-! ## Upload handlers -/

/-- C1. In `UploadUserProfile` and `UploadArticleCover`, when the handler reaches the
gateway upload, the upload succeeds with result `r` and the relational `UPDATE` fails, the
calls of the run are the upload, the `UPDATE` and then one `DeleteFile(r.Key)` (after the
existence query, for the cover): `DeleteFile` is called exactly once, with `r.Key`,
whatever the delete itself answers (`out.deleteErr` is arbitrary). -/
theorem compensating_delete_called_once (req : Request) (out : Outcomes) (w : World)
    (r : UploadResult) (e : GoError)
    (hup : out.upload = .ok r) (hexec : out.execErr = some e) :
    (∀ userID header, req.userID = some userID → req.formFile "image" = some header →
      (UploadUserProfile req out w).2.calls
          = w.calls ++ [.uploadUserProfileImage header userID, .updateUserImage r.URL userID,
              .deleteFile r.Key]
        ∧ deleteCalls (UploadUserProfile req out w).2.calls = deleteCalls w.calls ++ [r.Key])
    ∧
    (∀ articleID cover header, Atoi req.articleParam = some articleID → out.queryErr = none →
      (articleID, cover) ∈ w.articles → req.formFile "cover" = some header →
      (UploadArticleCover req out w).2.calls
          = w.calls ++ [.countArticles articleID, .uploadArticleCover header articleID,
              .updateArticleCover r.URL articleID, .deleteFile r.Key]
        ∧ deleteCalls (UploadArticleCover req out w).2.calls = deleteCalls w.calls ++ [r.Key]) := by
  constructor
  · intro userID header huser hfile
    have hcalls : (UploadUserProfile req out w).2.calls
        = w.calls ++ [.uploadUserProfileImage header userID, .updateUserImage r.URL userID,
              .deleteFile r.Key] := by
      cases hdel : out.deleteErr <;>
        simp [UploadUserProfile, DeleteFile, huser, hfile, hup, hexec, hdel, World.record,
          World.putObject, World.removeObject]
    refine ⟨hcalls, ?_⟩
    rw [hcalls, deleteCalls_append]
    simp [deleteCalls]
  · intro articleID cover header hid hquery hrow hfile
    have hcount := count_ne_zero_of_mem hrow
    have hcalls : (UploadArticleCover req out w).2.calls
        = w.calls ++ [.countArticles articleID, .uploadArticleCover header articleID,
              .updateArticleCover r.URL articleID, .deleteFile r.Key] := by
      cases hdel : out.deleteErr <;>
        simp [UploadArticleCover, DeleteFile, hid, hquery, hfile, hup, hexec, hdel, World.record,
          World.putObject, World.removeObject, hcount]
    refine ⟨hcalls, ?_⟩
    rw [hcalls, deleteCalls_append]
    simp [deleteCalls]

theorem compensating_delete_called_once_witness :
    deleteCalls (UploadUserProfile sampleRequest
        ⟨.ok profileResult, none, some pqError, some s3Error⟩ sampleWorld).2.calls
      = [profileResult.Key]
    ∧ deleteCalls (UploadArticleCover sampleRequest
        ⟨.ok coverResult, none, some pqError, none⟩ sampleWorld).2.calls
      = [coverResult.Key] :=
  ⟨((compensating_delete_called_once sampleRequest
      ⟨.ok profileResult, none, some pqError, some s3Error⟩ sampleWorld profileResult pqError
      rfl rfl).1 1 sampleHeader rfl rfl).2,
   ((compensating_delete_called_once sampleRequest
      ⟨.ok coverResult, none, some pqError, none⟩ sampleWorld coverResult pqError
      rfl rfl).2 7 none sampleHeader (by decide) rfl (by decide) rfl).2⟩

/-- C2, as stated, fails: with the upload succeeding and the `UPDATE` failing with
`pq: connection refused`, both handlers answer with a fixed message that does not contain
the text of the relational error, and a different relational error gives the very same
response. -/
theorem relational_error_text_not_returned :
    (UploadUserProfile sampleRequest ⟨.ok profileResult, none, some pqError, none⟩
        sampleWorld).1 = ⟨500, .error "Failed to update user profile"⟩
    ∧ ¬ (UploadUserProfile sampleRequest ⟨.ok profileResult, none, some pqError, none⟩
        sampleWorld).1.carries pqError
    ∧ (UploadUserProfile sampleRequest ⟨.ok profileResult, none, some s3Error, none⟩
        sampleWorld).1
      = (UploadUserProfile sampleRequest ⟨.ok profileResult, none, some pqError, none⟩
        sampleWorld).1
    ∧ (UploadArticleCover sampleRequest ⟨.ok coverResult, none, some pqError, none⟩
        sampleWorld).1 = ⟨500, .error "Failed to update article cover"⟩
    ∧ ¬ (UploadArticleCover sampleRequest ⟨.ok coverResult, none, some pqError, none⟩
        sampleWorld).1.carries pqError := by
  refine ⟨by decide, ?_, by decide, by decide, ?_⟩
  · show ¬ ("pq: connection refused".toList <:+: "Failed to update user profile".toList)
    decide
  · show ¬ ("pq: connection refused".toList <:+: "Failed to update article cover".toList)
    decide

/-- C2, amended. In `UploadUserProfile` and `UploadArticleCover`, when the handler reaches
the gateway upload, the upload succeeds and the relational `UPDATE` fails with error `e`,
the response is HTTP 500 with the fixed message `Failed to update user profile`
(`Failed to update article cover`): it names the failed relational step, is the same for
every `e`, and is the same whether the compensating `DeleteFile` succeeds or fails
(`d` is arbitrary). -/
theorem relational_failure_response (req : Request) (w : World) (r : UploadResult)
    (e : GoError) (q d : Option GoError) :
    (∀ userID header, req.userID = some userID → req.formFile "image" = some header →
      (UploadUserProfile req ⟨.ok r, q, some e, d⟩ w).1
        = ⟨500, .error "Failed to update user profile"⟩)
    ∧
    (∀ articleID cover header, Atoi req.articleParam = some articleID → q = none →
      (articleID, cover) ∈ w.articles → req.formFile "cover" = some header →
      (UploadArticleCover req ⟨.ok r, q, some e, d⟩ w).1
        = ⟨500, .error "Failed to update article cover"⟩) := by
  constructor
  · intro userID header huser hfile
    cases d <;> simp [UploadUserProfile, DeleteFile, huser, hfile]
  · intro articleID cover header hid hquery hrow hfile
    have hcount := count_ne_zero_of_mem hrow
    cases d <;>
      simp [UploadArticleCover, DeleteFile, hid, hquery, hfile, World.record, hcount]

theorem relational_failure_response_witness :
    (UploadUserProfile sampleRequest ⟨.ok profileResult, none, some pqError, some s3Error⟩
        sampleWorld).1 = ⟨500, .error "Failed to update user profile"⟩
    ∧ (UploadArticleCover sampleRequest ⟨.ok coverResult, none, some pqError, some s3Error⟩
        sampleWorld).1 = ⟨500, .error "Failed to update article cover"⟩ :=
  ⟨(relational_failure_response sampleRequest sampleWorld profileResult pqError none
      (some s3Error)).1 1 sampleHeader rfl rfl,
   (relational_failure_response sampleRequest sampleWorld coverResult pqError none
      (some s3Error)).2 7 none sampleHeader (by decide) rfl (by decide) rfl⟩

/-- C3. In `UploadUserProfile` and `UploadArticleCover`, whenever the gateway upload returns
an error `err`, the run issues no relational `UPDATE` and no `DeleteFile` call; and when the
handler reaches the upload, it answers HTTP 500 with the message
`Failed to upload file: ` followed by the text of `err`, and leaves the world as it was
apart from the log of the calls made up to the upload. -/
theorem upload_failure_returned (req : Request) (out : Outcomes) (w : World) (err : GoError)
    (hup : out.upload = .error err) :
    (updateCalls (UploadUserProfile req out w).2.calls = updateCalls w.calls
      ∧ deleteCalls (UploadUserProfile req out w).2.calls = deleteCalls w.calls
      ∧ ∀ userID header, req.userID = some userID → req.formFile "image" = some header →
          (UploadUserProfile req out w).1
              = ⟨500, .error ("Failed to upload file: " ++ err.Error)⟩
            ∧ (UploadUserProfile req out w).1.carries err
            ∧ (UploadUserProfile req out w).2
              = w.record (.uploadUserProfileImage header userID))
    ∧
    (updateCalls (UploadArticleCover req out w).2.calls = updateCalls w.calls
      ∧ deleteCalls (UploadArticleCover req out w).2.calls = deleteCalls w.calls
      ∧ ∀ articleID cover header, Atoi req.articleParam = some articleID →
          out.queryErr = none → (articleID, cover) ∈ w.articles →
          req.formFile "cover" = some header →
          (UploadArticleCover req out w).1
              = ⟨500, .error ("Failed to upload file: " ++ err.Error)⟩
            ∧ (UploadArticleCover req out w).1.carries err
            ∧ (UploadArticleCover req out w).2
              = (w.record (.countArticles articleID)).record
                  (.uploadArticleCover header articleID)) := by
  have hinfix : err.Error.toList <:+: ("Failed to upload file: " ++ err.Error).toList := by
    have happ : ("Failed to upload file: " ++ err.Error).toList
        = "Failed to upload file: ".toList ++ err.Error.toList := String.data_append _ _
    rw [happ]
    exact (List.suffix_append _ _).isInfix
  refine ⟨⟨?_, ?_, ?_⟩, ⟨?_, ?_, ?_⟩⟩
  · cases huser : req.userID <;> cases hfile : req.formFile "image" <;>
      simp [UploadUserProfile, huser, hfile, hup, World.record, updateCalls_append, updateCalls]
  · cases huser : req.userID <;> cases hfile : req.formFile "image" <;>
      simp [UploadUserProfile, huser, hfile, hup, World.record, deleteCalls_append, deleteCalls]
  · intro userID header huser hfile
    have hresp : (UploadUserProfile req out w).1
        = ⟨500, .error ("Failed to upload file: " ++ err.Error)⟩ := by
      simp [UploadUserProfile, huser, hfile, hup]
    refine ⟨hresp, ?_, ?_⟩
    · rw [hresp]
      exact hinfix
    · simp [UploadUserProfile, huser, hfile, hup]
  · cases hid : Atoi req.articleParam <;> cases hquery : out.queryErr <;>
      cases hfile : req.formFile "cover" <;>
      simp [UploadArticleCover, hid, hquery, hfile, hup, World.record, updateCalls_append,
        updateCalls] <;>
      split <;> simp [updateCalls_append, updateCalls]
  · cases hid : Atoi req.articleParam <;> cases hquery : out.queryErr <;>
      cases hfile : req.formFile "cover" <;>
      simp [UploadArticleCover, hid, hquery, hfile, hup, World.record, deleteCalls_append,
        deleteCalls] <;>
      split <;> simp [deleteCalls_append, deleteCalls]
  · intro articleID cover header hid hquery hrow hfile
    have hcount := count_ne_zero_of_mem hrow
    have hresp : (UploadArticleCover req out w).1
        = ⟨500, .error ("Failed to upload file: " ++ err.Error)⟩ := by
      simp [UploadArticleCover, hid, hquery, hfile, hup, World.record, hcount]
    refine ⟨hresp, ?_, ?_⟩
    · rw [hresp]
      exact hinfix
    · simp [UploadArticleCover, hid, hquery, hfile, hup, World.record, hcount]

theorem upload_failure_returned_witness :
    UploadUserProfile sampleRequest ⟨.error s3Error, none, none, none⟩ sampleWorld
      = (⟨500, .error "Failed to upload file: RequestError: send request failed"⟩,
          sampleWorld.record (.uploadUserProfileImage sampleHeader 1))
    ∧ UploadArticleCover sampleRequest ⟨.error s3Error, none, none, none⟩ sampleWorld
      = (⟨500, .error "Failed to upload file: RequestError: send request failed"⟩,
          (sampleWorld.record (.countArticles 7)).record (.uploadArticleCover sampleHeader 7)) :=
  ⟨Prod.ext
      ((upload_failure_returned sampleRequest ⟨.error s3Error, none, none, none⟩ sampleWorld
        s3Error rfl).1.2.2 1 sampleHeader rfl rfl).1
      ((upload_failure_returned sampleRequest ⟨.error s3Error, none, none, none⟩ sampleWorld
        s3Error rfl).1.2.2 1 sampleHeader rfl rfl).2.2,
   Prod.ext
      ((upload_failure_returned sampleRequest ⟨.error s3Error, none, none, none⟩ sampleWorld
        s3Error rfl).2.2.2 7 none sampleHeader (by decide) rfl (by decide) rfl).1
      ((upload_failure_returned sampleRequest ⟨.error s3Error, none, none, none⟩ sampleWorld
        s3Error rfl).2.2.2 7 none sampleHeader (by decide) rfl (by decide) rfl).2.2⟩

/-! ## Consistency of records and stored objects -/

/-- Logging a call changes no store. -/
theorem consistent_record {w : World} (c : Call) (h : w.Consistent) : (w.record c).Consistent :=
  h

/-- Removing from the bucket the objects stored under a key that is not in use changes
nothing. -/
theorem filter_fresh_key (objs : List (String × String)) (key : String)
    (hfresh : key ∉ objs.map (fun o => o.1)) :
    objs.filter (fun o => o.1 ≠ key) = objs := by
  apply List.filter_eq_self.mpr
  intro o ho
  have hne : o.1 ≠ key := fun heq => hfresh (List.mem_map.mpr ⟨o, ho, heq⟩)
  simpa using hne

/-- Consistency is kept when no object disappears and every reference is an old one or
points to a stored object. -/
theorem consistent_of_grows {w v : World} (hcons : w.Consistent)
    (hobj : ∀ o ∈ w.objects, o ∈ v.objects)
    (href : ∀ url ∈ v.referenced, url ∈ w.referenced ∨ url ∈ v.objects.map (fun o => o.2)) :
    v.Consistent := by
  intro url hurl
  rcases href url hurl with hold | hnew
  · obtain ⟨o, ho, hurl2⟩ := List.mem_map.mp (hcons url hold)
    exact List.mem_map.mpr ⟨o, hobj o ho, hurl2⟩
  · exact hnew

/-- After `UPDATE users SET img_profile = url`, every referenced location is `url` or was
referenced before. -/
theorem referenced_setUserImage (w : World) (url : String) (userID : Int) :
    ∀ u ∈ (w.setUserImage url userID).referenced, u ∈ w.referenced ∨ u = url := by
  intro u hu
  simp only [World.referenced, World.setUserImage, List.mem_append, List.mem_filterMap,
    List.mem_map] at hu ⊢
  rcases hu with ⟨row, ⟨old, hold, hrow⟩, hu⟩ | hart
  · by_cases hid : old.1 = userID
    · rw [if_pos hid] at hrow
      subst hrow
      right
      simpa using hu.symm
    · rw [if_neg hid] at hrow
      subst hrow
      exact Or.inl (Or.inl ⟨_, hold, hu⟩)
  · exact Or.inl (Or.inr hart)

/-- After `UPDATE articles SET cover_image = url`, every referenced location is `url` or
was referenced before. -/
theorem referenced_setArticleCover (w : World) (url : String) (articleID : Int) :
    ∀ u ∈ (w.setArticleCover url articleID).referenced, u ∈ w.referenced ∨ u = url := by
  intro u hu
  simp only [World.referenced, World.setArticleCover, List.mem_append, List.mem_filterMap,
    List.mem_map] at hu ⊢
  rcases hu with husr | ⟨row, ⟨old, hold, hrow⟩, hu⟩
  · exact Or.inl (Or.inl husr)
  · by_cases hid : old.1 = articleID
    · rw [if_pos hid] at hrow
      subst hrow
      right
      simpa using hu.symm
    · rw [if_neg hid] at hrow
      subst hrow
      exact Or.inl (Or.inr ⟨_, hold, hu⟩)

/-- Consistency reads the bucket and the two image columns only. -/
theorem consistent_congr {w v : World} (hcons : w.Consistent) (hobj : v.objects = w.objects)
    (husers : v.users = w.users) (harts : v.articles = w.articles) : v.Consistent := by
  apply consistent_of_grows hcons
  · intro o ho
    rw [hobj]
    exact ho
  · intro url hurl
    left
    simpa [World.referenced, husers, harts] using hurl

/-- C4, as stated, fails: the bucket holds one object, referenced by user `1`; the gateway
reports the same key again, the `UPDATE` fails and the compensating delete succeeds.  The
state before the run is consistent, the state after it is not: the delete removed the object
the record of user `1` references. -/
theorem key_collision_breaks_consistency :
    profileWorld.Consistent
    ∧ ¬ (UploadUserProfile sampleRequest ⟨.ok profileResult, none, some pqError, none⟩
          profileWorld).2.Consistent := by
  unfold World.Consistent
  constructor <;> decide

/-- C4, amended. Let every image referenced by a record be the location of a stored object
before a run of `UploadUserProfile` or `UploadArticleCover`, and let the key reported by a
successful upload not be the key of an object stored before the run.  Then the same
consistency holds after the run, for every combination of upload, relational-write and
delete outcomes.  Moreover a run changes the image column of its own table only, and only
on the path where the upload succeeded with some `r`, the `UPDATE` succeeded and no
`DeleteFile` was issued; the rows of that id then hold `r.URL`. -/
theorem consistency_preserved_fresh_key (req : Request) (out : Outcomes) (w : World)
    (hcons : w.Consistent) (hfresh : ∀ r, out.upload = .ok r → r.Key ∉ w.keys) :
    (UploadUserProfile req out w).2.Consistent
    ∧ (UploadArticleCover req out w).2.Consistent
    ∧ (UploadUserProfile req out w).2.articles = w.articles
    ∧ ((UploadUserProfile req out w).2.users = w.users
        ∨ ∃ r userID, out.upload = .ok r ∧ out.execErr = none ∧ req.userID = some userID
            ∧ (UploadUserProfile req out w).2.users = (w.setUserImage r.URL userID).users
            ∧ deleteCalls (UploadUserProfile req out w).2.calls = deleteCalls w.calls)
    ∧ (UploadArticleCover req out w).2.users = w.users
    ∧ ((UploadArticleCover req out w).2.articles = w.articles
        ∨ ∃ r articleID, out.upload = .ok r ∧ out.execErr = none
            ∧ Atoi req.articleParam = some articleID
            ∧ (UploadArticleCover req out w).2.articles
                = (w.setArticleCover r.URL articleID).articles
            ∧ deleteCalls (UploadArticleCover req out w).2.calls = deleteCalls w.calls) := by
  have hne : ∀ r, out.upload = .ok r → ∀ o ∈ w.objects, ¬ o.1 = r.Key :=
    fun r hr o ho heq => hfresh r hr (List.mem_map.mpr ⟨o, ho, heq⟩)
  refine ⟨?_, ?_, ?_, ?_, ?_, ?_⟩
  · cases huser : req.userID with
    | none => simpa [UploadUserProfile, huser] using hcons
    | some userID =>
      cases hfile : req.formFile "image" with
      | none => simpa [UploadUserProfile, huser, hfile] using hcons
      | some header =>
        cases hup : out.upload with
        | error err =>
          simp only [UploadUserProfile, huser, hfile, hup]
          exact consistent_record _ hcons
        | ok r =>
          cases hexec : out.execErr with
          | some e =>
            cases hdel : out.deleteErr with
            | some d =>
              simp only [UploadUserProfile, huser, hfile, hup, hexec, DeleteFile, hdel]
              apply consistent_of_grows hcons
              · intro o ho
                simp only [World.record, World.putObject, List.mem_cons, List.mem_filter]
                exact Or.inr ⟨ho, by simpa using hne r hup o ho⟩
              · intro url hurl
                left
                simpa [World.referenced, World.record, World.putObject] using hurl
            | none =>
              simp only [UploadUserProfile, huser, hfile, hup, hexec, DeleteFile, hdel]
              apply consistent_congr hcons
              · simp only [World.record, World.putObject, World.removeObject]
                rw [filter_fresh_key w.objects r.Key (hfresh r hup),
                  List.filter_cons_of_neg (by simp),
                  filter_fresh_key w.objects r.Key (hfresh r hup)]
              · rfl
              · rfl
          | none =>
            simp only [UploadUserProfile, huser, hfile, hup, hexec]
            apply consistent_of_grows hcons
            · intro o ho
              simp only [World.record, World.putObject, World.setUserImage, List.mem_cons,
                List.mem_filter]
              exact Or.inr ⟨ho, by simpa using hne r hup o ho⟩
            · intro url hurl
              rcases referenced_setUserImage _ _ _ url hurl with hold | hnew
              · left
                simpa [World.referenced, World.record, World.putObject] using hold
              · right
                simp [World.record, World.putObject, World.setUserImage, hnew]
  · cases hid : Atoi req.articleParam with
    | none => simpa [UploadArticleCover, hid] using hcons
    | some articleID =>
      cases hquery : out.queryErr with
      | some qe =>
        simp only [UploadArticleCover, hid, hquery]
        exact consistent_record _ hcons
      | none =>
        simp only [UploadArticleCover, hid, hquery]
        split
        · exact consistent_record _ hcons
        · cases hfile : req.formFile "cover" with
          | none => exact consistent_record _ hcons
          | some header =>
            cases hup : out.upload with
            | error err => exact consistent_record _ (consistent_record _ hcons)
            | ok r =>
              cases hexec : out.execErr with
              | some e =>
                cases hdel : out.deleteErr with
                | some d =>
                  simp only [DeleteFile, hdel]
                  apply consistent_of_grows hcons
                  · intro o ho
                    simp only [World.record, World.putObject, List.mem_cons, List.mem_filter]
                    exact Or.inr ⟨ho, by simpa using hne r hup o ho⟩
                  · intro url hurl
                    left
                    simpa [World.referenced, World.record, World.putObject] using hurl
                | none =>
                  simp only [DeleteFile, hdel]
                  apply consistent_congr hcons
                  · simp only [World.record, World.putObject, World.removeObject]
                    rw [filter_fresh_key w.objects r.Key (hfresh r hup),
                      List.filter_cons_of_neg (by simp),
                      filter_fresh_key w.objects r.Key (hfresh r hup)]
                  · rfl
                  · rfl
              | none =>
                simp only []
                apply consistent_of_grows hcons
                · intro o ho
                  simp only [World.record, World.putObject, World.setArticleCover,
                    List.mem_cons, List.mem_filter]
                  exact Or.inr ⟨ho, by simpa using hne r hup o ho⟩
                · intro url hurl
                  rcases referenced_setArticleCover _ _ _ url hurl with hold | hnew
                  · left
                    simpa [World.referenced, World.record, World.putObject] using hold
                  · right
                    simp [World.record, World.putObject, World.setArticleCover, hnew]
  · cases huser : req.userID <;> cases hfile : req.formFile "image" <;>
      cases hup : out.upload <;> cases hexec : out.execErr <;> cases hdel : out.deleteErr <;>
      simp [UploadUserProfile, DeleteFile, huser, hfile, hup, hexec, hdel, World.record,
        World.putObject, World.removeObject, World.setUserImage]
  · cases huser : req.userID <;> cases hfile : req.formFile "image" <;>
      cases hup : out.upload <;> cases hexec : out.execErr <;> cases hdel : out.deleteErr <;>
      simp [UploadUserProfile, DeleteFile, huser, hfile, hup, hexec, hdel, World.record,
        World.putObject, World.removeObject, World.setUserImage, deleteCalls_append,
        deleteCalls]
  · cases hid : Atoi req.articleParam <;> cases hquery : out.queryErr <;>
      cases hfile : req.formFile "cover" <;>
      cases hup : out.upload <;> cases hexec : out.execErr <;> cases hdel : out.deleteErr <;>
      simp [UploadArticleCover, DeleteFile, hid, hquery, hfile, hup, hexec, hdel, World.record,
        World.putObject, World.removeObject, World.setArticleCover] <;>
      split <;> rfl
  · cases hid : Atoi req.articleParam <;> cases hquery : out.queryErr <;>
      cases hfile : req.formFile "cover" <;>
      cases hup : out.upload <;> cases hexec : out.execErr <;> cases hdel : out.deleteErr <;>
      simp [UploadArticleCover, DeleteFile, hid, hquery, hfile, hup, hexec, hdel, World.record,
        World.putObject, World.removeObject, World.setArticleCover, deleteCalls_append,
        deleteCalls] <;>
      split <;> simp [deleteCalls_append, deleteCalls]

theorem consistency_preserved_fresh_key_witness :
    coverWorld.Consistent
    ∧ (UploadUserProfile sampleRequest ⟨.ok profileResult, none, some pqError, none⟩
        coverWorld).2.Consistent
    ∧ profileWorld.Consistent
    ∧ (UploadArticleCover sampleRequest ⟨.ok coverResult, none, none, none⟩
        profileWorld).2.Consistent :=
  have hcover : coverWorld.Consistent := by
    unfold World.Consistent
    decide
  have hprofile : profileWorld.Consistent := by
    unfold World.Consistent
    decide
  have hfreshProfile : ∀ r, (Except.ok profileResult : Except GoError UploadResult) = .ok r →
      r.Key ∉ coverWorld.keys := by
    intro r hr
    cases hr
    decide
  have hfreshCover : ∀ r, (Except.ok coverResult : Except GoError UploadResult) = .ok r →
      r.Key ∉ profileWorld.keys := by
    intro r hr
    cases hr
    decide
  ⟨hcover,
   (consistency_preserved_fresh_key sampleRequest
      ⟨.ok profileResult, none, some pqError, none⟩ coverWorld hcover hfreshProfile).1,
   hprofile,
   (consistency_preserved_fresh_key sampleRequest
      ⟨.ok coverResult, none, none, none⟩ profileWorld hprofile hfreshCover).2.1⟩

/-! ## Connection retry -/

/-- Values in the range of `int64` are left alone by the wrap-around. -/
theorem wrapInt64_of_small (x : Int) (hlo : 0 ≤ x) (hhi : x < 9223372036854775808) :
    wrapInt64 x = x := by
  unfold wrapInt64
  norm_num
  omega

/-- Doubling the delay with the cap at 30 seconds, as the loop body does, leads from the
claimed delay of attempt `k` to that of attempt `k + 1`; the `int64` product does not
overflow. -/
theorem backoff_step (k : Nat) :
    (if wrapInt64 (delayAfter k * 2) > 30 * Second then 30 * Second
      else wrapInt64 (delayAfter k * 2)) = delayAfter (k + 1) := by
  have hmin : min (2 ^ (k + 1)) 30 = min (2 * min (2 ^ k) 30) 30 := by
    rw [pow_succ]
    omega
  have hle : min (2 ^ k) 30 ≤ 30 := Nat.min_le_right _ _
  unfold delayAfter
  rw [hmin]
  generalize min (2 ^ k) 30 = m at hle
  have hwrap : wrapInt64 ((m : Int) * Second * 2) = (m : Int) * Second * 2 := by
    apply wrapInt64_of_small <;> unfold Second <;> omega
  rw [hwrap]
  unfold Second
  split <;> omega

/-- The loop on a run of failures: started at attempt `i` with the claimed delay, `n`
iterations left and `i + n = maxRetries`, it runs to the end, makes the claimed events, and
leaves the error of the last attempt in `lastErr`. -/
theorem retryLoop_all_fail (token : Nat → Option GoError) (maxRetries : Int) (total : Nat)
    (htotal : (total : Int) = maxRetries) :
    ∀ (n i : Nat) (lastErr : Option GoError), i + n = total →
      (∀ k, i ≤ k → k < total → ∃ e, token k = some e) →
      retryLoop token maxRetries n i lastErr (delayAfter i)
        = (.finished (if n = 0 then lastErr else Connect (token (total - 1))),
            failedEventsFrom total i n) := by
  intro n
  induction n with
  | zero =>
    intro i lastErr _ _
    simp [retryLoop, failedEventsFrom]
  | succ n ih =>
    intro i lastErr hin hfail
    obtain ⟨e, he⟩ := hfail i (le_refl _) (by omega)
    rw [retryLoop]
    simp only [he, Connect]
    by_cases hn : n = 0
    · subst hn
      have hcond : ¬ ((i : Int) < maxRetries - 1) := by omega
      have hlast : total - 1 = i := by omega
      have hnot : ¬ (i + 1 < total) := by omega
      rw [if_neg hcond]
      simp [retryLoop, failedEventsFrom, hlast, he, Connect, hnot]
    · have hcond : (i : Int) < maxRetries - 1 := by omega
      have hlt : i + 1 < total := by omega
      rw [if_pos hcond]
      simp only [backoff_step]
      rw [ih (i + 1) _ (by omega) (fun k hk hk2 => hfail k (by omega) hk2)]
      simp [hn, failedEventsFrom, List.range'_succ, hlt, Connect]

/-- The loop on a run whose first success is attempt `i + m`: it returns `nil` right after
that attempt, every earlier attempt being followed by its delay. -/
theorem retryLoop_first_success (token : Nat → Option GoError) (maxRetries : Int) (total : Nat)
    (htotal : (total : Int) = maxRetries) :
    ∀ (m n i : Nat) (lastErr : Option GoError), i + n = total → m < n →
      token (i + m) = none → (∀ k, i ≤ k → k < i + m → ∃ e, token k = some e) →
      retryLoop token maxRetries n i lastErr (delayAfter i)
        = (.returned none,
            ((List.range' i m).flatMap fun k => [Event.connect, Event.sleep (delayAfter k)])
              ++ [Event.connect]) := by
  intro m
  induction m with
  | zero =>
    intro n i lastErr _ hmn hsucc _
    obtain ⟨n, rfl⟩ : ∃ p, n = p + 1 := ⟨n - 1, by omega⟩
    rw [retryLoop]
    simp only [Nat.add_zero] at hsucc
    simp [hsucc, Connect]
  | succ m ih =>
    intro n i lastErr hin hmn hsucc hfail
    obtain ⟨n, rfl⟩ : ∃ p, n = p + 1 := ⟨n - 1, by omega⟩
    obtain ⟨e, he⟩ := hfail i (le_refl _) (by omega)
    have hcond : (i : Int) < maxRetries - 1 := by omega
    rw [retryLoop]
    simp only [he, Connect, if_pos hcond, backoff_step]
    rw [ih n (i + 1) _ (by omega) (by omega) (by rw [← hsucc]; congr 1; omega)
      (fun k hk hk2 => hfail k (by omega) (by omega))]
    simp [List.range'_succ]

theorem connectCount_append (xs ys : List Event) :
    connectCount (xs ++ ys) = connectCount xs + connectCount ys := by
  induction xs with
  | nil => simp [connectCount]
  | cons ev rest ih =>
    cases ev with
    | connect =>
      rw [List.cons_append]
      simp only [connectCount, ih]
      omega
    | sleep d =>
      rw [List.cons_append]
      simp only [connectCount, ih]

theorem sleeps_append (xs ys : List Event) : sleeps (xs ++ ys) = sleeps xs ++ sleeps ys := by
  induction xs with
  | nil => rfl
  | cons ev rest ih => cases ev <;> simp [sleeps, ih]

/-- A failed run of attempts `i, ..., i + n - 1` has `n` attempts. -/
theorem connectCount_failedEventsFrom (total : Nat) :
    ∀ n i, connectCount (failedEventsFrom total i n) = n := by
  intro n
  induction n with
  | zero => intro i; simp [failedEventsFrom, connectCount]
  | succ n ih =>
    intro i
    have hrec := ih (i + 1)
    unfold failedEventsFrom at hrec ⊢
    rw [List.range'_succ, List.flatMap_cons, connectCount_append, hrec]
    split <;> simp [connectCount] <;> omega

/-- The sleeps of a failed run of attempts `i, ..., i + n - 1` that ends with the last
allowed attempt are the claimed delays of all attempts but the last. -/
theorem sleeps_failedEventsFrom (total : Nat) :
    ∀ n i, i + n = total →
      sleeps (failedEventsFrom total i n) = (List.range' i (n - 1)).map delayAfter := by
  intro n
  induction n with
  | zero => intro i _; simp [failedEventsFrom, sleeps]
  | succ n ih =>
    intro i hin
    have hrec := ih (i + 1) (by omega)
    unfold failedEventsFrom at hrec ⊢
    rw [List.range'_succ, List.flatMap_cons, sleeps_append, hrec]
    by_cases hn : n = 0
    · subst hn
      have hnot : ¬ (i + 1 < total) := by omega
      simp [hnot, sleeps]
    · obtain ⟨p, rfl⟩ : ∃ p, n = p + 1 := ⟨n - 1, by omega⟩
      have hlt : i + 1 < total := by omega
      simp [hlt, sleeps, List.range'_succ]

/-- A run of `m` failed attempts, each followed by its delay, has `m` attempts. -/
theorem connectCount_retries :
    ∀ m i, connectCount ((List.range' i m).flatMap fun k =>
      [Event.connect, Event.sleep (delayAfter k)]) = m := by
  intro m
  induction m with
  | zero => intro i; simp [connectCount]
  | succ m ih =>
    intro i
    rw [List.range'_succ, List.flatMap_cons, connectCount_append, ih (i + 1)]
    simp only [connectCount]
    omega

/-- A run of `m` failed attempts, each followed by its delay, sleeps the claimed delays. -/
theorem sleeps_retries :
    ∀ m i, sleeps ((List.range' i m).flatMap fun k =>
      [Event.connect, Event.sleep (delayAfter k)]) = (List.range' i m).map delayAfter := by
  intro m
  induction m with
  | zero => intro i; simp [sleeps]
  | succ m ih =>
    intro i
    rw [List.range'_succ, List.flatMap_cons, sleeps_append, ih (i + 1)]
    simp [sleeps]

/-- C5. For every `maxRetries ≥ 1`, if every `Connect` attempt fails, `ConnectWithRetry`
makes exactly `maxRetries` `Connect` calls and returns an error that wraps the error
returned by the last attempt (which itself wraps the token error `e` of that attempt). -/
theorem connectWithRetry_all_fail_error (token : Nat → Option GoError) (maxRetries : Int)
    (hmax : 1 ≤ maxRetries)
    (hfail : ∀ k : Nat, (k : Int) < maxRetries → ∃ e, token k = some e) :
    connectCount (ConnectWithRetry token maxRetries).2 = maxRetries.toNat
    ∧ ∃ e, token (maxRetries.toNat - 1) = some e
        ∧ Connect (token (maxRetries.toNat - 1))
            = some (.wrap "failed to connect to MQTT broker: " e)
        ∧ (ConnectWithRetry token maxRetries).1
            = some (.wrap ("failed to connect to MQTT after " ++ toString maxRetries
                      ++ " attempts: ")
                    (.wrap "failed to connect to MQTT broker: " e))
        ∧ ((ConnectWithRetry token maxRetries).1.bind GoError.Unwrap)
            = Connect (token (maxRetries.toNat - 1)) := by
  have htotal : ((maxRetries.toNat : Nat) : Int) = maxRetries := Int.toNat_of_nonneg (by omega)
  have hpos : maxRetries.toNat ≠ 0 := by omega
  have hloop := retryLoop_all_fail token maxRetries maxRetries.toNat htotal maxRetries.toNat 0
    none (by simp) (fun k _ hk => hfail k (by omega))
  have hstart : (1 * Second : Int) = delayAfter 0 := by decide
  obtain ⟨e, he⟩ := hfail (maxRetries.toNat - 1) (by omega)
  have hrun : ConnectWithRetry token maxRetries
      = (some (retryError maxRetries (Connect (token (maxRetries.toNat - 1)))),
          failedEventsFrom maxRetries.toNat 0 maxRetries.toNat) := by
    unfold ConnectWithRetry
    rw [hstart, hloop]
    simp [hpos]
  refine ⟨?_, e, he, ?_, ?_, ?_⟩
  · rw [hrun]
    exact connectCount_failedEventsFrom _ _ _
  · simp [he, Connect]
  · rw [hrun]
    simp [he, Connect, retryError]
  · rw [hrun]
    simp [he, Connect, retryError, GoError.Unwrap]

theorem connectWithRetry_all_fail_error_witness :
    connectCount (ConnectWithRetry refuseAll 3).2 = 3
    ∧ (ConnectWithRetry refuseAll 3).1
        = some (.wrap "failed to connect to MQTT after 3 attempts: "
            (.wrap "failed to connect to MQTT broker: " (.base "connection refused #2"))) := by
  obtain ⟨hcount, e, he, _, herr, _⟩ :=
    connectWithRetry_all_fail_error refuseAll 3 (by decide) (fun k _ => ⟨_, rfl⟩)
  refine ⟨hcount, ?_⟩
  have hlast : e = .base "connection refused #2" := by
    have h2 : refuseAll 2 = some e := he
    have h3 : refuseAll 2 = some (.base "connection refused #2") := by decide
    rw [h2] at h3
    exact Option.some.inj h3
  rw [herr, hlast]
  decide

/-- C6. For every `maxRetries ≥ 1`, when every attempt fails the events of
`ConnectWithRetry` are: attempt, sleep, attempt, sleep, ..., attempt; that is
`maxRetries - 1` sleeps, each between two consecutive attempts and none after the last
attempt, the sleep after attempt `k` (counted from `0`) lasting `min (2 ^ k) 30` seconds. -/
theorem connectWithRetry_all_fail_events (token : Nat → Option GoError) (maxRetries : Int)
    (hmax : 1 ≤ maxRetries)
    (hfail : ∀ k : Nat, (k : Int) < maxRetries → ∃ e, token k = some e) :
    (ConnectWithRetry token maxRetries).2 = failedRunEvents maxRetries.toNat
    ∧ sleeps (ConnectWithRetry token maxRetries).2
        = (List.range (maxRetries.toNat - 1)).map
            (fun k => ((min (2 ^ k) 30 : Nat) : Int) * 1000000000)
    ∧ (sleeps (ConnectWithRetry token maxRetries).2).length = maxRetries.toNat - 1
    ∧ (ConnectWithRetry token maxRetries).2.getLast? = some Event.connect := by
  have htotal : ((maxRetries.toNat : Nat) : Int) = maxRetries := Int.toNat_of_nonneg (by omega)
  have hpos : maxRetries.toNat ≠ 0 := by omega
  have hloop := retryLoop_all_fail token maxRetries maxRetries.toNat htotal maxRetries.toNat 0
    none (by simp) (fun k _ hk => hfail k (by omega))
  have hstart : (1 * Second : Int) = delayAfter 0 := by decide
  have hevents : (ConnectWithRetry token maxRetries).2 = failedRunEvents maxRetries.toNat := by
    unfold ConnectWithRetry failedRunEvents
    rw [hstart, hloop]
  have hsleeps : sleeps (ConnectWithRetry token maxRetries).2
      = (List.range (maxRetries.toNat - 1)).map
          (fun k => ((min (2 ^ k) 30 : Nat) : Int) * 1000000000) := by
    rw [hevents, failedRunEvents, sleeps_failedEventsFrom _ _ _ (by simp),
      List.range_eq_range']
    rfl
  refine ⟨hevents, hsleeps, ?_, ?_⟩
  · rw [hsleeps]
    simp
  · rw [hevents]
    obtain ⟨p, hp⟩ : ∃ p, maxRetries.toNat = p + 1 := ⟨maxRetries.toNat - 1, by omega⟩
    rw [hp, failedRunEvents, failedEventsFrom, List.range'_concat, List.flatMap_append]
    simp

theorem connectWithRetry_all_fail_events_witness :
    (ConnectWithRetry refuseAll 3).2
      = [.connect, .sleep 1000000000, .connect, .sleep 2000000000, .connect]
    ∧ sleeps (ConnectWithRetry refuseAll 3).2 = [1000000000, 2000000000] := by
  obtain ⟨hevents, hsleeps, _, _⟩ :=
    connectWithRetry_all_fail_events refuseAll 3 (by decide) (fun k _ => ⟨_, rfl⟩)
  refine ⟨?_, ?_⟩
  · rw [hevents]
    decide
  · rw [hsleeps]
    decide

/-- C7. If the first successful `Connect` attempt is the `j`-th one, `1 ≤ j ≤ maxRetries`,
then `ConnectWithRetry` returns `nil`; its events are `j - 1` failed attempts, each
followed by a sleep, and then the successful attempt, after which nothing happens: exactly
`j` `Connect` calls and `j - 1` sleeps. -/
theorem connectWithRetry_first_success (token : Nat → Option GoError) (maxRetries : Int)
    (j : Nat) (hj : 1 ≤ j) (hjmax : (j : Int) ≤ maxRetries)
    (hsucc : token (j - 1) = none)
    (hfail : ∀ k, k + 1 < j → ∃ e, token k = some e) :
    (ConnectWithRetry token maxRetries).1 = none
    ∧ (ConnectWithRetry token maxRetries).2 = successRunEvents j
    ∧ connectCount (ConnectWithRetry token maxRetries).2 = j
    ∧ (sleeps (ConnectWithRetry token maxRetries).2).length = j - 1
    ∧ (ConnectWithRetry token maxRetries).2.getLast? = some Event.connect := by
  have htotal : ((maxRetries.toNat : Nat) : Int) = maxRetries := Int.toNat_of_nonneg (by omega)
  have hloop := retryLoop_first_success token maxRetries maxRetries.toNat htotal (j - 1)
    maxRetries.toNat 0 none (by simp) (by omega) (by simpa using hsucc)
    (fun k _ hk => hfail k (by omega))
  have hstart : (1 * Second : Int) = delayAfter 0 := by decide
  have hrun : ConnectWithRetry token maxRetries = (none, successRunEvents j) := by
    unfold ConnectWithRetry successRunEvents
    rw [hstart, hloop, List.range_eq_range']
  refine ⟨by rw [hrun], by rw [hrun], ?_, ?_, ?_⟩
  · rw [hrun]
    simp only [successRunEvents]
    rw [connectCount_append, List.range_eq_range', connectCount_retries]
    simp only [connectCount]
    omega
  · rw [hrun]
    simp only [successRunEvents]
    rw [sleeps_append, List.range_eq_range', sleeps_retries]
    simp [sleeps]
  · rw [hrun]
    simp [successRunEvents]

theorem connectWithRetry_first_success_witness :
    ConnectWithRetry acceptThird 5
      = (none, [.connect, .sleep 1000000000, .connect, .sleep 2000000000, .connect]) := by
  obtain ⟨hres, hevents, _, _, _⟩ :=
    connectWithRetry_first_success acceptThird 5 3 (by decide) (by decide) (by decide)
      (fun k hk => ⟨.base "connection refused", by
        have hk2 : k < 2 := by omega
        simp [acceptThird, hk2]⟩)
  refine Prod.ext hres ?_
  rw [hevents]
  decide

/-! ## Decoding the payload -/

/-- Storing a member that is not stored in the field `timestamp` leaves that field as it
was. -/
theorem storeMember_timestamp (json : JsonEnv) (st : SensorData × Option GoError)
    (m : String × JsonValue) (hfield : fieldOf json.equalFold m.1 ≠ some .Timestamp) :
    (storeMember json st m).1.Timestamp = st.1.Timestamp := by
  unfold storeMember
  cases hf : fieldOf json.equalFold m.1 with
  | none => simp
  | some f =>
    have hne : f ≠ .Timestamp := fun h => hfield (by rw [hf, h])
    cases hval : m.2 with
    | number literal =>
      cases f <;> cases hparse : json.parseFloat literal <;> simp [hparse]
    | string text =>
      cases f <;> first | exact absurd rfl hne | simp
    | _ => cases f <;> simp

/-- Decoding an object without a member for the field `timestamp` leaves that field as it
was. -/
theorem foldl_storeMember_timestamp (json : JsonEnv) (members : List (String × JsonValue))
    (homits : Omits json.equalFold members .Timestamp) :
    ∀ st : SensorData × Option GoError,
      (members.foldl (storeMember json) st).1.Timestamp = st.1.Timestamp := by
  induction members with
  | nil => intro st; rfl
  | cons m rest ih =>
    intro st
    simp only [List.foldl_cons]
    rw [ih (fun x hx => homits x (List.mem_cons_of_mem _ hx)) (storeMember json st m),
      storeMember_timestamp json st m (homits m (List.mem_cons_self _ _))]

/-- The result of a successful decoding of an object is the struct left by storing its
members. -/
theorem jsonUnmarshal_object (json : JsonEnv) (payload : List UInt8)
    (members : List (String × JsonValue)) (data : SensorData)
    (hscan : json.scan payload = .ok (.object members))
    (hdecode : jsonUnmarshal json payload = .ok data) :
    data = (members.foldl (storeMember json) (zeroSensorData, none)).1 := by
  unfold jsonUnmarshal at hdecode
  rw [hscan] at hdecode
  simp only [] at hdecode
  split at hdecode
  · rename_i d heq
    rw [heq]
    exact (Except.ok.inj hdecode).symm
  · exact absurd hdecode (by simp)

/-! ## Telemetry ingestion -/

/-- C8. For every payload that decodes as `SensorData` with a registered `install_code`
(the device lookup succeeds and finds a row), when the store accepts the write
`handleSensorData` makes the lookup and then exactly one `INSERT`, whose row carries the
payload's `install_code`, `suhu` and `kelembaban` unchanged together with a timestamp that
is the parsed timestamp of the payload or the arrival time; the row is appended to the
time-series table. -/
theorem handleSensorData_registered (env : IngestEnv) (payload : List UInt8) (w : World)
    (data : SensorData)
    (hdecode : env.unmarshal payload = .ok data) (hlookup : env.lookupErr = none)
    (hregistered : data.InstallCode ∈ w.iot_devices) (hinsert : env.insertErr = none) :
    ∃ ts : Time,
      (ts = env.now ∨ (data.Timestamp ≠ "" ∧ env.parseRFC3339 data.Timestamp = .ok ts))
      ∧ (handleSensorData env payload w).calls
          = w.calls ++ [.countDevices data.InstallCode,
              .insertSensor ⟨data.InstallCode, data.Suhu, data.Kelembaban, ts⟩]
      ∧ insertCalls (handleSensorData env payload w).calls
          = insertCalls w.calls ++ [⟨data.InstallCode, data.Suhu, data.Kelembaban, ts⟩]
      ∧ (handleSensorData env payload w).sensors
          = w.sensors ++ [⟨data.InstallCode, data.Suhu, data.Kelembaban, ts⟩] := by
  have hcount : ((w.iot_devices.filter (fun c => c = data.InstallCode)).length : Int) ≠ 0 := by
    have hmem : data.InstallCode ∈ w.iot_devices.filter (fun c => c = data.InstallCode) := by
      simp [List.mem_filter, hregistered]
    have hpos := List.length_pos_of_mem hmem
    omega
  refine ⟨if data.Timestamp ≠ "" then
      (match env.parseRFC3339 data.Timestamp with
        | .ok parsedTime => parsedTime
        | .error _ => env.now)
      else env.now, ?_, ?_, ?_, ?_⟩
  · by_cases hempty : data.Timestamp = ""
    · simp [hempty]
    · cases hparse : env.parseRFC3339 data.Timestamp <;> simp [hempty]
  · simp [handleSensorData, hdecode, hlookup, hinsert, World.record, hcount]
  · simp [handleSensorData, hdecode, hlookup, hinsert, World.record, hcount,
      insertCalls_append, insertCalls]
  · simp [handleSensorData, hdecode, hlookup, hinsert, World.record, hcount]

theorem handleSensorData_registered_witness :
    insertCalls (handleSensorData sampleEnv registeredPayload sampleWorld).calls
      = [⟨"SWF-001", ⟨4628996729495093248⟩, ⟨4635400285215260672⟩, ⟨1704110405000000000, 0⟩⟩]
    ∧ (handleSensorData sampleEnv registeredPayload sampleWorld).sensors
      = [⟨"SWF-001", ⟨4628996729495093248⟩, ⟨4635400285215260672⟩,
          ⟨1704110405000000000, 0⟩⟩] := by
  obtain ⟨ts, hts, _, hcalls, hsensors⟩ :=
    handleSensorData_registered sampleEnv registeredPayload sampleWorld
      (sampleReading "SWF-001" "") (by rfl) rfl (by decide) rfl
  have hnow : ts = ⟨1704110405000000000, 0⟩ := by
    rcases hts with hnow | ⟨hne, _⟩
    · exact hnow
    · exact absurd rfl hne
  rw [hcalls, hsensors, hnow]
  exact ⟨rfl, rfl⟩

/-- C9. For every decodable payload whose `install_code` is not registered (the device
lookup succeeds and finds no row), `handleSensorData` makes the lookup and nothing else: no
`INSERT` is issued, the time-series table is unchanged, and the handler returns (it has no
error result, and the model is total). -/
theorem handleSensorData_unregistered (env : IngestEnv) (payload : List UInt8) (w : World)
    (data : SensorData)
    (hdecode : env.unmarshal payload = .ok data) (hlookup : env.lookupErr = none)
    (hunknown : data.InstallCode ∉ w.iot_devices) :
    handleSensorData env payload w = w.record (.countDevices data.InstallCode)
    ∧ insertCalls (handleSensorData env payload w).calls = insertCalls w.calls
    ∧ (handleSensorData env payload w).sensors = w.sensors := by
  have hcount : ((w.iot_devices.filter (fun c => c = data.InstallCode)).length : Int) = 0 := by
    have hnil : w.iot_devices.filter (fun c => c = data.InstallCode) = [] := by
      apply List.filter_eq_nil_iff.mpr
      intro c hc
      have hne : c ≠ data.InstallCode := fun heq => hunknown (heq ▸ hc)
      simpa using hne
    rw [hnil]
    rfl
  have hrun : handleSensorData env payload w = w.record (.countDevices data.InstallCode) := by
    simp only [handleSensorData, hdecode, hlookup]
    rw [if_pos (by simpa [World.record] using hcount)]
  refine ⟨hrun, ?_, ?_⟩
  · rw [hrun]
    simp [World.record, insertCalls_append, insertCalls]
  · rw [hrun]
    rfl

theorem handleSensorData_unregistered_witness :
    handleSensorData sampleEnv unknownPayload sampleWorld
      = sampleWorld.record (.countDevices "SWF-999")
    ∧ insertCalls (handleSensorData sampleEnv unknownPayload sampleWorld).calls = [] :=
  ⟨(handleSensorData_unregistered sampleEnv unknownPayload sampleWorld
      (sampleReading "SWF-999" "2024-01-01T12:00:00Z") (by rfl) rfl (by decide)).1,
   (handleSensorData_unregistered sampleEnv unknownPayload sampleWorld
      (sampleReading "SWF-999" "2024-01-01T12:00:00Z") (by rfl) rfl (by decide)).2.1⟩

/-- C10. For every payload that fails JSON decoding into `SensorData`, `handleSensorData`
returns with the world as it was: no call is logged, so no `INSERT` is issued and no
device-registration lookup is made, and no reading is written. -/
theorem handleSensorData_undecodable (env : IngestEnv) (payload : List UInt8) (w : World)
    (e : GoError) (hdecode : env.unmarshal payload = .error e) :
    handleSensorData env payload w = w
    ∧ insertCalls (handleSensorData env payload w).calls = insertCalls w.calls
    ∧ lookupCalls (handleSensorData env payload w).calls = lookupCalls w.calls
    ∧ (handleSensorData env payload w).sensors = w.sensors := by
  have hrun : handleSensorData env payload w = w := by
    simp only [handleSensorData, hdecode]
  rw [hrun]
  exact ⟨rfl, rfl, rfl, rfl⟩

theorem handleSensorData_undecodable_witness :
    handleSensorData sampleEnv brokenPayload sampleWorld = sampleWorld :=
  (handleSensorData_undecodable sampleEnv brokenPayload sampleWorld
    (.base "invalid character 's' looking for beginning of value") (by rfl)).1

/-- Timestamp resolution for a decoded message of a registered device: a non-empty
`timestamp` field that parses as RFC3339 gives the parsed value, an empty one or one that
fails to parse gives the arrival time; in both cases exactly one `INSERT` is issued and
its row is appended when the store accepts the write. -/
theorem handleSensorData_resolved (env : IngestEnv) (payload : List UInt8) (w : World)
    (data : SensorData)
    (hdecode : env.unmarshal payload = .ok data) (hlookup : env.lookupErr = none)
    (hregistered : data.InstallCode ∈ w.iot_devices) :
    (∀ t, data.Timestamp ≠ "" → env.parseRFC3339 data.Timestamp = .ok t →
      insertCalls (handleSensorData env payload w).calls
          = insertCalls w.calls ++ [⟨data.InstallCode, data.Suhu, data.Kelembaban, t⟩]
        ∧ (env.insertErr = none → (handleSensorData env payload w).sensors
            = w.sensors ++ [⟨data.InstallCode, data.Suhu, data.Kelembaban, t⟩]))
    ∧
    ((data.Timestamp = "" ∨ ∃ e, env.parseRFC3339 data.Timestamp = .error e) →
      insertCalls (handleSensorData env payload w).calls
          = insertCalls w.calls ++ [⟨data.InstallCode, data.Suhu, data.Kelembaban, env.now⟩]
        ∧ (env.insertErr = none → (handleSensorData env payload w).sensors
            = w.sensors ++ [⟨data.InstallCode, data.Suhu, data.Kelembaban, env.now⟩])) := by
  have hcount : ((w.iot_devices.filter (fun c => c = data.InstallCode)).length : Int) ≠ 0 := by
    have hmem : data.InstallCode ∈ w.iot_devices.filter (fun c => c = data.InstallCode) := by
      simp [List.mem_filter, hregistered]
    have hpos := List.length_pos_of_mem hmem
    omega
  constructor
  · intro t hne hparse
    constructor
    · cases hins : env.insertErr <;>
        simp [handleSensorData, hdecode, hlookup, hins, World.record, hcount, hne, hparse,
          insertCalls_append, insertCalls]
    · intro hins
      simp [handleSensorData, hdecode, hlookup, hins, World.record, hcount, hne, hparse]
  · intro hcase
    rcases hcase with hempty | ⟨e, hparse⟩
    · constructor
      · cases hins : env.insertErr <;>
          simp [handleSensorData, hdecode, hlookup, hins, World.record, hcount, hempty,
            insertCalls_append, insertCalls]
      · intro hins
        simp [handleSensorData, hdecode, hlookup, hins, World.record, hcount, hempty]
    · constructor
      · cases hins : env.insertErr <;>
          simp [handleSensorData, hdecode, hlookup, hins, World.record, hcount, hparse,
            insertCalls_append, insertCalls]
      · intro hins
        simp [handleSensorData, hdecode, hlookup, hins, World.record, hcount, hparse]

/-- C11. Timestamp resolution in `handleSensorData`, for a decoded message of a registered
device: if the `timestamp` field is non-empty and parses as RFC3339, the row handed to the
`INSERT` carries exactly the parsed value; if the field is empty or fails to parse, the row
carries the arrival time `env.now`; and if the field is absent, that is, the payload is a
JSON object without a member for `timestamp` and `data` is what `json.Unmarshal` (spelled
out as `jsonUnmarshal`) decodes from it, the field of `data` is the empty string and the
row carries the arrival time `env.now`.  In every case the message is accepted: exactly one
`INSERT` is issued, and the row is appended when the store accepts the write. -/
theorem handleSensorData_timestamp (env : IngestEnv) (payload : List UInt8) (w : World)
    (data : SensorData)
    (hdecode : env.unmarshal payload = .ok data) (hlookup : env.lookupErr = none)
    (hregistered : data.InstallCode ∈ w.iot_devices) :
    (∀ t, data.Timestamp ≠ "" → env.parseRFC3339 data.Timestamp = .ok t →
      insertCalls (handleSensorData env payload w).calls
          = insertCalls w.calls ++ [⟨data.InstallCode, data.Suhu, data.Kelembaban, t⟩]
        ∧ (env.insertErr = none → (handleSensorData env payload w).sensors
            = w.sensors ++ [⟨data.InstallCode, data.Suhu, data.Kelembaban, t⟩]))
    ∧
    ((data.Timestamp = "" ∨ ∃ e, env.parseRFC3339 data.Timestamp = .error e) →
      insertCalls (handleSensorData env payload w).calls
          = insertCalls w.calls ++ [⟨data.InstallCode, data.Suhu, data.Kelembaban, env.now⟩]
        ∧ (env.insertErr = none → (handleSensorData env payload w).sensors
            = w.sensors ++ [⟨data.InstallCode, data.Suhu, data.Kelembaban, env.now⟩]))
    ∧
    (∀ (json : JsonEnv) (members : List (String × JsonValue)),
      json.scan payload = .ok (.object members) → jsonUnmarshal json payload = .ok data →
      Omits json.equalFold members .Timestamp →
      data.Timestamp = ""
        ∧ insertCalls (handleSensorData env payload w).calls
          = insertCalls w.calls ++ [⟨data.InstallCode, data.Suhu, data.Kelembaban, env.now⟩]
        ∧ (env.insertErr = none → (handleSensorData env payload w).sensors
            = w.sensors ++ [⟨data.InstallCode, data.Suhu, data.Kelembaban, env.now⟩])) := by
  have hresolved := handleSensorData_resolved env payload w data hdecode hlookup hregistered
  refine ⟨hresolved.1, hresolved.2, ?_⟩
  intro json members hscan hjson homits
  have hdata := jsonUnmarshal_object json payload members data hscan hjson
  have hkept := foldl_storeMember_timestamp json members homits (zeroSensorData, none)
  have hempty : data.Timestamp = "" := by
    rw [hdata, hkept]
    rfl
  exact ⟨hempty, hresolved.2 (Or.inl hempty)⟩

theorem handleSensorData_timestamp_witness :
    insertCalls (handleSensorData stampedEnv stampedPayload sampleWorld).calls
      = [⟨"SWF-001", ⟨4628996729495093248⟩, ⟨4635400285215260672⟩, ⟨1704110400000000000, 0⟩⟩]
    ∧ insertCalls (handleSensorData stampedEnv garbledPayload sampleWorld).calls
      = [⟨"SWF-001", ⟨4628996729495093248⟩, ⟨4635400285215260672⟩,
          ⟨1704110405000000000, 0⟩⟩]
    ∧ insertCalls (handleSensorData (decodingEnv sampleJson sampleEnv) barePayload
          sampleWorld).calls
      = [⟨"SWF-001", ⟨0⟩, ⟨0⟩, ⟨1704110405000000000, 0⟩⟩] :=
  ⟨((handleSensorData_timestamp stampedEnv stampedPayload sampleWorld
      (sampleReading "SWF-001" "2024-01-01T12:00:00Z") (by rfl) rfl (by decide)).1
      ⟨1704110400000000000, 0⟩ (by decide) (by rfl)).1,
   ((handleSensorData_timestamp stampedEnv garbledPayload sampleWorld
      (sampleReading "SWF-001" "yesterday") (by rfl) rfl (by decide)).2.1
      (Or.inr ⟨.base "parsing time: cannot parse", by rfl⟩)).1,
   ((handleSensorData_timestamp (decodingEnv sampleJson sampleEnv) barePayload sampleWorld
      ⟨"SWF-001", ⟨0⟩, ⟨0⟩, ""⟩ (by rfl) rfl (by decide)).2.2 sampleJson
      [("install_code", .string "SWF-001")] (by rfl) (by rfl)
      (by unfold Omits; decide)).2.1⟩

/-! ## Upload validation -/

open S3Service

/-- The allow-list test of `isAllowedFileType` is membership in the three lists. -/
theorem isAllowedFileType_iff (ext : String) :
    isAllowedFileType ext = true ↔ ext ∈ ImageTypes ++ DocTypes ++ VideoTypes := by
  unfold isAllowedFileType
  rw [List.any_eq_true]
  constructor
  · rintro ⟨x, hx, heq⟩
    have hxe : ext = x := by simpa using heq
    rw [hxe]
    simpa using hx
  · intro h
    exact ⟨ext, by simpa using h, by simp⟩

/-- The test of `isDocumentType` is membership in `DocTypes`. -/
theorem isDocumentType_iff (ext : String) : isDocumentType ext = true ↔ ext ∈ DocTypes := by
  unfold isDocumentType
  rw [List.any_eq_true]
  constructor
  · rintro ⟨x, hx, heq⟩
    have hxe : ext = x := by simpa using heq
    rw [hxe]
    exact hx
  · intro h
    exact ⟨ext, h, by simp⟩

/-- C12. For every filename and every declared size, if the lowercased extension of the
filename is in none of `ImageTypes`, `DocTypes`, `VideoTypes`, then `UploadFile` returns the
error `file type <ext> is not allowed` without calling anything, whatever the size (the
size is not looked at); this covers the filename without extension. -/
theorem uploadFile_unsupported_type (env : S3Env) (filename : String) (folder : String)
    (hext : ToLower env.table (Ext filename) ∉ ImageTypes ++ DocTypes ++ VideoTypes) :
    (∀ size : Int, UploadFile env ⟨filename, size⟩ folder
        = (.error (.base ("file type " ++ ToLower env.table (Ext filename)
              ++ " is not allowed")), []))
    ∧ (Ext filename = "" → ∀ size : Int, UploadFile env ⟨filename, size⟩ folder
        = (.error (.base "file type  is not allowed"), [])) := by
  have hnot : isAllowedFileType (ToLower env.table (Ext filename)) = false := by
    cases hallowed : isAllowedFileType (ToLower env.table (Ext filename)) with
    | false => rfl
    | true => exact absurd ((isAllowedFileType_iff _).mp hallowed) hext
  have hmain : ∀ size : Int, UploadFile env ⟨filename, size⟩ folder
      = (.error (.base ("file type " ++ ToLower env.table (Ext filename)
            ++ " is not allowed")), []) := by
    intro size
    simp [UploadFile, hnot]
  refine ⟨hmain, ?_⟩
  intro hempty size
  rw [hmain size, hempty]
  rfl

theorem uploadFile_unsupported_type_witness :
    UploadFile sampleS3 ⟨"setup.exe", 1⟩ "ebooks"
      = (.error (.base "file type .exe is not allowed"), [])
    ∧ UploadFile sampleS3 ⟨"setup.exe", 1024 * 1024 * 1024⟩ "ebooks"
      = (.error (.base "file type .exe is not allowed"), [])
    ∧ UploadFile sampleS3 ⟨"README", 1⟩ "ebooks"
      = (.error (.base "file type  is not allowed"), []) :=
  ⟨(uploadFile_unsupported_type sampleS3 "setup.exe" "ebooks" (by decide)).1 1,
   (uploadFile_unsupported_type sampleS3 "setup.exe" "ebooks" (by decide)).1 (1024 * 1024 * 1024),
   (uploadFile_unsupported_type sampleS3 "README" "ebooks" (by decide)).2 (by decide) 1⟩

/-- C13. For every filename whose lowercased extension is allowed, with the ceiling
`50 * 1024 * 1024` for an extension of `DocTypes` and `10 * 1024 * 1024` for every other
one: `UploadFile` returns the error `file size <size> exceeds maximum allowed size
<ceiling>` without calling anything exactly when `size > ceiling`; a size up to the ceiling,
the ceiling included, passes validation, that is, the key is generated and the uploader
is called. -/
theorem uploadFile_size_ceiling (env : S3Env) (filename : String) (size : Int)
    (folder : String)
    (hext : ToLower env.table (Ext filename) ∈ ImageTypes ++ DocTypes ++ VideoTypes) :
    (UploadFile env ⟨filename, size⟩ folder
        = (.error (.base ("file size " ++ toString size ++ " exceeds maximum allowed size "
            ++ toString (if ToLower env.table (Ext filename) ∈ DocTypes then (52428800 : Int)
                else 10485760))), [])
      ↔ size > (if ToLower env.table (Ext filename) ∈ DocTypes then (52428800 : Int)
                else 10485760))
    ∧ (size ≤ (if ToLower env.table (Ext filename) ∈ DocTypes then (52428800 : Int)
                else 10485760) →
        (UploadFile env ⟨filename, size⟩ folder).2
          = [.uuidNew, .timeNow,
              .upload env.bucket (generateUniqueFilename env filename folder).1
                (getMimeType (ToLower env.table (Ext filename)))]) := by
  have hallowed : isAllowedFileType (ToLower env.table (Ext filename)) = true :=
    (isAllowedFileType_iff _).mpr hext
  have hgen : (generateUniqueFilename env filename folder).2 = [.uuidNew, .timeNow] := by
    unfold generateUniqueFilename
    split <;> rfl
  have hpass : ∀ ceiling : Int, size ≤ ceiling →
      (if ToLower env.table (Ext filename) ∈ DocTypes then (52428800 : Int) else 10485760)
        = ceiling →
      (UploadFile env ⟨filename, size⟩ folder).2
        = [.uuidNew, .timeNow,
            .upload env.bucket (generateUniqueFilename env filename folder).1
              (getMimeType (ToLower env.table (Ext filename)))] := by
    intro ceiling hle hceil
    by_cases hdoc : ToLower env.table (Ext filename) ∈ DocTypes
    · have hd := (isDocumentType_iff _).mpr hdoc
      rw [if_pos hdoc] at hceil
      have hnot : ¬ ((52428800 : Int) < size) := by omega
      cases hup : env.uploaded <;> simp [UploadFile, hallowed, hd, hnot, hup, hgen]
    · have hd : isDocumentType (ToLower env.table (Ext filename)) = false := by
        cases h : isDocumentType (ToLower env.table (Ext filename)) with
        | false => rfl
        | true => exact absurd ((isDocumentType_iff _).mp h) hdoc
      rw [if_neg hdoc] at hceil
      have hnot : ¬ ((10485760 : Int) < size) := by omega
      cases hup : env.uploaded <;> simp [UploadFile, hallowed, hd, hnot, hup, hgen]
  refine ⟨⟨?_, ?_⟩, fun hle => hpass _ hle rfl⟩
  · intro hres
    by_contra hnot
    have hcalls := hpass _ (not_lt.mp hnot) rfl
    rw [hres] at hcalls
    simp at hcalls
  · intro hgt
    by_cases hdoc : ToLower env.table (Ext filename) ∈ DocTypes
    · have hd := (isDocumentType_iff _).mpr hdoc
      rw [if_pos hdoc] at hgt ⊢
      have hbig : (52428800 : Int) < size := by omega
      simp [UploadFile, hallowed, hd, hbig]
    · have hd : isDocumentType (ToLower env.table (Ext filename)) = false := by
        cases h : isDocumentType (ToLower env.table (Ext filename)) with
        | false => rfl
        | true => exact absurd ((isDocumentType_iff _).mp h) hdoc
      rw [if_neg hdoc] at hgt ⊢
      have hbig : (10485760 : Int) < size := by omega
      simp [UploadFile, hallowed, hd, hbig]

theorem uploadFile_size_ceiling_witness :
    UploadFile sampleS3 ⟨"book.pdf", 60 * 1024 * 1024⟩ "ebooks"
      = (.error (.base "file size 62914560 exceeds maximum allowed size 52428800"), [])
    ∧ (UploadFile sampleS3 ⟨"photo.jpg", 5 * 1024 * 1024⟩ "ebooks").2
      = [.uuidNew, .timeNow,
          .upload "swiflet" "ebooks/photo_20240101_120000_1a2b3c4d.jpg" "image/jpeg"]
    ∧ (UploadFile sampleS3 ⟨"clip.mp4", 10 * 1024 * 1024⟩ "ebooks").2
      = [.uuidNew, .timeNow,
          .upload "swiflet" "ebooks/clip_20240101_120000_1a2b3c4d.mp4" "video/mp4"] :=
  ⟨(uploadFile_size_ceiling sampleS3 "book.pdf" (60 * 1024 * 1024) "ebooks" (by decide)).1.mpr
      (by decide),
   (uploadFile_size_ceiling sampleS3 "photo.jpg" (5 * 1024 * 1024) "ebooks" (by decide)).2
      (by decide),
   (uploadFile_size_ceiling sampleS3 "clip.mp4" (10 * 1024 * 1024) "ebooks" (by decide)).2
      (by decide)⟩

/-! ## Case-insensitive matching of the extension -/

/-- What `Char.toLower` does on the runes up to `unicode.MaxASCII`: the result is such a
rune, lowering twice is lowering once, and only `.` and `/` are lowered to `.` and `/`. -/
theorem ascii_toLower_facts :
    ∀ n, n < 128 →
      (Char.ofNat n).toLower.toNat ≤ 127
      ∧ (Char.ofNat n).toLower.toLower = (Char.ofNat n).toLower
      ∧ ((Char.ofNat n).toLower = '.' → Char.ofNat n = '.')
      ∧ ((Char.ofNat n).toLower = '/' → Char.ofNat n = '/') := by
  decide

/-- Lowering a rune twice is lowering it once. -/
theorem unicodeToLower_idem {table : Char → Char} (htable : SoundTable table) (c : Char) :
    unicodeToLower table (unicodeToLower table c) = unicodeToLower table c := by
  by_cases hc : c.toNat ≤ 127
  · have hfacts := ascii_toLower_facts c.toNat (by omega)
    rw [Char.ofNat_toNat] at hfacts
    unfold unicodeToLower
    rw [if_pos hc, if_pos hfacts.1, hfacts.2.1]
  · have hval : unicodeToLower table c = table c := by
      unfold unicodeToLower
      rw [if_neg hc]
    rw [hval]
    exact (htable c (by omega)).2.2

/-- Only `.` and `/` are lowered to `.` and `/`. -/
theorem unicodeToLower_separator {table : Char → Char} (htable : SoundTable table) (c : Char) :
    (unicodeToLower table c = '.' → c = '.') ∧ (unicodeToLower table c = '/' → c = '/') := by
  by_cases hc : c.toNat ≤ 127
  · have hfacts := ascii_toLower_facts c.toNat (by omega)
    rw [Char.ofNat_toNat] at hfacts
    unfold unicodeToLower
    rw [if_pos hc]
    exact ⟨hfacts.2.2.1, hfacts.2.2.2⟩
  · unfold unicodeToLower
    rw [if_neg hc]
    exact ⟨fun h => absurd h (htable c (by omega)).1, fun h => absurd h (htable c (by omega)).2.1⟩

/-- The scan of `filepath.Ext` either finds no extension, or it found the last dot of the
last path element: the characters passed before that dot hold neither `.` nor `/`. -/
theorem extScan_cases (rev : List Char) :
    ∀ acc, extScan rev acc = []
      ∨ ∃ passed rest, rev = passed ++ '.' :: rest
          ∧ (∀ c ∈ passed, c ≠ '.' ∧ c ≠ '/')
          ∧ extScan rev acc = '.' :: (passed.reverse ++ acc) := by
  induction rev with
  | nil => intro acc; left; rfl
  | cons c before ih =>
    intro acc
    by_cases hslash : c = '/'
    · left
      simp [extScan, hslash]
    · by_cases hdot : c = '.'
      · right
        refine ⟨[], before, by simp [hdot], by simp, ?_⟩
        subst hdot
        simp [extScan]
      · rcases ih (c :: acc) with hnone | ⟨passed, rest, hrev, hclean, hscan⟩
        · left
          simp [extScan, hslash, hdot, hnone]
        · right
          refine ⟨c :: passed, rest, by simp [hrev], ?_, ?_⟩
          · intro x hx
            rcases List.mem_cons.mp hx with rfl | hx
            · exact ⟨hdot, hslash⟩
            · exact hclean x hx
          · simp [extScan, hslash, hdot, hscan]

/-- The scan of `filepath.Ext` stops at the first dot it meets when the characters passed
before hold neither `.` nor `/`. -/
theorem extScan_of_dot (passed rest : List Char) (hclean : ∀ c ∈ passed, c ≠ '.' ∧ c ≠ '/') :
    ∀ acc, extScan (passed ++ '.' :: rest) acc = '.' :: (passed.reverse ++ acc) := by
  induction passed with
  | nil => intro acc; simp [extScan]
  | cons c tail ih =>
    intro acc
    have hc := hclean c (List.mem_cons_self _ _)
    have htail : ∀ x ∈ tail, x ≠ '.' ∧ x ≠ '/' := fun x hx => hclean x (List.mem_cons_of_mem _ hx)
    simp [extScan, hc.1, hc.2, ih htail]

/-- The lowercased extension of a filename is not changed by lowercasing the extension in
the filename. -/
theorem toLower_ext_lowerExtension {table : Char → Char} (htable : SoundTable table)
    (filename : String) :
    ToLower table (Ext (lowerExtension table filename)) = ToLower table (Ext filename) := by
  have hidem : ∀ l : List Char,
      (l.map (unicodeToLower table)).map (unicodeToLower table) = l.map (unicodeToLower table) := by
    intro l
    rw [List.map_map]
    apply List.map_congr_left
    intro c _
    exact unicodeToLower_idem htable c
  rcases extScan_cases filename.toList.reverse [] with hnone | ⟨passed, rest, hrev, hclean, hscan⟩
  · have hext : Ext filename = "" := by
      unfold Ext
      rw [hnone]
    have hsame : lowerExtension table filename = filename := by
      apply String.ext
      simp [lowerExtension, hext, TrimSuffix, ToLower, String.data_append]
    rw [hsame]
  · have hdata : filename.toList = rest.reverse ++ '.' :: passed.reverse := by
      have h := congrArg List.reverse hrev
      simpa using h
    have hext : (Ext filename).toList = '.' :: passed.reverse := by
      unfold Ext
      rw [hscan]
      simp
    have hsuffix : (Ext filename).toList <:+ filename.toList := by
      rw [hext, hdata]
      exact List.suffix_append _ _
    have hdot : unicodeToLower table '.' = '.' := by
      unfold unicodeToLower
      rw [if_pos (by decide)]
      decide
    have hlowered : (lowerExtension table filename).toList
        = rest.reverse ++ '.' :: (passed.map (unicodeToLower table)).reverse := by
      unfold lowerExtension TrimSuffix ToLower
      rw [if_pos hsuffix]
      simp only [String.toList, String.data_append]
      rw [show (Ext filename).data = '.' :: passed.reverse from hext,
        show filename.data = rest.reverse ++ '.' :: passed.reverse from hdata]
      simp [hdot, List.map_reverse]
    have hclean2 : ∀ c ∈ passed.map (unicodeToLower table), c ≠ '.' ∧ c ≠ '/' := by
      intro c hc
      obtain ⟨x, hx, rfl⟩ := List.mem_map.mp hc
      have hsep := unicodeToLower_separator htable x
      exact ⟨fun h => (hclean x hx).1 (hsep.1 h), fun h => (hclean x hx).2 (hsep.2 h)⟩
    have hext2 : (Ext (lowerExtension table filename)).toList
        = '.' :: (passed.map (unicodeToLower table)).reverse := by
      unfold Ext
      rw [hlowered]
      simp only [List.reverse_append, List.reverse_cons, List.reverse_reverse,
        List.append_assoc, List.singleton_append]
      rw [extScan_of_dot _ _ hclean2]
      simp
    apply String.ext
    show ((Ext (lowerExtension table filename)).toList.map (unicodeToLower table))
      = ((Ext filename).toList.map (unicodeToLower table))
    rw [hext2, hext]
    simp only [List.map_cons, hdot, ← List.map_reverse]
    rw [hidem]

/-- The validation outcome of `UploadFile` written out: it is decided by the lowercased
extension and the declared size alone. -/
theorem validationError_eq (env : S3Env) (header : FileHeader) (folder : String) :
    validationError env header folder
      = if isAllowedFileType (ToLower env.table (Ext header.Filename)) = false then
          some (.base ("file type " ++ ToLower env.table (Ext header.Filename)
            ++ " is not allowed"))
        else if header.Size
            > (if isDocumentType (ToLower env.table (Ext header.Filename)) then (52428800 : Int)
                else 10485760) then
          some (.base ("file size " ++ toString header.Size ++ " exceeds maximum allowed size "
            ++ toString (if isDocumentType (ToLower env.table (Ext header.Filename)) then
                (52428800 : Int) else 10485760)))
        else none := by
  have hgen : (generateUniqueFilename env header.Filename folder).2 = [.uuidNew, .timeNow] := by
    unfold generateUniqueFilename
    split <;> rfl
  cases hallowed : isAllowedFileType (ToLower env.table (Ext header.Filename)) with
  | false => simp [validationError, UploadFile, hallowed]
  | true =>
    cases hdoc : isDocumentType (ToLower env.table (Ext header.Filename)) with
    | false =>
      by_cases hbig : (10485760 : Int) < header.Size
      · simp [validationError, UploadFile, hallowed, hdoc, hbig]
      · cases hup : env.uploaded <;>
          simp [validationError, UploadFile, hallowed, hdoc, hbig, hup, hgen]
    | true =>
      by_cases hbig : (52428800 : Int) < header.Size
      · simp [validationError, UploadFile, hallowed, hdoc, hbig]
      · cases hup : env.uploaded <;>
          simp [validationError, UploadFile, hallowed, hdoc, hbig, hup, hgen]

/-- The case tables that leave every rune beyond ASCII alone are sound. -/
theorem soundTable_id : SoundTable (fun r => r) := by
  intro r hr
  refine ⟨?_, ?_, ?_⟩
  · rintro rfl
    exact absurd hr (by decide)
  · rintro rfl
    exact absurd hr (by decide)
  · show unicodeToLower (fun r => r) r = r
    unfold unicodeToLower
    rw [if_neg (by omega)]

/-- C14. Validation is case-insensitive on the extension: for every filename and size, the
validation outcome of `UploadFile` (accepted, or the unsupported-type error, or the
too-large error with its ceiling) is the outcome for the same filename with its extension
lowercased.  The case tables of package `unicode` enter through `SoundTable`. -/
theorem validation_case_insensitive (env : S3Env) (htable : SoundTable env.table)
    (filename : String) (size : Int) (folder : String) :
    validationError env ⟨filename, size⟩ folder
      = validationError env ⟨lowerExtension env.table filename, size⟩ folder := by
  rw [validationError_eq, validationError_eq]
  simp only [toLower_ext_lowerExtension htable]

theorem validation_case_insensitive_witness :
    lowerExtension sampleS3.table "A.JPG" = "A.jpg"
    ∧ validationError sampleS3 ⟨"A.JPG", 5 * 1024 * 1024⟩ "ebooks"
      = validationError sampleS3 ⟨"A.jpg", 5 * 1024 * 1024⟩ "ebooks"
    ∧ lowerExtension sampleS3.table "A.Pdf" = "A.pdf"
    ∧ validationError sampleS3 ⟨"A.Pdf", 60 * 1024 * 1024⟩ "ebooks"
      = validationError sampleS3 ⟨"A.pdf", 60 * 1024 * 1024⟩ "ebooks" :=
  ⟨by decide,
   validation_case_insensitive sampleS3 soundTable_id "A.JPG" (5 * 1024 * 1024) "ebooks",
   by decide,
   validation_case_insensitive sampleS3 soundTable_id "A.Pdf" (60 * 1024 * 1024) "ebooks"⟩

/-! ## Key generation -/

/-- The extension of a filename ends its base name, so that `TrimSuffix` strips it. -/
theorem trimSuffix_base_ext (filename : String) :
    TrimSuffix (Base filename) (Ext filename) ++ Ext filename = Base filename := by
  rcases extScan_cases filename.toList.reverse [] with hnone | ⟨passed, rest, hrev, hclean, hscan⟩
  · have hext : Ext filename = "" := by
      unfold Ext
      rw [hnone]
    apply String.ext
    simp [hext, TrimSuffix, String.data_append]
  · have hext : (Ext filename).toList = '.' :: passed.reverse := by
      unfold Ext
      rw [hscan]
      simp
    have hne : filename ≠ "" := by
      intro h
      rw [h] at hrev
      cases passed <;> simp at hrev
    have hdrop : (filename.toList.reverse.dropWhile (fun c => decide (c = '/')))
        = passed ++ '.' :: rest := by
      rw [hrev]
      cases passed with
      | nil => simp
      | cons c tail =>
        have hc := (hclean c (List.mem_cons_self _ _)).2
        simp [hc]
    have htake : ((passed ++ '.' :: rest).takeWhile (fun c => decide (c ≠ '/')))
        = passed ++ '.' :: rest.takeWhile (fun c => decide (c ≠ '/')) := by
      rw [List.takeWhile_append_of_pos (fun c hc => by simpa using (hclean c hc).2)]
      simp
    have hbase : (Base filename).toList
        = (rest.takeWhile (fun c => decide (c ≠ '/'))).reverse ++ '.' :: passed.reverse := by
      unfold Base
      rw [if_neg hne]
      simp only [hdrop, htake]
      simp
    have hsuffix : (Ext filename).toList <:+ (Base filename).toList := by
      rw [hext, hbase]
      exact List.suffix_append _ _
    apply String.ext
    unfold TrimSuffix
    rw [if_pos hsuffix]
    simp only [String.data_append, String.toList]
    rw [show (Ext filename).data = '.' :: passed.reverse from hext,
      show (Base filename).data
        = (rest.takeWhile (fun c => decide (c ≠ '/'))).reverse ++ '.' :: passed.reverse
        from hbase]
    simp

/-- The helper `appendInt` writes exactly `width` characters for a number of at most
`width` digits. -/
theorem appendInt_length (x width : Nat) (hwidth : 0 < width) (hx : x < 10 ^ width) :
    (appendInt x width).length = width := by
  have hlen : (Nat.repr x).toList.length ≤ width := Nat.repr_length x width hwidth hx
  unfold appendInt
  rw [List.length_append, List.length_replicate]
  omega

/-- The timestamp of a valid clock reading has 15 characters. -/
theorem format_length (c : Clock) (hvalid : c.Valid) : c.Format.length = 15 := by
  obtain ⟨hy, _, hmo, _, hd, hh, hmi, hs⟩ := hvalid
  show (appendInt c.year 4 ++ (appendInt c.month 2 ++ (appendInt c.day 2 ++ '_' ::
    (appendInt c.hour 2 ++ (appendInt c.minute 2 ++ appendInt c.second 2))))).length = 15
  simp only [List.length_append, List.length_cons]
  rw [appendInt_length c.year 4 (by decide) (by norm_num; omega),
    appendInt_length c.month 2 (by decide) (by norm_num; omega),
    appendInt_length c.day 2 (by decide) (by norm_num; omega),
    appendInt_length c.hour 2 (by decide) (by norm_num; omega),
    appendInt_length c.minute 2 (by decide) (by norm_num; omega),
    appendInt_length c.second 2 (by decide) (by norm_num; omega)]

/-- The function `hex.Encode` writes two characters per byte. -/
theorem hexEncode_length (bs : List UInt8) : (hexEncode bs).length = 2 * bs.length := by
  induction bs with
  | nil => rfl
  | cons b rest ih =>
    simp only [hexEncode, List.flatMap_cons, List.length_append, List.length_cons,
      List.length_nil] at ih ⊢
    omega

/-- The first 8 characters of the text of a UUID are the hexadecimal digits of its first
four bytes. -/
theorem uuid_take_eight (u : UUID) : u.String.toList.take 8 = hexEncode (u.bytes.take 4) := by
  have hlen : (hexEncode (u.bytes.take 4)).length = 8 := by
    rw [hexEncode_length, List.length_take, u.size]
    rfl
  show (hexEncode (u.bytes.take 4) ++ _).take 8 = _
  exact List.take_left' hlen

/-- C15. For every original filename `f`, folder `d`, clock reading and UUID,
`generateUniqueFilename` returns `d/n_t_u` followed by `e` when `d` is not empty, and
`n_t_u` followed by `e` when it is: `e` is the extension of `f` as written, `n` the base
name of `f` with `e` stripped (it is a suffix of the base name), every space replaced by
`_` and every other character lowercased, `t` the rendering `YYYYMMDD_HHMMSS` of the clock,
15 characters for every calendar reading with a year of at most four digits, and `u` the
first 8 characters of the 36-character text of the UUID drawn by the one call of
`uuid.New()`. -/
theorem generateUniqueFilename_layout (env : S3Env) (f d : String) :
    (d ≠ "" → (generateUniqueFilename env f d).1
        = d ++ "/" ++ sanitizedName env.table f ++ "_" ++ env.clock.Format ++ "_"
            ++ ⟨env.uuid.String.toList.take 8⟩ ++ Ext f)
    ∧ (generateUniqueFilename env f "").1
        = sanitizedName env.table f ++ "_" ++ env.clock.Format ++ "_"
            ++ ⟨env.uuid.String.toList.take 8⟩ ++ Ext f
    ∧ TrimSuffix (Base f) (Ext f) ++ Ext f = Base f
    ∧ (env.clock.Valid → env.clock.Format.length = 15)
    ∧ (env.uuid.String.toList.take 8).length = 8
    ∧ env.uuid.String.length = 36
    ∧ (generateUniqueFilename env f d).2 = [.uuidNew, .timeNow] := by
  have hname : ToLower env.table (ReplaceAll (TrimSuffix (Base f) (Ext f)) ' ' '_')
      = sanitizedName env.table f := by
    apply String.ext
    simp only [ToLower, ReplaceAll, sanitizedName, String.toList, List.map_map]
    apply List.map_congr_left
    intro c _
    by_cases hc : c = ' '
    · subst hc
      simp only [Function.comp, if_true]
      unfold unicodeToLower
      rw [if_pos (by decide)]
      decide
    · simp [Function.comp, hc]
  refine ⟨?_, ?_, trimSuffix_base_ext f, format_length _, ?_, ?_, ?_⟩
  · intro hd
    simp only [generateUniqueFilename, hname, if_pos hd]
  · simp only [generateUniqueFilename, hname]
    rfl
  · rw [uuid_take_eight, hexEncode_length, List.length_take, env.uuid.size]
    rfl
  · show (hexEncode (env.uuid.bytes.take 4) ++ '-' :: (hexEncode ((env.uuid.bytes.drop 4).take 2)
      ++ '-' :: (hexEncode ((env.uuid.bytes.drop 6).take 2) ++ '-' ::
      (hexEncode ((env.uuid.bytes.drop 8).take 2) ++ '-' ::
        hexEncode (env.uuid.bytes.drop 10))))).length = 36
    simp only [List.length_append, List.length_cons, hexEncode_length, List.length_take,
      List.length_drop, env.uuid.size]
    rfl
  · unfold generateUniqueFilename
    split <;> rfl

theorem generateUniqueFilename_layout_witness :
    (generateUniqueFilename sampleS3 "My Photo.PNG" "users/1/profile").1
      = "users/1/profile/my_photo_20240101_120000_1a2b3c4d.PNG"
    ∧ (generateUniqueFilename sampleS3 "My Photo.PNG" "").1
      = "my_photo_20240101_120000_1a2b3c4d.PNG"
    ∧ sampleS3.clock.Format.length = 15 :=
  ⟨((generateUniqueFilename_layout sampleS3 "My Photo.PNG" "users/1/profile").1
      (by decide)).trans (by decide),
   ((generateUniqueFilename_layout sampleS3 "My Photo.PNG" "users/1/profile").2.1).trans
      (by decide),
   (generateUniqueFilename_layout sampleS3 "My Photo.PNG" "users/1/profile").2.2.2.1
      ⟨by decide, by decide, by decide, by decide, by decide, by decide, by decide, by decide⟩⟩

/-- C16, as stated, fails: two calls for the same folder and the same original filename
within the same second, drawing two different UUIDs whose texts share the first 8
characters, return the same key. -/
theorem same_suffix_same_key :
    sampleUUID.String = "1a2b3c4d-0011-4222-8333-445566778899"
    ∧ otherUUID.String = "1a2b3c4d-ffee-4ddd-bccc-bbaa99887766"
    ∧ (generateUniqueFilename { sampleS3 with uuid := sampleUUID } "avatar.png"
        "users/1/profile").1
      = "users/1/profile/avatar_20240101_120000_1a2b3c4d.png"
    ∧ (generateUniqueFilename { sampleS3 with uuid := otherUUID } "avatar.png"
        "users/1/profile").1
      = "users/1/profile/avatar_20240101_120000_1a2b3c4d.png" := by
  refine ⟨by decide, by decide, by decide, by decide⟩

/-- C16, amended. Two calls of `generateUniqueFilename` for the same folder and the same
original filename within the same second (same case tables, same clock reading) return
two distinct keys exactly when the first 8 characters of the texts of the two UUIDs they
draw differ; when these agree the two keys are equal. -/
theorem generateUniqueFilename_distinct_iff (env : S3Env) (u₁ u₂ : UUID) (f d : String) :
    (generateUniqueFilename { env with uuid := u₁ } f d).1
        ≠ (generateUniqueFilename { env with uuid := u₂ } f d).1
      ↔ u₁.String.toList.take 8 ≠ u₂.String.toList.take 8 := by
  apply not_congr
  constructor
  · intro hkeys
    by_cases hd : d = ""
    · simp only [generateUniqueFilename, hd, ne_eq, not_true_eq_false, if_false] at hkeys
      have hdata := congrArg String.data hkeys
      simp only [String.data_append] at hdata
      exact List.append_cancel_left (List.append_cancel_right hdata)
    · simp only [generateUniqueFilename, ne_eq, hd, not_false_eq_true, if_true] at hkeys
      have hdata := congrArg String.data hkeys
      simp only [String.data_append] at hdata
      exact List.append_cancel_left (List.append_cancel_right hdata)
  · intro hsuffix
    simp only [generateUniqueFilename, hsuffix]

/-- C17. Whenever `UploadFile` succeeds with result `r`, the uploader answered with a
location, and `r.URL` is that location, `r.Key` is the key generated by the one call of
`generateUniqueFilename` and sent to the object store, `r.Bucket` is the configured bucket,
`r.Size` is the declared size of the header, `r.MimeType` is `getMimeType` of the
lowercased extension and is the content type sent with the object; the run draws one UUID,
reads the clock once and calls the uploader once. -/
theorem uploadFile_success (env : S3Env) (header : FileHeader) (folder : String)
    (r : UploadResult) (hok : (UploadFile env header folder).1 = .ok r) :
    env.uploaded = .ok r.URL
    ∧ r.Key = (generateUniqueFilename env header.Filename folder).1
    ∧ r.Bucket = env.bucket
    ∧ r.Size = header.Size
    ∧ r.MimeType = getMimeType (ToLower env.table (Ext header.Filename))
    ∧ (UploadFile env header folder).2
        = [.uuidNew, .timeNow, .upload env.bucket r.Key r.MimeType] := by
  have hgen : (generateUniqueFilename env header.Filename folder).2 = [.uuidNew, .timeNow] := by
    unfold generateUniqueFilename
    split <;> rfl
  cases hallowed : isAllowedFileType (ToLower env.table (Ext header.Filename)) with
  | false => simp [UploadFile, hallowed] at hok
  | true =>
    cases hdoc : isDocumentType (ToLower env.table (Ext header.Filename)) with
    | false =>
      by_cases hbig : (10485760 : Int) < header.Size
      · simp [UploadFile, hallowed, hdoc, hbig] at hok
      · cases hup : env.uploaded with
        | error err => simp [UploadFile, hallowed, hdoc, hbig, hup] at hok
        | ok location =>
          simp only [UploadFile, hallowed, hdoc, hup] at hok
          simp [hbig] at hok
          subst hok
          simp [UploadFile, hallowed, hdoc, hbig, hup, hgen]
    | true =>
      by_cases hbig : (52428800 : Int) < header.Size
      · simp [UploadFile, hallowed, hdoc, hbig] at hok
      · cases hup : env.uploaded with
        | error err => simp [UploadFile, hallowed, hdoc, hbig, hup] at hok
        | ok location =>
          simp only [UploadFile, hallowed, hdoc, hup] at hok
          simp [hbig] at hok
          subst hok
          simp [UploadFile, hallowed, hdoc, hbig, hup, hgen]

theorem uploadFile_success_witness :
    (UploadFile sampleS3 ⟨"a.JPG", 5 * 1024 * 1024⟩ "ebooks").1
      = .ok ⟨"https://s3.example/swiflet/object", "ebooks/a_20240101_120000_1a2b3c4d.JPG",
          "swiflet", 5242880, "image/jpeg"⟩
    ∧ (UploadFile sampleS3 ⟨"a.JPG", 5 * 1024 * 1024⟩ "ebooks").2
      = [.uuidNew, .timeNow,
          .upload "swiflet" "ebooks/a_20240101_120000_1a2b3c4d.JPG" "image/jpeg"] :=
  ⟨by rfl,
   (uploadFile_success sampleS3 ⟨"a.JPG", 5 * 1024 * 1024⟩ "ebooks"
      ⟨"https://s3.example/swiflet/object", "ebooks/a_20240101_120000_1a2b3c4d.JPG",
        "swiflet", 5242880, "image/jpeg"⟩ (by rfl)).2.2.2.2.2⟩

/-! ## Command publishing and subscription -/

/-- C18. For every `installCode` and every command that serializes to `payload`,
`PublishControlCommand` makes exactly one call on the client: a publish on the topic
`control/<installCode>/command`, at quality level 1, not retained, with `payload`;
whatever the publish answers. -/
theorem publishControlCommand_call {Command : Type} (s : MQTTService)
    (jsonMarshal : Command → Except GoError (List UInt8)) (tokenErr : Option GoError)
    (installCode : String) (command : Command) (payload : List UInt8)
    (hjson : jsonMarshal command = .ok payload) :
    (PublishControlCommand s jsonMarshal tokenErr installCode command).2
      = [.publish ("control/" ++ installCode ++ "/command") 1 false payload] := by
  cases tokenErr <;> simp [PublishControlCommand, hjson]

theorem publishControlCommand_call_witness :
    (PublishControlCommand sampleService sampleMarshal none "SWF-001" SampleCommand.fanOn).2
      = [.publish "control/SWF-001/command" 1 false (asciiBytes "\x7b\"fan\":\"on\"\x7d")] :=
  publishControlCommand_call sampleService sampleMarshal none "SWF-001" SampleCommand.fanOn
    (asciiBytes "\x7b\"fan\":\"on\"\x7d") rfl

/-- C19. `PublishControlCommand` returns a non-nil error if and only if serializing the
command fails or the publish reports an error.  When serialization fails no call is made on
the client and the error wraps the serialization error; when the publish fails exactly one
publish was made and the error wraps the publish error; otherwise `nil` is returned after
exactly one publish. -/
theorem publishControlCommand_error {Command : Type} (s : MQTTService)
    (jsonMarshal : Command → Except GoError (List UInt8)) (tokenErr : Option GoError)
    (installCode : String) (command : Command) :
    ((PublishControlCommand s jsonMarshal tokenErr installCode command).1 ≠ none
      ↔ (∃ err, jsonMarshal command = .error err) ∨ ∃ e, tokenErr = some e)
    ∧ (∀ err, jsonMarshal command = .error err →
        PublishControlCommand s jsonMarshal tokenErr installCode command
          = (some (.wrap "failed to marshal command: " err), []))
    ∧ (∀ payload e, jsonMarshal command = .ok payload → tokenErr = some e →
        PublishControlCommand s jsonMarshal tokenErr installCode command
          = (some (.wrap "failed to publish command: " e),
              [.publish ("control/" ++ installCode ++ "/command") 1 false payload]))
    ∧ (∀ payload, jsonMarshal command = .ok payload → tokenErr = none →
        PublishControlCommand s jsonMarshal tokenErr installCode command
          = (none, [.publish ("control/" ++ installCode ++ "/command") 1 false payload])) := by
  refine ⟨?_, ?_, ?_, ?_⟩
  · cases hjson : jsonMarshal command <;> cases tokenErr <;>
      simp [PublishControlCommand, hjson]
  · intro err hjson
    simp [PublishControlCommand, hjson]
  · intro payload e hjson htoken
    simp [PublishControlCommand, hjson, htoken]
  · intro payload hjson htoken
    simp [PublishControlCommand, hjson, htoken]

theorem publishControlCommand_error_witness :
    PublishControlCommand sampleService sampleMarshal none "SWF-001"
        SampleCommand.unserializable
      = (some (.wrap "failed to marshal command: " (.base "json: unsupported type: chan int")),
          [])
    ∧ PublishControlCommand sampleService sampleMarshal (some (.base "not connected"))
        "SWF-001" SampleCommand.fanOn
      = (some (.wrap "failed to publish command: " (.base "not connected")),
          [.publish "control/SWF-001/command" 1 false (asciiBytes "\x7b\"fan\":\"on\"\x7d")])
    ∧ PublishControlCommand sampleService sampleMarshal none "SWF-001" SampleCommand.fanOn
      = (none,
          [.publish "control/SWF-001/command" 1 false
            (asciiBytes "\x7b\"fan\":\"on\"\x7d")]) :=
  ⟨(publishControlCommand_error sampleService sampleMarshal none "SWF-001"
      SampleCommand.unserializable).2.1 _ rfl,
   (publishControlCommand_error sampleService sampleMarshal (some (.base "not connected"))
      "SWF-001" SampleCommand.fanOn).2.2.1 _ _ rfl rfl,
   (publishControlCommand_error sampleService sampleMarshal none "SWF-001"
      SampleCommand.fanOn).2.2.2 _ rfl rfl⟩

/-- C20. Every time the on-connect handler fires, `subscribe` makes exactly one call on the
client: a `Subscribe` for the configured topic `MQTT.TopicSensor` at quality level 1 with
`handleSensorData` as callback, whatever the broker answers; so a run of firings (the
initial connection and the reconnects) makes one such call per firing.  The branch
`Subscribed to topic` is taken exactly when the broker accepts the subscription. -/
theorem onConnect_subscribes (s : MQTTService) :
    (∀ tokenErr, (onConnectHandler s tokenErr).2
        = [.subscribe s.config.TopicSensor 1 handleSensorData])
    ∧ (∀ tokenErr, (onConnectHandler s tokenErr).1 = true ↔ tokenErr = none)
    ∧ (∀ answers, onConnectCalls s answers
        = List.replicate answers.length (.subscribe s.config.TopicSensor 1 handleSensorData)) := by
  have hone : ∀ tokenErr, (onConnectHandler s tokenErr).2
      = [.subscribe s.config.TopicSensor 1 handleSensorData] := by
    intro tokenErr
    cases tokenErr <;> rfl
  refine ⟨hone, ?_, ?_⟩
  · intro tokenErr
    cases tokenErr <;> simp [onConnectHandler, subscribe]
  · intro answers
    induction answers with
    | nil => rfl
    | cons a rest ih =>
      simp only [onConnectCalls, List.flatMap_cons] at ih ⊢
      rw [ih, hone]
      rfl

/-! ## Store failures during ingestion -/

/-- C23. Store failures in `handleSensorData` drop the message without retry.  For every
inbound message the calls of the run are at most one device lookup and at most one
`INSERT`.  If the device lookup fails, the run is the lookup alone: no `INSERT`, no reading
written.  If the `INSERT` fails, the run is the lookup and that one `INSERT`, and no reading
is written.  The handler returns in every case (it has no error result and the model is
total). -/
theorem handleSensorData_store_failure (env : IngestEnv) (payload : List UInt8) (w : World) :
    (∃ made, (handleSensorData env payload w).calls = w.calls ++ made
        ∧ (lookupCalls made).length ≤ 1 ∧ (insertCalls made).length ≤ 1)
    ∧ (∀ data e, env.unmarshal payload = .ok data → env.lookupErr = some e →
        handleSensorData env payload w = w.record (.countDevices data.InstallCode)
          ∧ insertCalls (handleSensorData env payload w).calls = insertCalls w.calls
          ∧ (handleSensorData env payload w).sensors = w.sensors)
    ∧ (∀ data e, env.unmarshal payload = .ok data → env.lookupErr = none →
        data.InstallCode ∈ w.iot_devices → env.insertErr = some e →
        ∃ row, (handleSensorData env payload w).calls
            = w.calls ++ [.countDevices data.InstallCode, .insertSensor row]
          ∧ (handleSensorData env payload w).sensors = w.sensors) := by
  refine ⟨?_, ?_, ?_⟩
  · cases hdecode : env.unmarshal payload with
    | error e => exact ⟨[], by simp [handleSensorData, hdecode], by simp [lookupCalls],
        by simp [insertCalls]⟩
    | ok data =>
      cases hlookup : env.lookupErr with
      | some e =>
        exact ⟨[.countDevices data.InstallCode],
          by simp [handleSensorData, hdecode, hlookup, World.record],
          by simp [lookupCalls], by simp [insertCalls]⟩
      | none =>
        by_cases hcount :
            ((w.iot_devices.filter (fun c => c = data.InstallCode)).length : Int) = 0
        · exact ⟨[.countDevices data.InstallCode],
            by simp [handleSensorData, hdecode, hlookup, World.record, hcount],
            by simp [lookupCalls], by simp [insertCalls]⟩
        · refine ⟨[.countDevices data.InstallCode, .insertSensor ⟨data.InstallCode, data.Suhu,
              data.Kelembaban,
              if data.Timestamp ≠ "" then
                (match env.parseRFC3339 data.Timestamp with
                  | .ok parsedTime => parsedTime
                  | .error _ => env.now)
              else env.now⟩], ?_, by simp [lookupCalls], by simp [insertCalls]⟩
          cases hins : env.insertErr <;>
            simp [handleSensorData, hdecode, hlookup, hins, World.record, hcount]
  · intro data e hdecode hlookup
    have hrun : handleSensorData env payload w = w.record (.countDevices data.InstallCode) := by
      simp [handleSensorData, hdecode, hlookup]
    rw [hrun]
    exact ⟨rfl, by simp [World.record, insertCalls_append, insertCalls], rfl⟩
  · intro data e hdecode hlookup hregistered hins
    have hcount : ((w.iot_devices.filter (fun c => c = data.InstallCode)).length : Int) ≠ 0 := by
      have hmem : data.InstallCode ∈ w.iot_devices.filter (fun c => c = data.InstallCode) := by
        simp [List.mem_filter, hregistered]
      have hpos := List.length_pos_of_mem hmem
      omega
    exact ⟨_, by simp [handleSensorData, hdecode, hlookup, hins, World.record, hcount]; rfl,
      by simp [handleSensorData, hdecode, hlookup, hins, World.record, hcount]⟩

theorem handleSensorData_store_failure_witness :
    handleSensorData lookupDownEnv registeredPayload sampleWorld
      = sampleWorld.record (.countDevices "SWF-001")
    ∧ (∃ row, (handleSensorData insertDownEnv registeredPayload sampleWorld).calls
          = [.countDevices "SWF-001", .insertSensor row]
        ∧ (handleSensorData insertDownEnv registeredPayload sampleWorld).sensors = []) :=
  ⟨((handleSensorData_store_failure lookupDownEnv registeredPayload sampleWorld).2.1
      (sampleReading "SWF-001" "") pqError (by rfl) rfl).1,
   (handleSensorData_store_failure insertDownEnv registeredPayload sampleWorld).2.2
      (sampleReading "SWF-001" "") pqError (by rfl) rfl (by decide) rfl⟩

/-! ## Connection retry without attempts -/

/-- The loop of `ConnectWithRetry` is left through `return nil` only: after a `Connect`
call that succeeded, which is the last event, all earlier calls having been made. -/
theorem retryLoop_returned (token : Nat → Option GoError) (maxRetries : Int) :
    ∀ (n i : Nat) (lastErr : Option GoError) (backoff : Int) (e : Option GoError),
      (retryLoop token maxRetries n i lastErr backoff).1 = .returned e →
      e = none ∧ ∃ m, m < n ∧ token (i + m) = none
        ∧ connectCount (retryLoop token maxRetries n i lastErr backoff).2 = m + 1 := by
  intro n
  induction n with
  | zero =>
    intro i lastErr backoff e h
    simp [retryLoop] at h
  | succ n ih =>
    intro i lastErr backoff e h
    cases htoken : token i with
    | none =>
      simp only [retryLoop, htoken, Connect] at h ⊢
      refine ⟨?_, 0, by omega, by simpa using htoken, by simp [connectCount]⟩
      exact (LoopExit.returned.inj h).symm
    | some err =>
      by_cases hcond : (i : Int) < maxRetries - 1
      · simp only [retryLoop, htoken, Connect, if_pos hcond] at h ⊢
        obtain ⟨he, m, hm, hsucc, hcount⟩ := ih (i + 1) _ _ e h
        refine ⟨he, m + 1, by omega, ?_, ?_⟩
        · rw [← hsucc]
          congr 1
          omega
        · simp only [connectCount, hcount]
      · simp only [retryLoop, htoken, Connect, if_neg hcond] at h ⊢
        obtain ⟨he, m, hm, hsucc, hcount⟩ := ih (i + 1) _ _ e h
        refine ⟨he, m + 1, by omega, ?_, ?_⟩
        · rw [← hsucc]
          congr 1
          omega
        · simp only [connectCount, hcount]

/-- C26. For every `maxRetries ≤ 0`, `ConnectWithRetry` makes no `Connect` attempt and no
sleep and returns a non-nil error (built by `fmt.Errorf` from the nil `lastErr`).  For
every `maxRetries`, `ConnectWithRetry` returns `nil` only if one of its `Connect` calls
succeeded: the call number `k + 1` with `k < maxRetries`, which is the last call made. -/
theorem connectWithRetry_nil_only_on_success (token : Nat → Option GoError) :
    (∀ maxRetries : Int, maxRetries ≤ 0 →
        ConnectWithRetry token maxRetries
          = (some (.base ("failed to connect to MQTT after " ++ toString maxRetries
              ++ " attempts: %!w(<nil>)")), []))
    ∧ (∀ maxRetries : Int, (ConnectWithRetry token maxRetries).1 = none →
        ∃ k : Nat, (k : Int) < maxRetries ∧ token k = none
          ∧ connectCount (ConnectWithRetry token maxRetries).2 = k + 1) := by
  constructor
  · intro maxRetries hmax
    have hzero : maxRetries.toNat = 0 := by omega
    simp [ConnectWithRetry, hzero, retryLoop, retryError]
  · intro maxRetries hnil
    have hloop := retryLoop_returned token maxRetries maxRetries.toNat 0 none (1 * Second)
    unfold ConnectWithRetry at hnil ⊢
    cases hrun : retryLoop token maxRetries maxRetries.toNat 0 none (1 * Second) with
    | mk exit events =>
      rw [hrun] at hnil hloop
      cases exit with
      | finished lastErr => simp at hnil
      | returned err =>
        obtain ⟨_, m, hm, hsucc, hcount⟩ := hloop err rfl
        refine ⟨m, by omega, by simpa using hsucc, ?_⟩
        simpa using hcount

theorem connectWithRetry_nil_only_on_success_witness :
    ConnectWithRetry refuseAll 0
      = (some (.base "failed to connect to MQTT after 0 attempts: %!w(<nil>)"), [])
    ∧ ConnectWithRetry acceptThird (-2)
      = (some (.base "failed to connect to MQTT after -2 attempts: %!w(<nil>)"), [])
    ∧ (∃ k : Nat, (k : Int) < 5 ∧ acceptThird k = none
        ∧ connectCount (ConnectWithRetry acceptThird 5).2 = k + 1) :=
  ⟨(connectWithRetry_nil_only_on_success refuseAll).1 0 (by decide),
   (connectWithRetry_nil_only_on_success acceptThird).1 (-2) (by decide),
   (connectWithRetry_nil_only_on_success acceptThird).2 5 (by decide)⟩

/-! ## Results of the gateway -/

/-- When `UploadFile` succeeds, the content type it reports is `getMimeType` of the
lowercased extension and the one sent with the object. -/
theorem uploadFile_ok_calls (env : S3Env) (header : FileHeader) (folder : String)
    (r : UploadResult) (hok : (UploadFile env header folder).1 = .ok r) :
    r.MimeType = getMimeType (ToLower env.table (Ext header.Filename))
    ∧ (UploadFile env header folder).2
        = [.uuidNew, .timeNow, .upload env.bucket r.Key r.MimeType] := by
  have hgen : (generateUniqueFilename env header.Filename folder).2 = [.uuidNew, .timeNow] := by
    unfold generateUniqueFilename
    split <;> rfl
  cases hallowed : isAllowedFileType (ToLower env.table (Ext header.Filename)) with
  | false => simp [UploadFile, hallowed] at hok
  | true =>
    cases hdoc : isDocumentType (ToLower env.table (Ext header.Filename)) with
    | false =>
      by_cases hbig : (10485760 : Int) < header.Size
      · simp [UploadFile, hallowed, hdoc, hbig] at hok
      · cases hup : env.uploaded with
        | error err => simp [UploadFile, hallowed, hdoc, hbig, hup] at hok
        | ok location =>
          simp only [UploadFile, hallowed, hdoc, hup] at hok
          simp [hbig] at hok
          subst hok
          simp [UploadFile, hallowed, hdoc, hbig, hup, hgen]
    | true =>
      by_cases hbig : (52428800 : Int) < header.Size
      · simp [UploadFile, hallowed, hdoc, hbig] at hok
      · cases hup : env.uploaded with
        | error err => simp [UploadFile, hallowed, hdoc, hbig, hup] at hok
        | ok location =>
          simp only [UploadFile, hallowed, hdoc, hup] at hok
          simp [hbig] at hok
          subst hok
          simp [UploadFile, hallowed, hdoc, hbig, hup, hgen]

/-- C28. `getMimeType` returns an `image/` type for every extension of `ImageTypes`, an
`application/` type other than the fallback for every extension of `DocTypes`, a `video/`
type for `.mp4`, `.avi` and `.mov`, and the fallback `application/octet-stream` for every
other string.  In particular `.wmv` and `.flv` pass `isAllowedFileType` and get the
fallback, which is then the content type `UploadFile` sends with the object and reports in
its result. -/
theorem getMimeType_categories :
    (∀ ext ∈ ImageTypes, "image/".toList <+: (getMimeType ext).toList)
    ∧ (∀ ext ∈ DocTypes, "application/".toList <+: (getMimeType ext).toList
        ∧ getMimeType ext ≠ "application/octet-stream")
    ∧ (∀ ext ∈ [".mp4", ".avi", ".mov"], "video/".toList <+: (getMimeType ext).toList)
    ∧ (∀ ext : String, ext ∉ ImageTypes ++ DocTypes ++ [".mp4", ".avi", ".mov"] →
        getMimeType ext = "application/octet-stream")
    ∧ isAllowedFileType ".wmv" = true ∧ isAllowedFileType ".flv" = true
    ∧ getMimeType ".wmv" = "application/octet-stream"
    ∧ getMimeType ".flv" = "application/octet-stream"
    ∧ (∀ (env : S3Env) (header : FileHeader) (folder : String) (r : UploadResult),
        ToLower env.table (Ext header.Filename) ∈ [".wmv", ".flv"] →
        (UploadFile env header folder).1 = .ok r →
        r.MimeType = "application/octet-stream"
          ∧ (UploadFile env header folder).2
            = [.uuidNew, .timeNow, .upload env.bucket r.Key "application/octet-stream"]) := by
  refine ⟨by decide, by decide, by decide, ?_, by decide, by decide, by decide, by decide, ?_⟩
  · intro ext hext
    simp only [ImageTypes, DocTypes, List.cons_append, List.nil_append, List.mem_cons,
      List.mem_singleton, not_or, List.mem_nil_iff, or_false] at hext
    obtain ⟨h1, h2, h3, h4, h5, h6, h7, h8, h9, h10, h11, h12, h13⟩ := hext
    have hbeq : ∀ key : String, ¬ ext = key → (ext == key) = false := fun key hne => by
      simpa using hne
    simp only [getMimeType, mimeTypes, List.lookup, hbeq _ h1, hbeq _ h2, hbeq _ h3, hbeq _ h4,
      hbeq _ h5, hbeq _ h6, hbeq _ h7, hbeq _ h8, hbeq _ h9, hbeq _ h10, hbeq _ h11,
      hbeq _ h12, hbeq _ h13]
  · intro env header folder r hext hok
    obtain ⟨hmime, hcalls⟩ := uploadFile_ok_calls env header folder r hok
    have hfallback : getMimeType (ToLower env.table (Ext header.Filename))
        = "application/octet-stream" := by
      rcases List.mem_cons.mp hext with h | h
      · rw [h]
        decide
      · rw [List.mem_singleton.mp h]
        decide
    rw [hfallback] at hmime
    rw [hcalls, hmime]
    exact ⟨rfl, rfl⟩

theorem getMimeType_categories_witness :
    (UploadFile sampleS3 ⟨"clip.WMV", 1024⟩ "ebooks").2
      = [.uuidNew, .timeNow,
          .upload "swiflet" "ebooks/clip_20240101_120000_1a2b3c4d.WMV"
            "application/octet-stream"] :=
  (getMimeType_categories.2.2.2.2.2.2.2.2 sampleS3 ⟨"clip.WMV", 1024⟩ "ebooks"
    ⟨"https://s3.example/swiflet/object", "ebooks/clip_20240101_120000_1a2b3c4d.WMV",
      "swiflet", 1024, "application/octet-stream"⟩ (by decide) (by rfl)).2

/-- C22, as stated, fails: when the uploader fails with `RequestError: send request
failed`, the error `UploadFile` returns is not that error: it is a new error that wraps
it, with the text `failed to upload file: RequestError: send request failed`. -/
theorem transport_error_is_wrapped :
    UploadFile failingS3 ⟨"photo.jpg", 1024⟩ "ebooks"
      = (.error (.wrap "failed to upload file: " s3Error),
          [.uuidNew, .timeNow,
            .upload "swiflet" "ebooks/photo_20240101_120000_1a2b3c4d.jpg" "image/jpeg"])
    ∧ GoError.wrap "failed to upload file: " s3Error ≠ s3Error
    ∧ (GoError.wrap "failed to upload file: " s3Error).Error
      = "failed to upload file: RequestError: send request failed"
    ∧ (GoError.wrap "failed to upload file: " s3Error).Error ≠ s3Error.Error := by
  refine ⟨by rfl, by decide, by decide, by decide⟩

/-- C22, amended. When the file passes validation and the object-store transport call
inside `UploadFile` fails with error `e`, `UploadFile` calls the uploader exactly once (no
retry), returns no `UploadResult`, and returns the error built by
`fmt.Errorf("failed to upload file: %w", e)`: its text is `e`'s text behind that prefix
and `Unwrap` gives `e` back. -/
theorem uploadFile_transport_failure (env : S3Env) (header : FileHeader) (folder : String)
    (e : GoError) (hvalid : validationError env header folder = none)
    (hfail : env.uploaded = .error e) :
    UploadFile env header folder
      = (.error (.wrap "failed to upload file: " e),
          [.uuidNew, .timeNow,
            .upload env.bucket (generateUniqueFilename env header.Filename folder).1
              (getMimeType (ToLower env.table (Ext header.Filename)))])
    ∧ (GoError.wrap "failed to upload file: " e).Error = "failed to upload file: " ++ e.Error
    ∧ (GoError.wrap "failed to upload file: " e).Unwrap = some e := by
  have hgen : (generateUniqueFilename env header.Filename folder).2 = [.uuidNew, .timeNow] := by
    unfold generateUniqueFilename
    split <;> rfl
  refine ⟨?_, rfl, rfl⟩
  rw [validationError_eq] at hvalid
  cases hallowed : isAllowedFileType (ToLower env.table (Ext header.Filename)) with
  | false => simp [hallowed] at hvalid
  | true =>
    cases hdoc : isDocumentType (ToLower env.table (Ext header.Filename)) with
    | false =>
      by_cases hbig : (10485760 : Int) < header.Size
      · simp [hallowed, hdoc, hbig] at hvalid
      · simp [UploadFile, hallowed, hdoc, hbig, hfail, hgen]
    | true =>
      by_cases hbig : (52428800 : Int) < header.Size
      · simp [hallowed, hdoc, hbig] at hvalid
      · simp [UploadFile, hallowed, hdoc, hbig, hfail, hgen]

theorem uploadFile_transport_failure_witness :
    UploadFile failingS3 ⟨"book.pdf", 20 * 1024 * 1024⟩ "ebooks"
      = (.error (.wrap "failed to upload file: " s3Error),
          [.uuidNew, .timeNow,
            .upload "swiflet" "ebooks/book_20240101_120000_1a2b3c4d.pdf" "application/pdf"]) :=
  (uploadFile_transport_failure failingS3 ⟨"book.pdf", 20 * 1024 * 1024⟩ "ebooks" s3Error
    (by rfl) rfl).1

/-! ## Configuration and constants -/

/-- C24, evaluated: `PublishControlCommand` does not read the configuration.  Two services
whose configurations differ in `MQTT.TopicControl` publish the same command for the same
`installCode` on the same topic `control/<installCode>/command`; more generally the result
and the calls are the same for every two services. -/
theorem publishControlCommand_ignores_config :
    sampleService.config.TopicControl ≠ otherService.config.TopicControl
    ∧ (PublishControlCommand sampleService sampleMarshal none "SWF-001" SampleCommand.fanOn).2
      = [.publish "control/SWF-001/command" 1 false (asciiBytes "\x7b\"fan\":\"on\"\x7d")]
    ∧ (PublishControlCommand otherService sampleMarshal none "SWF-001" SampleCommand.fanOn).2
      = [.publish "control/SWF-001/command" 1 false (asciiBytes "\x7b\"fan\":\"on\"\x7d")]
    ∧ (∀ (Command : Type) (s₁ s₂ : MQTTService)
        (jsonMarshal : Command → Except GoError (List UInt8)) (tokenErr : Option GoError)
        (installCode : String) (command : Command),
        PublishControlCommand s₁ jsonMarshal tokenErr installCode command
          = PublishControlCommand s₂ jsonMarshal tokenErr installCode command) := by
  refine ⟨by decide, by rfl, by rfl, ?_⟩
  intro Command s₁ s₂ jsonMarshal tokenErr installCode command
  rfl

/-- C25, evaluated: in both scripts the duration handed to `Presign` is 3600 nanoseconds.
One hour is `3600 * 1000000000` nanoseconds, so the value passed is not one hour; it is
one hour divided by `1000000000`. -/
theorem script_presign_expiry (bucket : String) (presigned : Except GoError String)
    (result : UploadResult) :
    (testMinioPresign bucket presigned).2
      = [.getObjectRequest bucket "test/connection-test.txt", .presign 3600]
    ∧ (testTraefikPresign bucket presigned result).2
      = [.getObjectRequest bucket result.Key, .presign 3600]
    ∧ Hour = 3600 * 1000000000
    ∧ (3600 : Int) ≠ Hour
    ∧ (3600 : Int) * 1000000000 = Hour := by
  refine ⟨?_, ?_, by decide, by decide, by decide⟩
  · cases presigned <;> rfl
  · cases presigned <;> rfl

/-! ## Sanitizing the base name -/

/-- On the runes up to `unicode.MaxASCII` only the space is lowered to a space. -/
theorem ascii_toLower_space :
    ∀ n, n < 128 → (Char.ofNat n).toLower = ' ' → Char.ofNat n = ' ' := by
  decide

/-- The name computed by `generateUniqueFilename` (spaces replaced, then lowercased) is the
claimed sanitized name. -/
theorem sanitize_eq (table : Char → Char) (f : String) :
    ToLower table (ReplaceAll (TrimSuffix (Base f) (Ext f)) ' ' '_') = sanitizedName table f := by
  apply String.ext
  simp only [ToLower, ReplaceAll, sanitizedName, String.toList, List.map_map]
  apply List.map_congr_left
  intro c _
  by_cases hc : c = ' '
  · subst hc
    simp only [Function.comp, if_true]
    unfold unicodeToLower
    rw [if_pos (by decide)]
    decide
  · simp [Function.comp, hc]

/-- C21, as stated, fails: a tab in the base name is a whitespace character and it is not
replaced; the name part of the key for `a<TAB>b c.png` is `a<TAB>b_c`. -/
theorem tab_survives_sanitizing :
    (generateUniqueFilename sampleS3 "a\tb c.png" "ebooks").1
      = "ebooks/a\tb_c_20240101_120000_1a2b3c4d.png"
    ∧ sanitizedName sampleS3.table "a\tb c.png" = "a\tb_c"
    ∧ '\t' ∈ (sanitizedName sampleS3.table "a\tb c.png").toList
    ∧ '\t'.isWhitespace = true := by
  refine ⟨by decide, by decide, by decide, by decide⟩

/-- C21, amended. For every original filename, the base-name part of the key produced by
`generateUniqueFilename` is the base name without its extension in which every space
character is replaced by `_` and every other character is lowercased.  It holds no space
(given case tables that lower no rune beyond ASCII to a space); tabs, line feeds and
carriage returns of the base name are kept as they are. -/
theorem sanitizedName_replaces_spaces (table : Char → Char) (f : String) :
    ToLower table (ReplaceAll (TrimSuffix (Base f) (Ext f)) ' ' '_') = sanitizedName table f
    ∧ (sanitizedName table f).toList
        = (TrimSuffix (Base f) (Ext f)).toList.map
            (fun c => if c = ' ' then '_' else unicodeToLower table c)
    ∧ ((∀ r : Char, 127 < r.toNat → table r ≠ ' ') → ' ' ∉ (sanitizedName table f).toList)
    ∧ (∀ c ∈ (TrimSuffix (Base f) (Ext f)).toList, c = '\t' ∨ c = '\n' ∨ c = '\r' →
        c ∈ (sanitizedName table f).toList) := by
  refine ⟨sanitize_eq table f, rfl, ?_, ?_⟩
  · intro htable hmem
    obtain ⟨c, _, hc⟩ := List.mem_map.mp hmem
    by_cases hsp : c = ' '
    · rw [if_pos hsp] at hc
      exact absurd hc (by decide)
    · rw [if_neg hsp] at hc
      by_cases hascii : c.toNat ≤ 127
      · have hfact := ascii_toLower_space c.toNat (by omega)
        rw [Char.ofNat_toNat] at hfact
        unfold unicodeToLower at hc
        rw [if_pos hascii] at hc
        exact hsp (hfact hc)
      · unfold unicodeToLower at hc
        rw [if_neg hascii] at hc
        exact htable c (by omega) hc
  · intro c hc hkind
    apply List.mem_map.mpr
    refine ⟨c, hc, ?_⟩
    rcases hkind with h | h | h <;> subst h <;>
      · rw [if_neg (by decide)]
        unfold unicodeToLower
        rw [if_pos (by decide)]
        decide

/-! ## Characters of the parts of a key -/

/-- A decimal digit is neither `.` nor `/`. -/
theorem digitChar_plain : ∀ m, m < 10 → Nat.digitChar m ≠ '.' ∧ Nat.digitChar m ≠ '/' := by
  decide

/-- The decimal digits of a number hold neither `.` nor `/`. -/
theorem toDigitsCore_plain :
    ∀ (fuel n : Nat) (ds : List Char), (∀ c ∈ ds, c ≠ '.' ∧ c ≠ '/') →
      ∀ c ∈ Nat.toDigitsCore 10 fuel n ds, c ≠ '.' ∧ c ≠ '/' := by
  intro fuel
  induction fuel with
  | zero => intro n ds hds c hc; exact hds c hc
  | succ fuel ih =>
    intro n ds hds c hc
    have hdigit := digitChar_plain (n % 10) (Nat.mod_lt _ (by decide))
    have hcons : ∀ x ∈ Nat.digitChar (n % 10) :: ds, x ≠ '.' ∧ x ≠ '/' := by
      intro x hx
      rcases List.mem_cons.mp hx with rfl | hx
      · exact hdigit
      · exact hds x hx
    simp only [Nat.toDigitsCore] at hc
    split at hc
    · exact hcons c hc
    · exact ih _ _ hcons c hc

/-- The helper `appendInt` writes neither `.` nor `/`. -/
theorem appendInt_plain (x width : Nat) : ∀ c ∈ appendInt x width, c ≠ '.' ∧ c ≠ '/' := by
  intro c hc
  unfold appendInt at hc
  rcases List.mem_append.mp hc with hpad | hdigits
  · rw [(List.mem_replicate.mp hpad).2]
    decide
  · exact toDigitsCore_plain _ _ [] (by simp) c hdigits

/-- The timestamp holds neither `.` nor `/`. -/
theorem format_plain (clock : Clock) : ∀ c ∈ clock.Format.toList, c ≠ '.' ∧ c ≠ '/' := by
  intro c hc
  have hmem : c ∈ appendInt clock.year 4 ++ (appendInt clock.month 2 ++ (appendInt clock.day 2
      ++ '_' :: (appendInt clock.hour 2 ++ (appendInt clock.minute 2
      ++ appendInt clock.second 2)))) := hc
  simp only [List.mem_append, List.mem_cons] at hmem
  rcases hmem with h | h | h | h | h | h | h
  · exact appendInt_plain _ _ c h
  · exact appendInt_plain _ _ c h
  · exact appendInt_plain _ _ c h
  · rw [h]
    decide
  · exact appendInt_plain _ _ c h
  · exact appendInt_plain _ _ c h
  · exact appendInt_plain _ _ c h

/-- A hexadecimal digit is neither `.` nor `/`. -/
theorem hexDigit_plain : ∀ k, k < 16 → hexDigit k ≠ '.' ∧ hexDigit k ≠ '/' := by
  decide

/-- The function `hex.Encode` writes neither `.` nor `/`. -/
theorem hexEncode_plain (bs : List UInt8) : ∀ c ∈ hexEncode bs, c ≠ '.' ∧ c ≠ '/' := by
  intro c hc
  unfold hexEncode at hc
  obtain ⟨b, _, hb⟩ := List.mem_flatMap.mp hc
  have hlt : b.toNat < 256 := b.val.isLt
  simp only [List.mem_cons, List.mem_singleton, List.mem_nil_iff, or_false] at hb
  rcases hb with h | h
  · rw [h]
    exact hexDigit_plain _ (by omega)
  · rw [h]
    exact hexDigit_plain _ (Nat.mod_lt _ (by decide))

/-- The extension holds no `/`, and no `.` after its first character. -/
theorem ext_shape (f : String) :
    (Ext f).toList = []
      ∨ ∃ tail, (Ext f).toList = '.' :: tail ∧ ∀ c ∈ tail, c ≠ '.' ∧ c ≠ '/' := by
  rcases extScan_cases f.toList.reverse [] with hnone | ⟨passed, rest, _, hclean, hscan⟩
  · left
    unfold Ext
    rw [hnone]
    rfl
  · right
    refine ⟨passed.reverse, ?_, fun c hc => hclean c (List.mem_reverse.mp hc)⟩
    unfold Ext
    rw [hscan]
    simp

/-- The base name of a filename that is not made of separators alone holds no `/`. -/
theorem base_no_slash (f : String) (hsome : ∃ c ∈ f.toList, c ≠ '/') :
    '/' ∉ (Base f).toList := by
  obtain ⟨c, hc, hcne⟩ := hsome
  have hne : f ≠ "" := by
    intro h
    rw [h] at hc
    simp at hc
  have hstripped : f.toList.reverse.dropWhile (fun c => decide (c = '/')) ≠ [] := by
    intro h
    have hall := List.dropWhile_eq_nil_iff.mp h c (List.mem_reverse.mpr hc)
    exact hcne (by simpa using hall)
  have hhead := List.head_dropWhile_not (fun c => decide (c = '/')) f.toList.reverse hstripped
  have hlast : (f.toList.reverse.dropWhile (fun c => decide (c = '/'))).takeWhile
      (fun c => decide (c ≠ '/')) ≠ [] := by
    cases hd : f.toList.reverse.dropWhile (fun c => decide (c = '/')) with
    | nil => exact absurd hd hstripped
    | cons x rest =>
      simp only [hd, List.head_cons] at hhead
      have hx : x ≠ '/' := by simpa using hhead
      simp [List.takeWhile_cons, hx]
  unfold Base
  rw [if_neg hne]
  simp only []
  rw [if_neg (by simpa using hlast)]
  intro hmem
  have hin : '/' ∈ (f.toList.reverse.dropWhile (fun c => decide (c = '/'))).takeWhile
      (fun c => decide (c ≠ '/')) := List.mem_reverse.mp hmem
  have hp := List.mem_takeWhile_imp hin
  simp at hp

/-- Every character left by `strings.TrimSuffix` is a character of the string. -/
theorem mem_trimSuffix (s suffix : String) : ∀ c ∈ (TrimSuffix s suffix).toList, c ∈ s.toList := by
  intro c hc
  unfold TrimSuffix at hc
  split at hc
  · exact List.mem_of_mem_take hc
  · exact hc

/-- The sanitized name of a filename that is not made of separators alone holds no `/`. -/
theorem sanitizedName_no_slash {table : Char → Char} (htable : SoundTable table) (f : String)
    (hsome : ∃ c ∈ f.toList, c ≠ '/') : '/' ∉ (sanitizedName table f).toList := by
  intro hmem
  obtain ⟨c, hc, hval⟩ := List.mem_map.mp hmem
  have hcbase : c ≠ '/' := fun h =>
    base_no_slash f hsome (h ▸ mem_trimSuffix _ _ c hc)
  by_cases hsp : c = ' '
  · rw [if_pos hsp] at hval
    exact absurd hval (by decide)
  · rw [if_neg hsp] at hval
    exact hcbase ((unicodeToLower_separator htable c).2 hval)

/-- C29. For every non-empty folder `d` and every original filename that holds at least
one character other than `/`, the key returned by `generateUniqueFilename` is `d`, a `/`,
and a remainder (name, timestamp, suffix, extension) that holds no `/`: the directory
components of the filename do not reach the key.  The case tables of package `unicode`
enter through `SoundTable`. -/
theorem key_stays_in_folder (env : S3Env) (htable : SoundTable env.table) (f d : String)
    (hd : d ≠ "") (hsome : ∃ c ∈ f.toList, c ≠ '/') :
    (generateUniqueFilename env f d).1
      = d ++ "/" ++ (sanitizedName env.table f ++ "_" ++ env.clock.Format ++ "_"
          ++ ⟨env.uuid.String.toList.take 8⟩ ++ Ext f)
    ∧ '/' ∉ (sanitizedName env.table f ++ "_" ++ env.clock.Format ++ "_"
          ++ ⟨env.uuid.String.toList.take 8⟩ ++ Ext f).toList := by
  constructor
  · simp only [generateUniqueFilename, sanitize_eq, if_pos hd]
    apply String.ext
    simp only [String.data_append, List.append_assoc]
  · intro hmem
    simp only [String.toList, String.data_append, List.mem_append] at hmem
    rcases hmem with ((((hname | hsep) | htime) | hsep2) | huuid) | hext
    · exact sanitizedName_no_slash htable f hsome hname
    · exact absurd hsep (by decide)
    · exact (format_plain env.clock _ htime).2 rfl
    · exact absurd hsep2 (by decide)
    · have hu : '/' ∈ hexEncode (env.uuid.bytes.take 4) := by
        rw [← uuid_take_eight]
        exact huuid
      exact (hexEncode_plain _ _ hu).2 rfl
    · rcases ext_shape f with hnil | ⟨tail, hshape, hclean⟩
      · have hext' : '/' ∈ (Ext f).toList := hext
        rw [hnil] at hext'
        simp at hext'
      · have hext' : '/' ∈ (Ext f).toList := hext
        rw [hshape] at hext'
        rcases List.mem_cons.mp hext' with h | h
        · exact absurd h (by decide)
        · exact (hclean _ h).2 rfl

theorem key_stays_in_folder_witness :
    (generateUniqueFilename sampleS3 "../../x.jpg" "users/1/profile").1
      = "users/1/profile/x_20240101_120000_1a2b3c4d.jpg" :=
  ((key_stays_in_folder sampleS3 soundTable_id "../../x.jpg" "users/1/profile" (by decide)
    ⟨'x', by decide, by decide⟩).1).trans (by decide)

/-! ## Keys of different draws -/

/-- A list is cut at its last dot in one way only. -/
theorem last_dot_unique (p₁ : List Char) : ∀ (p₂ t₁ t₂ : List Char), '.' ∉ t₁ → '.' ∉ t₂ →
    p₁ ++ '.' :: t₁ = p₂ ++ '.' :: t₂ → p₁ = p₂ ∧ t₁ = t₂ := by
  induction p₁ with
  | nil =>
    intro p₂ t₁ t₂ h₁ _ h
    cases p₂ with
    | nil => exact ⟨rfl, List.tail_eq_of_cons_eq h⟩
    | cons x p₂ =>
      have ht : t₁ = p₂ ++ '.' :: t₂ := List.tail_eq_of_cons_eq h
      exact absurd (ht ▸ List.mem_append_right _ (List.mem_cons_self _ _)) h₁
  | cons y p₁ ih =>
    intro p₂ t₁ t₂ h₁ h₂ h
    cases p₂ with
    | nil =>
      have ht : p₁ ++ '.' :: t₁ = t₂ := List.tail_eq_of_cons_eq h
      exact absurd (ht ▸ List.mem_append_right _ (List.mem_cons_self _ _)) h₂
    | cons x p₂ =>
      have hhead : y = x := List.head_eq_of_cons_eq h
      obtain ⟨hp, ht⟩ := ih p₂ t₁ t₂ h₁ h₂ (List.tail_eq_of_cons_eq h)
      exact ⟨by rw [hhead, hp], ht⟩

/-- The suffix of a key body can be read back from the body: two bodies `n_t_u` followed
by `e` that are equal have the same `u`, when the two `u` have the same length, `t` and
`u` hold no dot, and `e` is either empty, with a name that holds no dot or is `.` alone, or
a dot followed by characters other than the dot. -/
theorem body_suffix_unique (n₁ n₂ t₁ t₂ u₁ u₂ e₁ e₂ : List Char)
    (hlen : u₁.length = u₂.length)
    (ht₁ : '.' ∉ t₁) (ht₂ : '.' ∉ t₂) (hu₁ : '.' ∉ u₁) (hu₂ : '.' ∉ u₂)
    (he₁ : (e₁ = [] ∧ ('.' ∉ n₁ ∨ n₁ = ['.'])) ∨ ∃ tail, e₁ = '.' :: tail ∧ '.' ∉ tail)
    (he₂ : (e₂ = [] ∧ ('.' ∉ n₂ ∨ n₂ = ['.'])) ∨ ∃ tail, e₂ = '.' :: tail ∧ '.' ∉ tail)
    (h : n₁ ++ '_' :: (t₁ ++ '_' :: (u₁ ++ e₁)) = n₂ ++ '_' :: (t₂ ++ '_' :: (u₂ ++ e₂))) :
    u₁ = u₂ := by
  have hmixed : ∀ (n t u m s v tail : List Char), '.' ∉ t → '.' ∉ u → ('.' ∉ n ∨ n = ['.']) →
      n ++ '_' :: (t ++ '_' :: (u ++ [])) = m ++ '_' :: (s ++ '_' :: (v ++ '.' :: tail)) →
      False := by
    intro n t u m s v tail ht hu hn heq
    have hplain : '.' ∉ '_' :: (t ++ '_' :: (u ++ [])) := by
      simp only [List.append_nil, List.mem_cons, List.mem_append, not_or]
      exact ⟨by decide, ht, by decide, hu⟩
    have hdot : ∀ w : List Char, '.' ∈ w ++ '_' :: (s ++ '_' :: (v ++ '.' :: tail)) := by
      intro w
      simp
    rcases hn with hn | hn
    · have hin := hdot m
      rw [← heq] at hin
      rcases List.mem_append.mp hin with h | h
      · exact hn h
      · exact hplain h
    · subst hn
      cases m with
      | nil => exact absurd (List.head_eq_of_cons_eq heq) (by decide)
      | cons x m =>
        have htail : '_' :: (t ++ '_' :: (u ++ [])) = m ++ '_' :: (s ++ '_' :: (v ++ '.' :: tail)) :=
          List.tail_eq_of_cons_eq heq
        exact hplain (htail ▸ hdot m)
  rcases he₁ with ⟨he₁, hn₁⟩ | ⟨tail₁, he₁, htail₁⟩
  · rcases he₂ with ⟨he₂, _⟩ | ⟨tail₂, he₂, _⟩
    · subst he₁ he₂
      have h' : (n₁ ++ '_' :: (t₁ ++ ['_'])) ++ u₁ = (n₂ ++ '_' :: (t₂ ++ ['_'])) ++ u₂ := by
        simpa using h
      exact (List.append_inj' h' hlen).2
    · subst he₁ he₂
      exact (hmixed n₁ t₁ u₁ n₂ t₂ u₂ tail₂ ht₁ hu₁ hn₁ h).elim
  · rcases he₂ with ⟨he₂, hn₂⟩ | ⟨tail₂, he₂, htail₂⟩
    · subst he₁ he₂
      exact (hmixed n₂ t₂ u₂ n₁ t₁ u₁ tail₁ ht₂ hu₂ hn₂ h.symm).elim
    · subst he₁ he₂
      have h' : (n₁ ++ '_' :: (t₁ ++ '_' :: u₁)) ++ '.' :: tail₁
          = (n₂ ++ '_' :: (t₂ ++ '_' :: u₂)) ++ '.' :: tail₂ := by
        simpa using h
      have hp := (last_dot_unique _ _ _ _ htail₁ htail₂ h').1
      have hp' : (n₁ ++ '_' :: (t₁ ++ ['_'])) ++ u₁ = (n₂ ++ '_' :: (t₂ ++ ['_'])) ++ u₂ := by
        simpa using hp
      exact (List.append_inj' hp' hlen).2

/-- When the scan of `filepath.Ext` finds no extension, the last path element holds no
dot. -/
theorem extScan_nil_no_dot (rev : List Char) :
    ∀ acc, extScan rev acc = [] → '.' ∉ rev.takeWhile (fun c => decide (c ≠ '/')) := by
  induction rev with
  | nil => intro acc _; simp
  | cons c before ih =>
    intro acc h
    by_cases hslash : c = '/'
    · simp [List.takeWhile_cons, hslash]
    · by_cases hdot : c = '.'
      · simp [extScan, hdot] at h
      · simp only [extScan, if_neg hslash, if_neg hdot] at h
        have hrest := ih _ h
        rw [List.takeWhile_cons, if_pos (by simpa using hslash)]
        intro hmem
        rcases List.mem_cons.mp hmem with hc | hc
        · exact hdot hc.symm
        · exact hrest hc

/-- The base name of a non-empty filename that does not end in a separator is its last
path element. -/
theorem base_last_element (f : String) (hne : f ≠ "") (hend : f.toList.getLast? ≠ some '/') :
    (Base f).toList = (f.toList.reverse.takeWhile (fun c => decide (c ≠ '/'))).reverse := by
  have hhead : f.toList.reverse.head? ≠ some '/' := by
    rw [List.head?_reverse]
    exact hend
  cases hrev : f.toList.reverse with
  | nil =>
    exfalso
    apply hne
    apply String.ext
    exact List.reverse_eq_nil_iff.mp hrev
  | cons x rest =>
    rw [hrev] at hhead
    have hx : x ≠ '/' := fun h => hhead (by rw [h]; rfl)
    unfold Base
    rw [if_neg hne]
    have hdrop : (x :: rest).dropWhile (fun c => decide (c = '/')) = x :: rest := by
      simp [List.dropWhile_cons, hx]
    have htake : (x :: rest).takeWhile (fun c => decide (c ≠ '/'))
        = x :: rest.takeWhile (fun c => decide (c ≠ '/')) := by
      simp [List.takeWhile_cons, hx]
    simp only [hrev, hdrop, htake]
    rw [if_neg (by simp)]
    rfl

/-- The sanitized name of a filename without extension that does not end in a separator
holds no dot, or it is the `.` that `filepath.Base` returns for the empty filename. -/
theorem sanitizedName_no_dot {table : Char → Char} (htable : SoundTable table) (f : String)
    (hend : f.toList.getLast? ≠ some '/') (hext : (Ext f).toList = []) :
    '.' ∉ (sanitizedName table f).toList ∨ (sanitizedName table f).toList = ['.'] := by
  by_cases hne : f = ""
  · right
    subst hne
    show [if '.' = ' ' then '_' else unicodeToLower table '.'] = ['.']
    rw [if_neg (by decide)]
    unfold unicodeToLower
    rw [if_pos (by decide)]
    decide
  · left
    intro hmem
    obtain ⟨c, hc, hval⟩ := List.mem_map.mp hmem
    have hbase : c ∈ (Base f).toList := mem_trimSuffix _ _ c hc
    rw [base_last_element f hne hend] at hbase
    have hcdot : c = '.' := by
      by_cases hsp : c = ' '
      · rw [if_pos hsp] at hval
        exact absurd hval (by decide)
      · rw [if_neg hsp] at hval
        exact (unicodeToLower_separator htable c).1 hval
    rw [hcdot] at hbase
    exact extScan_nil_no_dot f.toList.reverse [] hext (List.mem_reverse.mp hbase)

/-- The characters of a generated key: the folder and a separator when the folder is not
empty, then the body `n_t_u` followed by `e`. -/
theorem key_data (env : S3Env) (f d : String) :
    (generateUniqueFilename env f d).1.toList
      = (if d = "" then [] else d.toList ++ ['/'])
        ++ ((sanitizedName env.table f).toList ++ '_' :: (env.clock.Format.toList ++ '_' ::
            (hexEncode (env.uuid.bytes.take 4) ++ (Ext f).toList))) := by
  rw [← uuid_take_eight]
  by_cases hd : d = ""
  · simp only [generateUniqueFilename, sanitize_eq, hd, ne_eq, not_true_eq_false, if_false,
      if_true, String.toList, String.data_append]
    simp
  · simp only [generateUniqueFilename, sanitize_eq, hd, ne_eq, not_false_eq_true, if_false,
      if_true, String.toList, String.data_append]
    simp

/-- C27, as stated, fails: for the folder `ebooks` and one reading of the clock, the
filename `x_20240101_120000_1a2b3c4d.b/` with the suffix `deadbeef` and the filename
`x.b_20240101_120000_deadbeef` with the suffix `1a2b3c4d` get the same key, though the two
suffixes differ (8 characters each, with a timestamp of 15 characters, none of them `.` or
`/`).  The first filename ends in a separator: `filepath.Ext` finds no extension in it,
while `filepath.Base` returns its last element, dot included. -/
theorem different_suffix_same_key :
    freshUUID.String.toList.take 8 = "deadbeef".toList
    ∧ sampleUUID.String.toList.take 8 = "1a2b3c4d".toList
    ∧ sampleClock.Format = "20240101_120000"
    ∧ (generateUniqueFilename { sampleS3 with uuid := freshUUID }
        "x_20240101_120000_1a2b3c4d.b/" "ebooks").1
      = "ebooks/x_20240101_120000_1a2b3c4d.b_20240101_120000_deadbeef"
    ∧ (generateUniqueFilename { sampleS3 with uuid := sampleUUID }
        "x.b_20240101_120000_deadbeef" "ebooks").1
      = "ebooks/x_20240101_120000_1a2b3c4d.b_20240101_120000_deadbeef" := by
  refine ⟨by decide, by decide, by decide, by decide, by decide⟩

/-- C27, amended. For a fixed folder, `generateUniqueFilename` is injective in its random
suffix on the original filenames that do not end in `/`: two generations that draw
different suffixes return different keys, for every pair of such filenames and every pair
of clock readings; and two generations with the same filename, folder, timestamp and
suffix return the same key, each after one draw and one reading of the clock and nothing
else (a collision is neither detected nor retried).  The case tables of package `unicode`
enter through `SoundTable`. -/
theorem generateUniqueFilename_injective_suffix (env : S3Env) (htable : SoundTable env.table)
    (u₁ u₂ : UUID) (c₁ c₂ : Clock) (f₁ f₂ d : String) :
    (f₁.toList.getLast? ≠ some '/' → f₂.toList.getLast? ≠ some '/' →
      u₁.String.toList.take 8 ≠ u₂.String.toList.take 8 →
      (generateUniqueFilename { env with uuid := u₁, clock := c₁ } f₁ d).1
        ≠ (generateUniqueFilename { env with uuid := u₂, clock := c₂ } f₂ d).1)
    ∧ (u₁.String.toList.take 8 = u₂.String.toList.take 8 → c₁.Format = c₂.Format →
      (generateUniqueFilename { env with uuid := u₁, clock := c₁ } f₁ d).1
        = (generateUniqueFilename { env with uuid := u₂, clock := c₂ } f₁ d).1)
    ∧ (generateUniqueFilename { env with uuid := u₁, clock := c₁ } f₁ d).2
        = [.uuidNew, .timeNow] := by
  refine ⟨?_, ?_, ?_⟩
  · intro hend₁ hend₂ hne hkeys
    apply hne
    rw [uuid_take_eight, uuid_take_eight]
    have hdata := congrArg String.toList hkeys
    rw [key_data, key_data] at hdata
    have hbody := List.append_cancel_left hdata
    have hshape : ∀ f : String, f.toList.getLast? ≠ some '/' →
        ((Ext f).toList = []
            ∧ ('.' ∉ (sanitizedName env.table f).toList
                ∨ (sanitizedName env.table f).toList = ['.']))
          ∨ ∃ tail, (Ext f).toList = '.' :: tail ∧ '.' ∉ tail := by
      intro f hend
      rcases ext_shape f with hnil | ⟨tail, hcons, hclean⟩
      · exact Or.inl ⟨hnil, sanitizedName_no_dot htable f hend hnil⟩
      · exact Or.inr ⟨tail, hcons, fun h => (hclean _ h).1 rfl⟩
    refine body_suffix_unique _ _ _ _ _ _ _ _ ?_
      (fun h => (format_plain c₁ _ h).1 rfl) (fun h => (format_plain c₂ _ h).1 rfl)
      (fun h => (hexEncode_plain _ _ h).1 rfl) (fun h => (hexEncode_plain _ _ h).1 rfl)
      (hshape f₁ hend₁) (hshape f₂ hend₂) hbody
    rw [hexEncode_length, hexEncode_length, List.length_take, List.length_take, u₁.size,
      u₂.size]
  · intro hsuffix hformat
    apply String.ext
    have h₁ := key_data { env with uuid := u₁, clock := c₁ } f₁ d
    have h₂ := key_data { env with uuid := u₂, clock := c₂ } f₁ d
    rw [← uuid_take_eight] at h₁ h₂
    show (generateUniqueFilename { env with uuid := u₁, clock := c₁ } f₁ d).1.toList
      = (generateUniqueFilename { env with uuid := u₂, clock := c₂ } f₁ d).1.toList
    rw [h₁, h₂]
    show _ ++ (_ ++ '_' :: (c₁.Format.toList ++ '_' :: (u₁.String.toList.take 8 ++ _)))
      = _ ++ (_ ++ '_' :: (c₂.Format.toList ++ '_' :: (u₂.String.toList.take 8 ++ _)))
    rw [hsuffix, hformat]
  · unfold generateUniqueFilename
    simp only []
    split <;> rfl

theorem generateUniqueFilename_injective_suffix_witness :
    (generateUniqueFilename { sampleS3 with uuid := sampleUUID, clock := sampleClock }
        "a.png" "users/1/profile").1
      ≠ (generateUniqueFilename { sampleS3 with uuid := freshUUID, clock := ⟨2024, 1, 1, 12, 0, 1⟩ }
        "b c.png" "users/1/profile").1 :=
  (generateUniqueFilename_injective_suffix sampleS3 soundTable_id sampleUUID freshUUID
    sampleClock ⟨2024, 1, 1, 12, 0, 1⟩ "a.png" "b c.png" "users/1/profile").1
    (by decide) (by decide) (by decide)

/-! ## Omitted measurements -/

/-- Storing a member changes no field other than the one the member is stored in. -/
theorem storeMember_other_fields (json : JsonEnv) (st : SensorData × Option GoError)
    (m : String × JsonValue) :
    (fieldOf json.equalFold m.1 ≠ some .InstallCode
        → (storeMember json st m).1.InstallCode = st.1.InstallCode)
    ∧ (fieldOf json.equalFold m.1 ≠ some .Suhu → (storeMember json st m).1.Suhu = st.1.Suhu)
    ∧ (fieldOf json.equalFold m.1 ≠ some .Kelembaban
        → (storeMember json st m).1.Kelembaban = st.1.Kelembaban) := by
  unfold storeMember
  cases hfield : fieldOf json.equalFold m.1 with
  | none => simp
  | some f =>
    cases hval : m.2 with
    | number literal =>
      cases f <;> cases hparse : json.parseFloat literal <;> simp [hparse]
    | _ => cases f <;> simp

/-- Decoding an object leaves the fields it omits as they were. -/
theorem foldl_storeMember_omitted (json : JsonEnv) (members : List (String × JsonValue)) :
    ∀ st : SensorData × Option GoError,
      (Omits json.equalFold members .InstallCode
          → (members.foldl (storeMember json) st).1.InstallCode = st.1.InstallCode)
      ∧ (Omits json.equalFold members .Suhu
          → (members.foldl (storeMember json) st).1.Suhu = st.1.Suhu)
      ∧ (Omits json.equalFold members .Kelembaban
          → (members.foldl (storeMember json) st).1.Kelembaban = st.1.Kelembaban) := by
  induction members with
  | nil => intro st; simp
  | cons m rest ih =>
    intro st
    have hstep := storeMember_other_fields json st m
    have hrest := ih (storeMember json st m)
    simp only [List.foldl_cons]
    refine ⟨fun h => ?_, fun h => ?_, fun h => ?_⟩
    · rw [hrest.1 (fun x hx => h x (List.mem_cons_of_mem _ hx)),
        hstep.1 (h m (List.mem_cons_self _ _))]
    · rw [hrest.2.1 (fun x hx => h x (List.mem_cons_of_mem _ hx)),
        hstep.2.1 (h m (List.mem_cons_self _ _))]
    · rw [hrest.2.2 (fun x hx => h x (List.mem_cons_of_mem _ hx)),
        hstep.2.2 (h m (List.mem_cons_self _ _))]

/-- A run of `handleSensorData` on a payload that decodes as `data`: the one lookup is
made under the decoded install code; for a registered code exactly one `INSERT` carries
the decoded measurements, and its row is appended when the store accepts the write; for a
code that is not registered nothing is written. -/
theorem handleSensorData_decoded (env : IngestEnv) (payload : List UInt8) (w : World)
    (data : SensorData) (hdecode : env.unmarshal payload = .ok data) :
    lookupCalls (handleSensorData env payload w).calls
        = lookupCalls w.calls ++ [data.InstallCode]
    ∧ (env.lookupErr = none → data.InstallCode ∈ w.iot_devices →
        ∃ ts : Time,
          insertCalls (handleSensorData env payload w).calls
            = insertCalls w.calls ++ [⟨data.InstallCode, data.Suhu, data.Kelembaban, ts⟩]
          ∧ (env.insertErr = none →
              (handleSensorData env payload w).sensors
                = w.sensors ++ [⟨data.InstallCode, data.Suhu, data.Kelembaban, ts⟩]))
    ∧ (data.InstallCode ∉ w.iot_devices →
        insertCalls (handleSensorData env payload w).calls = insertCalls w.calls
        ∧ (handleSensorData env payload w).sensors = w.sensors) := by
  have hpos : data.InstallCode ∈ w.iot_devices →
      ((w.iot_devices.filter (fun c => c = data.InstallCode)).length : Int) ≠ 0 := by
    intro hregistered
    have hmem : data.InstallCode ∈ w.iot_devices.filter (fun c => c = data.InstallCode) := by
      simp [List.mem_filter, hregistered]
    have hlen := List.length_pos_of_mem hmem
    omega
  have hzero : data.InstallCode ∉ w.iot_devices →
      ((w.iot_devices.filter (fun c => c = data.InstallCode)).length : Int) = 0 := by
    intro hunknown
    have hnil : w.iot_devices.filter (fun c => c = data.InstallCode) = [] := by
      apply List.filter_eq_nil_iff.mpr
      intro c hc
      have hne : c ≠ data.InstallCode := fun heq => hunknown (heq ▸ hc)
      simpa using hne
    rw [hnil]
    rfl
  refine ⟨?_, ?_, ?_⟩
  · cases hlookup : env.lookupErr with
    | some e =>
      simp [handleSensorData, hdecode, hlookup, World.record, lookupCalls_append, lookupCalls]
    | none =>
      by_cases hregistered : data.InstallCode ∈ w.iot_devices
      · cases hinsert : env.insertErr <;>
          simp [handleSensorData, hdecode, hlookup, hinsert, World.record,
            hpos hregistered, lookupCalls_append, lookupCalls]
      · simp [handleSensorData, hdecode, hlookup, World.record,
          hzero hregistered, lookupCalls_append, lookupCalls]
  · intro hlookup hregistered
    refine ⟨if data.Timestamp ≠ "" then
        (match env.parseRFC3339 data.Timestamp with
          | .ok parsedTime => parsedTime
          | .error _ => env.now)
        else env.now, ?_, ?_⟩
    · cases hinsert : env.insertErr <;>
        simp [handleSensorData, hdecode, hlookup, hinsert, World.record,
          hpos hregistered, insertCalls_append, insertCalls]
    · intro hinsert
      simp [handleSensorData, hdecode, hlookup, hinsert, World.record, hpos hregistered]
  · intro hunknown
    cases hlookup : env.lookupErr <;>
      simp [handleSensorData, hdecode, hlookup, World.record,
        hzero hunknown, insertCalls_append, insertCalls]

/-- C30. `handleSensorData` validates neither the presence nor the range of the
measurements.  For every payload that is a JSON object and decodes into `SensorData`: a
measurement that the object omits is decoded as `0`, and an omitted `install_code` as the
empty string; the device lookup is made under the decoded `install_code`; when that code is
registered (the lookup succeeds and finds a row) exactly one `INSERT` is issued, carrying
the decoded `suhu` and `kelembaban` whatever their values, and its row is appended when
the store accepts the write; when that code is not registered no `INSERT` is issued and
the time-series table is unchanged. -/
theorem handleSensorData_omitted_fields (json : JsonEnv) (env : IngestEnv)
    (payload : List UInt8) (w : World) (members : List (String × JsonValue))
    (data : SensorData)
    (hscan : json.scan payload = .ok (.object members))
    (hdecode : jsonUnmarshal json payload = .ok data) :
    (Omits json.equalFold members .Suhu → data.Suhu = ⟨0⟩)
    ∧ (Omits json.equalFold members .Kelembaban → data.Kelembaban = ⟨0⟩)
    ∧ (Omits json.equalFold members .InstallCode → data.InstallCode = "")
    ∧ lookupCalls (handleSensorData (decodingEnv json env) payload w).calls
        = lookupCalls w.calls ++ [data.InstallCode]
    ∧ (env.lookupErr = none → data.InstallCode ∈ w.iot_devices →
        ∃ ts : Time,
          insertCalls (handleSensorData (decodingEnv json env) payload w).calls
            = insertCalls w.calls ++ [⟨data.InstallCode, data.Suhu, data.Kelembaban, ts⟩]
          ∧ (env.insertErr = none →
              (handleSensorData (decodingEnv json env) payload w).sensors
                = w.sensors ++ [⟨data.InstallCode, data.Suhu, data.Kelembaban, ts⟩]))
    ∧ (data.InstallCode ∉ w.iot_devices →
        insertCalls (handleSensorData (decodingEnv json env) payload w).calls
          = insertCalls w.calls
        ∧ (handleSensorData (decodingEnv json env) payload w).sensors = w.sensors) := by
  have hdata := jsonUnmarshal_object json payload members data hscan hdecode
  have homitted := foldl_storeMember_omitted json members (zeroSensorData, none)
  have hrun := handleSensorData_decoded (decodingEnv json env) payload w data hdecode
  refine ⟨fun h => ?_, fun h => ?_, fun h => ?_, hrun.1, hrun.2.1, hrun.2.2⟩
  · rw [hdata, homitted.2.1 h]
    rfl
  · rw [hdata, homitted.2.2 h]
    rfl
  · rw [hdata, homitted.1 h]
    rfl

theorem handleSensorData_omitted_fields_witness :
    (∃ ts : Time,
      insertCalls (handleSensorData (decodingEnv sampleJson sampleEnv) barePayload
          sampleWorld).calls
        = [⟨"SWF-001", ⟨0⟩, ⟨0⟩, ts⟩])
    ∧ lookupCalls (handleSensorData (decodingEnv sampleJson sampleEnv) anonymousPayload
          sampleWorld).calls
        = [""]
    ∧ insertCalls (handleSensorData (decodingEnv sampleJson sampleEnv) anonymousPayload
          sampleWorld).calls
        = [] := by
  have hbare := handleSensorData_omitted_fields sampleJson sampleEnv barePayload sampleWorld
    [("install_code", .string "SWF-001")] ⟨"SWF-001", ⟨0⟩, ⟨0⟩, ""⟩ (by rfl) (by rfl)
  have hanonymous := handleSensorData_omitted_fields sampleJson sampleEnv anonymousPayload
    sampleWorld [("kelembaban", .number "81")] ⟨"", ⟨0⟩, ⟨4635400285215260672⟩, ""⟩
    (by rfl) (by rfl)
  obtain ⟨ts, hcalls, _⟩ := hbare.2.2.2.2.1 rfl (by decide)
  exact ⟨⟨ts, hcalls⟩, hanonymous.2.2.2.1, (hanonymous.2.2.2.2.2 (by decide)).1⟩

end Smartlet
